import Mathlib

/-!
# embedded-json-serializer: a shallow embedding of `json_serializer.c`

The development embeds `json_serialize_gateway` and `json_get_max_output_size`
(`src/json_serializer.c`, `include/json_serializer.h`) and proves properties of them.

Conventions of the embedding

* A C string (`const char *`, NUL-terminated) is the `List Char` of its characters
  before the terminator, one `Char` per C `char`.
* `size_t`, `uint32_t` and `unsigned long` values are natural numbers.  The serializer only
  widens them (`(unsigned long)`), compares them, and adds a rendered length to `pos` under
  the guard `written < output_size - pos`, so no operation wraps.
* A fixed-capacity C array `T a[N]` is a function `Fin N → T`; reading slot `i` with
  `N ≤ i` is undefined behaviour and is reported as `Flow.bad_read`.
* The caller's buffer is the `List Char` of its bytes; a store outside it is undefined
  behaviour and is reported as `Flow.bad_write`.
* A C `float` is given by value (`CFloat`): sign, integer significand and binary exponent,
  or an infinity, or a NaN.
* The serializer calls `snprintf` and never sets the locale, so what a call does depends on
  the C implementation and on the numeric locale in effect when it is called.  Both are the
  parameter `env : Env` of every function that reaches `snprintf`: the decimal-point character
  `%.3f` prints, and `INT_MAX`, the largest length `snprintf` can return.
-/

namespace JsonSerializer

/-! ## Configuration limits (`json_serializer.h`) -/

/-- The macro `JSON_MAX_DEVICES`. -/
def JSON_MAX_DEVICES : Nat := 8

/-- The macro `JSON_MAX_DATA_POINTS`. -/
def JSON_MAX_DATA_POINTS : Nat := 16

/-! ## Data model (`json_serializer.h`) -/

/-- A C `float` by value: `finite neg m e` is `(-1)^neg * m * 2^e`; binary32 values have
`m < 2^24` and `-149 ≤ e ≤ 104`. -/
inductive CFloat where
  | finite (neg : Bool) (m : Nat) (e : Int)
  | inf (neg : Bool)
  | nan (neg : Bool)
  deriving DecidableEq, Repr

/-- The values of the binary32 format among the values of `CFloat`. -/
def CFloat.isBinary32 : CFloat → Bool
  | .finite _ m e => decide (m < 2 ^ 24) && decide (-149 ≤ e) && decide (e ≤ 104)
  | .inf _ => true
  | .nan _ => true

/-- Finite values (neither infinity nor NaN). -/
def CFloat.isFinite : CFloat → Bool
  | .finite _ _ _ => true
  | _ => false

/-- The struct `JsonMeterDataPoint`. -/
structure JsonMeterDataPoint where
  timestamp : List Char
  meter_datetime : List Char
  total_m3 : CFloat
  status : List Char
  deriving DecidableEq

/-- The struct `JsonDeviceReading`. -/
structure JsonDeviceReading where
  media : List Char
  meter : List Char
  device_id : List Char
  unit : List Char
  data : Fin JSON_MAX_DATA_POINTS → JsonMeterDataPoint
  data_count : Nat

/-- The struct `JsonValues`. -/
structure JsonValues where
  devices : Fin JSON_MAX_DEVICES → JsonDeviceReading
  device_count : Nat

/-- The struct `JsonGateway`. -/
structure JsonGateway where
  gateway_id : List Char
  date : List Char
  device_type : List Char
  interval_minutes : Nat
  total_readings : Nat
  values : JsonValues

/-! ## The C library: `snprintf` and its conversions -/

/-- What `snprintf` takes from the C implementation and from the locale in effect at the
call.  `decimal_point` is the decimal-point character of the numeric locale (`LC_NUMERIC`,
`localeconv()->decimal_point`): `.` in the "C" locale, which is in effect at program startup,
and whatever the caller selected with `setlocale` otherwise (`,` in many locales); it is a
character of a C string, so it is not the terminator.  `int_max` is `INT_MAX`, at least
32767 in every C implementation. -/
structure Env where
  decimal_point : Char
  decimal_point_ne_nul : decimal_point ≠ '\x00'
  int_max : Nat
  int_max_ge : 32767 ≤ int_max

/-- The "C" locale with a 32-bit `int`. -/
def c_env : Env :=
  { decimal_point := '.'
    decimal_point_ne_nul := by decide
    int_max := 2147483647
    int_max_ge := by decide }

/-- A locale whose decimal-point character is the comma (as after
`setlocale(LC_NUMERIC, "de_DE")`), with a 32-bit `int`. -/
def comma_env : Env :=
  { decimal_point := ','
    decimal_point_ne_nul := by decide
    int_max := 2147483647
    int_max_ge := by decide }

/-- The conversion `%lu`: canonical decimal digits of an unsigned value. -/
def fmt_lu (n : Nat) : List Char := Nat.toDigits 10 n

/-- Rounding of `num / den` to the nearest integer, ties to even. -/
def round_half_even (num den : Nat) : Nat :=
  let q := num / den
  let r := num % den
  if den < 2 * r ∨ (2 * r = den ∧ q % 2 = 1) then q + 1 else q

/-- The magnitude `m * 2^e` in thousandths, correctly rounded (to nearest, ties to even). -/
def milli (m : Nat) (e : Int) : Nat :=
  match e with
  | Int.ofNat k => m * 2 ^ k * 1000
  | Int.negSucc k => round_half_even (m * 1000) (2 ^ (k + 1))

/-- The conversion `%.3f` of a `float` argument (promoted to `double` without change of
value): sign, integer digits, the decimal-point character of the numeric locale, exactly
three fraction digits; `inf` and `nan` for the non-finite values.  The digits are those of
the value rounded to nearest, ties to even: the rounding of a correctly rounding C library
in the default rounding direction, which the serializer never changes. -/
def fmt_f3 (env : Env) : CFloat → List Char
  | .finite neg m e =>
    let q := milli m e
    (if neg then ['-'] else []) ++ Nat.toDigits 10 (q / 1000) ++
      [env.decimal_point, Nat.digitChar (q / 100 % 10), Nat.digitChar (q / 10 % 10),
        Nat.digitChar (q % 10)]
  | .inf neg => (if neg then ['-'] else []) ++ ['i', 'n', 'f']
  | .nan neg => (if neg then ['-'] else []) ++ ['n', 'a', 'n']

/-- The value `snprintf` returns when the format and its arguments render to `text`: the
length of `text`, the number of characters a large enough buffer would have received, when
an `int` can hold it, and the negative value -1 otherwise (the conversions `%s`, `%lu` and
`%.3f` have no encoding error, so a length above `INT_MAX` is the only failure; as in
ISO C, the size `n` of the array does not make the call fail). -/
def snprintf_result (env : Env) (text : List Char) : Int :=
  if text.length ≤ env.int_max then (text.length : Int) else -1

/-- The call `snprintf(mem + off, n, ...)` where the format and its arguments render to
`text`: for `n > 0` it stores the first `n - 1` characters of `text` (all of them when
fewer) followed by the terminator at `mem[off ..]`, also when the call fails (the C standard
does not say what a failed call leaves in the array; it never stores beyond `n` bytes); it
returns `snprintf_result`.  `none` is a store outside `mem`. -/
def snprintf (env : Env) (mem : List Char) (off n : Nat) (text : List Char) :
    Option (List Char × Int) :=
  if n = 0 then some (mem, snprintf_result env text)
  else
    let stored := text.take (n - 1) ++ ['\x00']
    if off + stored.length ≤ mem.length then
      some (mem.take off ++ stored ++ mem.drop (off + stored.length), snprintf_result env text)
    else none

/-! ## Control flow -/

/-- The buffer and the write position `pos` of `json_serialize_gateway`. -/
structure Cursor where
  output : List Char
  pos : Nat
  deriving DecidableEq, Repr

/-- Where a statement leaves the function: it falls through to the next statement, it
executes `return code`, or its behaviour is undefined: a read past the end of an array
(`bad_read`) or a store outside the buffer (`bad_write`). -/
inductive Flow (α : Type) where
  | next (a : α)
  | ret (code : Int) (c : Cursor)
  | bad_read
  | bad_write
  deriving DecidableEq, Repr

/-- Sequencing of statements. -/
def Flow.bind {α β : Type} (x : Flow α) (f : α → Flow β) : Flow β :=
  match x with
  | .next a => f a
  | .ret code c => .ret code c
  | .bad_read => .bad_read
  | .bad_write => .bad_write

instance : Monad Flow where
  pure := Flow.next
  bind := Flow.bind

/-- Read of slot `i` of a fixed-capacity array. -/
def slot {α : Type} {n : Nat} (a : Fin n → α) (i : Nat) : Flow α :=
  if h : i < n then .next (a ⟨i, h⟩) else .bad_read

/-- The macro `APPEND_FMT(...)`, with `text` the rendering of its format and arguments. -/
def APPEND_FMT (env : Env) (output_size : Nat) (text : List Char) (c : Cursor) :
    Flow Cursor :=
  match snprintf env c.output c.pos (output_size - c.pos) text with
  | none => .bad_write
  | some (out, written) =>
    if written < 0 then .ret (-3) ⟨out, c.pos⟩
    else if written.toNat ≥ output_size - c.pos then .ret (-2) ⟨out, c.pos⟩
    else .next ⟨out, c.pos + written.toNat⟩

/-! ## `json_serialize_gateway` -/

/-- The inner loop `for (j = ...; j < dev->data_count; j++)`, entered at index `j` with
`k = data_count - j` iterations to go (`j < data_count` exactly when `k` is a successor).
The address `&dev->data[j]` is formed first; slot `j` is read by the first `dp->` access,
after `APPEND_FMT("{")`. -/
def data_loop (env : Env) (output_size : Nat) (dev : JsonDeviceReading) :
    Nat → Nat → Cursor → Flow Cursor
  | 0, _, c => .next c
  | k + 1, j, c => do
    let c ← APPEND_FMT env output_size "\x7b".toList c
    let dp ← slot dev.data j
    let c ← APPEND_FMT env output_size
      ("\"timestamp\":\"".toList ++ dp.timestamp ++ "\",".toList) c
    let c ← APPEND_FMT env output_size
      ("\"meter_datetime\":\"".toList ++ dp.meter_datetime ++ "\",".toList) c
    let c ← APPEND_FMT env output_size
      ("\"total_m3\":".toList ++ fmt_f3 env dp.total_m3 ++ ",".toList) c
    let c ← APPEND_FMT env output_size
      ("\"status\":\"".toList ++ dp.status ++ "\"".toList) c
    let c ← APPEND_FMT env output_size "\x7d".toList c
    let c ← if j + 1 < dev.data_count then APPEND_FMT env output_size ",".toList c else pure c
    data_loop env output_size dev k (j + 1) c

/-- The outer loop `for (i = ...; i < gateway->values.device_count; i++)`, entered at
index `i` with `k = device_count - i` iterations to go (`i < device_count` exactly when `k`
is a successor).  The address `&gateway->values.devices[i]` is formed first; slot `i` is
read by the first `dev->` access, after `APPEND_FMT("{")`. -/
def device_loop (env : Env) (output_size : Nat) (values : JsonValues) :
    Nat → Nat → Cursor → Flow Cursor
  | 0, _, c => .next c
  | k + 1, i, c => do
    let c ← APPEND_FMT env output_size "\x7b".toList c
    let dev ← slot values.devices i
    let c ← APPEND_FMT env output_size ("\"media\":\"".toList ++ dev.media ++ "\",".toList) c
    let c ← APPEND_FMT env output_size ("\"meter\":\"".toList ++ dev.meter ++ "\",".toList) c
    let c ← APPEND_FMT env output_size
      ("\"deviceId\":\"".toList ++ dev.device_id ++ "\",".toList) c
    let c ← APPEND_FMT env output_size ("\"unit\":\"".toList ++ dev.unit ++ "\",".toList) c
    let c ← APPEND_FMT env output_size "\"data\":[".toList c
    let c ← data_loop env output_size dev (dev.data_count - 0) 0 c
    let c ← APPEND_FMT env output_size "]\x7d".toList c
    let c ← if i + 1 < values.device_count then APPEND_FMT env output_size ",".toList c
      else pure c
    device_loop env output_size values k (i + 1) c

/-- The statements of `json_serialize_gateway` after the parameter checks, from
`pos = 0` to `return 0`. -/
def serialize_body (env : Env) (gateway : JsonGateway) (output : List Char)
    (output_size : Nat) : Flow Cursor := do
  let c : Cursor := ⟨output, 0⟩
  let c ← APPEND_FMT env output_size "[\x7b".toList c
  let c ← APPEND_FMT env output_size
    ("\"gatewayId\":\"".toList ++ gateway.gateway_id ++ "\",".toList) c
  let c ← APPEND_FMT env output_size ("\"date\":\"".toList ++ gateway.date ++ "\",".toList) c
  let c ← APPEND_FMT env output_size
    ("\"deviceType\":\"".toList ++ gateway.device_type ++ "\",".toList) c
  let c ← APPEND_FMT env output_size
    ("\"interval_minutes\":".toList ++ fmt_lu gateway.interval_minutes ++ ",".toList) c
  let c ← APPEND_FMT env output_size
    ("\"total_readings\":".toList ++ fmt_lu gateway.total_readings ++ ",".toList) c
  let c ← APPEND_FMT env output_size "\"values\":\x7b".toList c
  let c ← APPEND_FMT env output_size
    ("\"device_count\":".toList ++ fmt_lu gateway.values.device_count ++ ",".toList) c
  let c ← APPEND_FMT env output_size "\"readings\":[".toList c
  let c ← device_loop env output_size gateway.values (gateway.values.device_count - 0) 0 c
  let c ← APPEND_FMT env output_size "]\x7d".toList c
  let c ← APPEND_FMT env output_size "\x7d]".toList c
  Flow.ret 0 c

/-- What a call leaves behind: the returned code and the buffer (absent when the caller
passed a null `output`), or undefined behaviour (a read past the end of an array, a store
outside the buffer). -/
inductive Outcome where
  | returned (code : Int) (output : Option (List Char))
  | bad_read
  | bad_write
  deriving DecidableEq, Repr

/-- The function `json_serialize_gateway(gateway, output, output_size)`; `none` is a null
pointer. -/
def json_serialize_gateway (env : Env) (gateway : Option JsonGateway)
    (output : Option (List Char)) (output_size : Nat) : Outcome :=
  match gateway, output with
  | some g, some buf =>
    if output_size = 0 then .returned (-1) (some buf)
    else
      match serialize_body env g buf output_size with
      | .next c => .returned 0 (some c.output)
      | .ret code c => .returned code (some c.output)
      | .bad_read => .bad_read
      | .bad_write => .bad_write
  | _, _ => .returned (-1) output

/-- The function `json_get_max_output_size()`. -/
def json_get_max_output_size : Nat :=
  let base_overhead := 256
  let per_data_point := 128
  let per_device := 128 + JSON_MAX_DATA_POINTS * per_data_point
  base_overhead + JSON_MAX_DEVICES * per_device

/-! ## Auxiliary definitions for the proofs -/

/-- The buffer `buf` after `text` and a terminator were stored at offset `pos`. -/
def store (buf : List Char) (pos : Nat) (text : List Char) : List Char :=
  buf.take pos ++ text ++ '\x00' :: buf.drop (pos + text.length + 1)

/-- A run of `APPEND_FMT` statements, one per rendered fragment. -/
def emit (env : Env) (output_size : Nat) : List (List Char) → Cursor → Flow Cursor
  | [], c => .next c
  | t :: ts, c => (APPEND_FMT env output_size t c).bind (emit env output_size ts)

/-- Groups of fragments with one `,` fragment between consecutive groups. -/
def sep_frags : List (List (List Char)) → List (List Char)
  | [] => []
  | [x] => x
  | x :: y :: r => x ++ ",".toList :: sep_frags (y :: r)

/-- The fragments the inner loop body appends for one data point. -/
def point_frags (env : Env) (dp : JsonMeterDataPoint) : List (List Char) :=
  ["\x7b".toList,
   "\"timestamp\":\"".toList ++ dp.timestamp ++ "\",".toList,
   "\"meter_datetime\":\"".toList ++ dp.meter_datetime ++ "\",".toList,
   "\"total_m3\":".toList ++ fmt_f3 env dp.total_m3 ++ ",".toList,
   "\"status\":\"".toList ++ dp.status ++ "\"".toList,
   "\x7d".toList]

/-- The fragments of one device before its data points. -/
def device_open_frags (dev : JsonDeviceReading) : List (List Char) :=
  ["\x7b".toList,
   "\"media\":\"".toList ++ dev.media ++ "\",".toList,
   "\"meter\":\"".toList ++ dev.meter ++ "\",".toList,
   "\"deviceId\":\"".toList ++ dev.device_id ++ "\",".toList,
   "\"unit\":\"".toList ++ dev.unit ++ "\",".toList,
   "\"data\":[".toList]

/-- The fragments the outer loop body appends for one device. -/
def device_frags (env : Env) (dev : JsonDeviceReading) : List (List Char) :=
  device_open_frags dev
    ++ sep_frags (((List.ofFn dev.data).take dev.data_count).map (point_frags env))
    ++ ["]\x7d".toList]

/-- The fragments appended before the outer loop. -/
def gateway_open_frags (g : JsonGateway) : List (List Char) :=
  ["[\x7b".toList,
   "\"gatewayId\":\"".toList ++ g.gateway_id ++ "\",".toList,
   "\"date\":\"".toList ++ g.date ++ "\",".toList,
   "\"deviceType\":\"".toList ++ g.device_type ++ "\",".toList,
   "\"interval_minutes\":".toList ++ fmt_lu g.interval_minutes ++ ",".toList,
   "\"total_readings\":".toList ++ fmt_lu g.total_readings ++ ",".toList,
   "\"values\":\x7b".toList,
   "\"device_count\":".toList ++ fmt_lu g.values.device_count ++ ",".toList,
   "\"readings\":[".toList]

/-- All fragments of a call, in the order of the `APPEND_FMT` statements executed for a
record whose counts are within the capacities. -/
def gateway_frags (env : Env) (g : JsonGateway) : List (List Char) :=
  gateway_open_frags g
    ++ sep_frags
      (((List.ofFn g.values.devices).take g.values.device_count).map (device_frags env))
    ++ ["]\x7d".toList, "\x7d]".toList]

/-- The count invariant of the data model: `device_count ≤ JSON_MAX_DEVICES` and
`data_count ≤ JSON_MAX_DATA_POINTS` for every device below `device_count`. -/
def within_capacity (g : JsonGateway) : Prop :=
  g.values.device_count ≤ JSON_MAX_DEVICES ∧
    ∀ i : Fin JSON_MAX_DEVICES, i.val < g.values.device_count →
      (g.values.devices i).data_count ≤ JSON_MAX_DATA_POINTS

instance (g : JsonGateway) : Decidable (within_capacity g) := by
  unfold within_capacity; exact inferInstance

/-! ## The JSON text of a record, as the specification describes it -/

/-- The device slots below `device_count`, in index order. -/
def JsonGateway.readings (g : JsonGateway) : List JsonDeviceReading :=
  (List.ofFn g.values.devices).take g.values.device_count

/-- The data-point slots of a device below `data_count`, in index order. -/
def JsonDeviceReading.points (d : JsonDeviceReading) : List JsonMeterDataPoint :=
  (List.ofFn d.data).take d.data_count

/-- One data-point object. -/
def point_text (env : Env) (p : JsonMeterDataPoint) : List Char :=
  "\x7b\"timestamp\":\"".toList ++ p.timestamp
    ++ "\",\"meter_datetime\":\"".toList ++ p.meter_datetime
    ++ "\",\"total_m3\":".toList ++ fmt_f3 env p.total_m3
    ++ ",\"status\":\"".toList ++ p.status ++ "\"\x7d".toList

/-- The text of a device object before its first data point. -/
def device_head (d : JsonDeviceReading) : List Char :=
  "\x7b\"media\":\"".toList ++ d.media
    ++ "\",\"meter\":\"".toList ++ d.meter
    ++ "\",\"deviceId\":\"".toList ++ d.device_id
    ++ "\",\"unit\":\"".toList ++ d.unit
    ++ "\",\"data\":[".toList

/-- One device object; its data points are joined by single commas. -/
def device_text (env : Env) (d : JsonDeviceReading) : List Char :=
  device_head d ++ List.intercalate [','] (d.points.map (point_text env)) ++ "]\x7d".toList

/-- The text before the first device object. -/
def gateway_head (g : JsonGateway) : List Char :=
  "[\x7b\"gatewayId\":\"".toList ++ g.gateway_id
    ++ "\",\"date\":\"".toList ++ g.date
    ++ "\",\"deviceType\":\"".toList ++ g.device_type
    ++ "\",\"interval_minutes\":".toList ++ fmt_lu g.interval_minutes
    ++ ",\"total_readings\":".toList ++ fmt_lu g.total_readings
    ++ ",\"values\":\x7b\"device_count\":".toList ++ fmt_lu g.values.device_count
    ++ ",\"readings\":[".toList

/-- The complete JSON text of a record; its device objects are joined by single commas. -/
def gateway_text (env : Env) (g : JsonGateway) : List Char :=
  gateway_head g ++ List.intercalate [','] (g.readings.map (device_text env))
    ++ "]\x7d\x7d]".toList

/-- The number a string of decimal digits denotes. -/
def decimal_value (cs : List Char) : Nat :=
  cs.foldl (fun a c => 10 * a + (c.toNat - '0'.toNat)) 0

/-! ## The end-to-end example of the specification -/

/-- The data point of the example: `total_m3` is the `float` nearest to 12.345,
`12944671 * 2^-20` (it differs from 12.345 by `0.28 * 2^-20`, less than half a unit in the
last place). -/
def example_point : JsonMeterDataPoint :=
  { timestamp := "2024-01-01 00:00".toList
    meter_datetime := "2024-01-01 00:00".toList
    total_m3 := .finite false 12944671 (-20)
    status := "OK".toList }

/-- The device of the example, with one valid data point. -/
def example_device : JsonDeviceReading :=
  { media := "water".toList
    meter := "m1".toList
    device_id := "d1".toList
    unit := "m3".toList
    data := fun _ => example_point
    data_count := 1 }

/-- The record of the example, with one valid device. -/
def example_gateway : JsonGateway :=
  { gateway_id := "GW1".toList
    date := "2024-01-01".toList
    device_type := "meter".toList
    interval_minutes := 15
    total_readings := 1
    values := { devices := fun _ => example_device, device_count := 1 } }

/-- The JSON text the specification gives for the example. -/
def example_text : List Char :=
  ("[\x7b\"gatewayId\":\"GW1\",\"date\":\"2024-01-01\",\"deviceType\":\"meter\"," ++
   "\"interval_minutes\":15,\"total_readings\":1,\"values\":\x7b\"device_count\":1," ++
   "\"readings\":[\x7b\"media\":\"water\",\"meter\":\"m1\",\"deviceId\":\"d1\"," ++
   "\"unit\":\"m3\",\"data\":[\x7b\"timestamp\":\"2024-01-01 00:00\"," ++
   "\"meter_datetime\":\"2024-01-01 00:00\",\"total_m3\":12.345,\"status\":\"OK\"\x7d]\x7d]" ++
   "\x7d\x7d]").toList

/-! ## A record that fills the capacities -/

/-- A data point in the documented formats whose `total_m3` is the largest finite `float`,
`(2^24 - 1) * 2^104`. -/
def big_point : JsonMeterDataPoint :=
  { timestamp := "2024-01-01 00:00".toList
    meter_datetime := "2024-01-01 00:00".toList
    total_m3 := .finite false (2 ^ 24 - 1) 104
    status := "OK".toList }

/-- A device with all 16 data points valid, text fields as in the header's examples. -/
def big_device : JsonDeviceReading :=
  { media := "water".toList
    meter := "waterstarm".toList
    device_id := "stromleser_50898527".toList
    unit := "m3".toList
    data := fun _ => big_point
    data_count := 16 }

/-- A record with all 8 devices valid. -/
def big_gateway : JsonGateway :=
  { gateway_id := "GW1".toList
    date := "2024-01-01".toList
    device_type := "stromleser".toList
    interval_minutes := 15
    total_readings := 128
    values := { devices := fun _ => big_device, device_count := 8 } }

/-! ## Predicates over the outcomes of statements -/

/-- The outcome `x` satisfies `P` if it falls through, `Q` if it returns, `W` if it stores
outside the buffer; a read past the end of an array is not constrained. -/
def Flow.sat {α : Type} (P : α → Prop) (Q : Int → Cursor → Prop) (W : Prop) :
    Flow α → Prop
  | .next a => P a
  | .ret code c => Q code c
  | .bad_read => True
  | .bad_write => W

/-- The cursor is inside a buffer of `size` bytes: the buffer has that many bytes and
`pos < size`. -/
def Cursor.inside (size : Nat) (c : Cursor) : Prop :=
  c.output.length = size ∧ c.pos < size

/-! ## Records that agree on the slots below the counts -/

/-- Two devices agree on their text fields, on `data_count`, and on the data points of the
slots below `data_count`. -/
def JsonDeviceReading.agrees (d1 d2 : JsonDeviceReading) : Prop :=
  d1.media = d2.media ∧ d1.meter = d2.meter ∧ d1.device_id = d2.device_id ∧
    d1.unit = d2.unit ∧ d1.data_count = d2.data_count ∧
    ∀ j : Fin JSON_MAX_DATA_POINTS, j.val < d1.data_count → d1.data j = d2.data j

/-- Two records agree on the gateway-level fields, on `device_count`, and on the devices of
the slots below `device_count`. -/
def JsonGateway.agrees (g1 g2 : JsonGateway) : Prop :=
  g1.gateway_id = g2.gateway_id ∧ g1.date = g2.date ∧ g1.device_type = g2.device_type ∧
    g1.interval_minutes = g2.interval_minutes ∧ g1.total_readings = g2.total_readings ∧
    g1.values.device_count = g2.values.device_count ∧
    ∀ i : Fin JSON_MAX_DEVICES, i.val < g1.values.device_count →
      (g1.values.devices i).agrees (g2.values.devices i)

instance (d1 d2 : JsonDeviceReading) : Decidable (d1.agrees d2) := by
  unfold JsonDeviceReading.agrees; exact inferInstance

instance (g1 g2 : JsonGateway) : Decidable (g1.agrees g2) := by
  unfold JsonGateway.agrees; exact inferInstance

/-- The example device with other contents in the data slots from 1 on. -/
def example_device_alt : JsonDeviceReading :=
  { example_device with data := fun j => if j.val = 0 then example_point else big_point }

/-- The example record with other contents in the device slots from 1 on, and in the data
slots from 1 on of device 0. -/
def example_gateway_alt : JsonGateway :=
  { example_gateway with
    values :=
      { devices := fun i => if i.val = 0 then example_device_alt else big_device
        device_count := 1 } }

/-- A record without valid devices. -/
def empty_gateway : JsonGateway :=
  { example_gateway with
    total_readings := 0
    values := { devices := fun _ => example_device, device_count := 0 } }

/-! ## The JSON grammar of RFC 8259

The productions of RFC 8259, sections 2 to 7, over lists of characters.  Each inductive
constructor is one alternative of a production and carries the text it derives as an
equation. -/

/-- `ws`: a run of spaces, horizontal tabs, line feeds and carriage returns. -/
def JsonWs (s : List Char) : Prop :=
  ∀ c ∈ s, c = ' ' ∨ c = '\t' ∨ c = '\n' ∨ c = '\r'

/-- `1*DIGIT`: a non-empty run of decimal digits. -/
def JsonDigits (s : List Char) : Prop :=
  s ≠ [] ∧ ∀ c ∈ s, c.isDigit = true

/-- `int = zero / ( digit1-9 *DIGIT )`. -/
def JsonInt (s : List Char) : Prop :=
  s = ['0'] ∨ ∃ d rest, s = d :: rest ∧ d.isDigit = true ∧ d ≠ '0' ∧
    ∀ c ∈ rest, c.isDigit = true

/-- `[ frac ]` with `frac = decimal-point 1*DIGIT`. -/
def JsonFrac (s : List Char) : Prop :=
  s = [] ∨ ∃ ds, s = '.' :: ds ∧ JsonDigits ds

/-- `[ exp ]` with `exp = e [ minus / plus ] 1*DIGIT`. -/
def JsonExp (s : List Char) : Prop :=
  s = [] ∨ ∃ e sign ds, s = e :: (sign ++ ds) ∧ (e = 'e' ∨ e = 'E') ∧
    (sign = [] ∨ sign = ['-'] ∨ sign = ['+']) ∧ JsonDigits ds

/-- `number = [ minus ] int [ frac ] [ exp ]`. -/
def JsonNumber (s : List Char) : Prop :=
  ∃ minus int frac exp, s = minus ++ int ++ frac ++ exp ∧ (minus = [] ∨ minus = ['-']) ∧
    JsonInt int ∧ JsonFrac frac ∧ JsonExp exp

/-- `HEXDIG`. -/
def isHexDigit (c : Char) : Bool :=
  c.isDigit || ('a' ≤ c && c ≤ 'f') || ('A' ≤ c && c ≤ 'F')

/-- `*char`: the characters between the quotation marks of a string.  A `char` is an
unescaped character (`%x20-21 / %x23-5B / %x5D-10FFFF`) or an escape sequence. -/
inductive JsonChars : List Char → Prop where
  | nil : JsonChars []
  | unescaped (c : Char) (rest : List Char) :
      0x20 ≤ c.toNat → c ≠ '"' → c ≠ '\\' → JsonChars rest → JsonChars (c :: rest)
  | escape (e : Char) (rest : List Char) :
      e ∈ ['"', '\\', '/', 'b', 'f', 'n', 'r', 't'] → JsonChars rest →
      JsonChars ('\\' :: e :: rest)
  | unicode (a b c d : Char) (rest : List Char) :
      isHexDigit a = true → isHexDigit b = true → isHexDigit c = true →
      isHexDigit d = true → JsonChars rest → JsonChars ('\\' :: 'u' :: a :: b :: c :: d :: rest)

/-- `string = quotation-mark *char quotation-mark`. -/
def JsonString (s : List Char) : Prop :=
  ∃ body, s = '"' :: (body ++ ['"']) ∧ JsonChars body

mutual
/-- `value = false / null / true / object / array / number / string`. -/
inductive JsonValue : List Char → Prop where
  | lit_false (s : List Char) : s = "false".toList → JsonValue s
  | lit_null (s : List Char) : s = "null".toList → JsonValue s
  | lit_true (s : List Char) : s = "true".toList → JsonValue s
  | object (s : List Char) : JsonObject s → JsonValue s
  | array (s : List Char) : JsonArray s → JsonValue s
  | number (s : List Char) : JsonNumber s → JsonValue s
  | string (s : List Char) : JsonString s → JsonValue s
/-- `object = begin-object [ member *( value-separator member ) ] end-object`, with
`begin-object = ws %x7B ws` and `end-object = ws %x7D ws`. -/
inductive JsonObject : List Char → Prop where
  | empty (s w1 w2 w3 w4 : List Char) :
      JsonWs w1 → JsonWs w2 → JsonWs w3 → JsonWs w4 →
      s = w1 ++ ['\x7b'] ++ w2 ++ w3 ++ ['\x7d'] ++ w4 → JsonObject s
  | members (s w1 w2 ms w3 w4 : List Char) :
      JsonWs w1 → JsonWs w2 → JsonMembers ms → JsonWs w3 → JsonWs w4 →
      s = w1 ++ ['\x7b'] ++ w2 ++ ms ++ w3 ++ ['\x7d'] ++ w4 → JsonObject s
/-- `member *( value-separator member )`, with `member = string name-separator value`,
`name-separator = ws %x3A ws` and `value-separator = ws %x2C ws`. -/
inductive JsonMembers : List Char → Prop where
  | one (s k w1 w2 v : List Char) :
      JsonString k → JsonWs w1 → JsonWs w2 → JsonValue v →
      s = k ++ w1 ++ [':'] ++ w2 ++ v → JsonMembers s
  | more (s k w1 w2 v w3 w4 rest : List Char) :
      JsonString k → JsonWs w1 → JsonWs w2 → JsonValue v → JsonWs w3 → JsonWs w4 →
      JsonMembers rest →
      s = k ++ w1 ++ [':'] ++ w2 ++ v ++ w3 ++ [','] ++ w4 ++ rest → JsonMembers s
/-- `array = begin-array [ value *( value-separator value ) ] end-array`, with
`begin-array = ws %x5B ws` and `end-array = ws %x5D ws`. -/
inductive JsonArray : List Char → Prop where
  | empty (s w1 w2 w3 w4 : List Char) :
      JsonWs w1 → JsonWs w2 → JsonWs w3 → JsonWs w4 →
      s = w1 ++ ['['] ++ w2 ++ w3 ++ [']'] ++ w4 → JsonArray s
  | elements (s w1 w2 es w3 w4 : List Char) :
      JsonWs w1 → JsonWs w2 → JsonElements es → JsonWs w3 → JsonWs w4 →
      s = w1 ++ ['['] ++ w2 ++ es ++ w3 ++ [']'] ++ w4 → JsonArray s
/-- `value *( value-separator value )`. -/
inductive JsonElements : List Char → Prop where
  | one (s : List Char) : JsonValue s → JsonElements s
  | more (s v w1 w2 rest : List Char) :
      JsonValue v → JsonWs w1 → JsonWs w2 → JsonElements rest →
      s = v ++ w1 ++ [','] ++ w2 ++ rest → JsonElements s
end

/-- `member = string name-separator value`. -/
def JsonMember (s : List Char) : Prop :=
  ∃ k w1 w2 v, s = k ++ w1 ++ [':'] ++ w2 ++ v ∧ JsonString k ∧ JsonWs w1 ∧ JsonWs w2 ∧
    JsonValue v

/-- `JSON-text = ws value ws`. -/
def JsonText (s : List Char) : Prop :=
  ∃ w1 v w2, s = w1 ++ v ++ w2 ∧ JsonWs w1 ∧ JsonValue v ∧ JsonWs w2

/-- A JSON text that is an array with exactly one element, an object. -/
def JsonOneObjectArray (s : List Char) : Prop :=
  JsonText s ∧ ∃ o, s = ['['] ++ o ++ [']'] ∧ JsonObject o

/-! ## Records whose text fields need no escaping -/

/-- A text without double quote, backslash and control character (below U+0020). -/
def clean_text (s : List Char) : Prop :=
  ∀ c ∈ s, c ≠ '"' ∧ c ≠ '\\' ∧ 0x20 ≤ c.toNat

/-- A data point with clean text fields and a finite `total_m3`. -/
def JsonMeterDataPoint.clean (p : JsonMeterDataPoint) : Prop :=
  clean_text p.timestamp ∧ clean_text p.meter_datetime ∧ clean_text p.status ∧
    p.total_m3.isFinite = true

/-- A device with clean text fields whose data points below `data_count` are clean. -/
def JsonDeviceReading.clean (d : JsonDeviceReading) : Prop :=
  clean_text d.media ∧ clean_text d.meter ∧ clean_text d.device_id ∧ clean_text d.unit ∧
    ∀ j : Fin JSON_MAX_DATA_POINTS, j.val < d.data_count → (d.data j).clean

/-- A record with clean text fields whose devices below `device_count` are clean. -/
def JsonGateway.clean (g : JsonGateway) : Prop :=
  clean_text g.gateway_id ∧ clean_text g.date ∧ clean_text g.device_type ∧
    ∀ i : Fin JSON_MAX_DEVICES, i.val < g.values.device_count → (g.values.devices i).clean

instance (s : List Char) : Decidable (clean_text s) := by
  unfold clean_text; exact inferInstance

instance (p : JsonMeterDataPoint) : Decidable p.clean := by
  unfold JsonMeterDataPoint.clean; exact inferInstance

instance (d : JsonDeviceReading) : Decidable d.clean := by
  unfold JsonDeviceReading.clean; exact inferInstance

instance (g : JsonGateway) : Decidable g.clean := by
  unfold JsonGateway.clean; exact inferInstance

/-! ## The text of a record by its JSON structure -/

/-- A string token: the characters between quotation marks. -/
def json_str (s : List Char) : List Char := ['"'] ++ s ++ ['"']

/-- A member: a name, a colon, a value. -/
def json_kv (name : String) (v : List Char) : List Char := json_str name.toList ++ [':'] ++ v

/-- An object: members joined by commas between braces. -/
def json_obj (members : List (List Char)) : List Char :=
  ['\x7b'] ++ List.intercalate [','] members ++ ['\x7d']

/-- An array: elements joined by commas between brackets. -/
def json_arr (elements : List (List Char)) : List Char :=
  ['['] ++ List.intercalate [','] elements ++ [']']

/-- A data point as a JSON object. -/
def point_json (env : Env) (p : JsonMeterDataPoint) : List Char :=
  json_obj [json_kv "timestamp" (json_str p.timestamp),
    json_kv "meter_datetime" (json_str p.meter_datetime),
    json_kv "total_m3" (fmt_f3 env p.total_m3),
    json_kv "status" (json_str p.status)]

/-- A device as a JSON object. -/
def device_json (env : Env) (d : JsonDeviceReading) : List Char :=
  json_obj [json_kv "media" (json_str d.media),
    json_kv "meter" (json_str d.meter),
    json_kv "deviceId" (json_str d.device_id),
    json_kv "unit" (json_str d.unit),
    json_kv "data" (json_arr (d.points.map (point_json env)))]

/-- The gateway object. -/
def gateway_object_json (env : Env) (g : JsonGateway) : List Char :=
  json_obj [json_kv "gatewayId" (json_str g.gateway_id),
    json_kv "date" (json_str g.date),
    json_kv "deviceType" (json_str g.device_type),
    json_kv "interval_minutes" (fmt_lu g.interval_minutes),
    json_kv "total_readings" (fmt_lu g.total_readings),
    json_kv "values" (json_obj [json_kv "device_count" (fmt_lu g.values.device_count),
      json_kv "readings" (json_arr (g.readings.map (device_json env)))])]

/-- A record as a JSON array of one object. -/
def gateway_json (env : Env) (g : JsonGateway) : List Char :=
  json_arr [gateway_object_json env g]

/-! ## The estimator in machine arithmetic -/

/-- The function `json_get_max_output_size()` computed in a `size_t` of `w` bits: every
constant, product and sum is reduced modulo `2^w`. -/
def json_get_max_output_size_wrapping (w : Nat) : Nat :=
  let base_overhead := 256 % 2 ^ w
  let per_data_point := 128 % 2 ^ w
  let per_device := (128 + JSON_MAX_DATA_POINTS * per_data_point % 2 ^ w) % 2 ^ w
  (base_overhead + JSON_MAX_DEVICES * per_device % 2 ^ w) % 2 ^ w

/-! ## The buffer read as a C string -/

/-- The C string that starts at the beginning of a buffer: the bytes before the first
zero byte. -/
def c_string (buf : List Char) : List Char :=
  buf.takeWhile (fun c => c != '\x00')

/-- A text without zero byte, as every C string is. -/
def nul_free (s : List Char) : Prop := '\x00' ∉ s

/-- The text fields a call reads (gateway level, devices below `device_count`, data
points below `data_count`) hold no zero byte. -/
def JsonGateway.c_strings (g : JsonGateway) : Prop :=
  nul_free g.gateway_id ∧ nul_free g.date ∧ nul_free g.device_type ∧
    ∀ i : Fin JSON_MAX_DEVICES, i.val < g.values.device_count →
      nul_free (g.values.devices i).media ∧ nul_free (g.values.devices i).meter ∧
      nul_free (g.values.devices i).device_id ∧ nul_free (g.values.devices i).unit ∧
      ∀ j : Fin JSON_MAX_DATA_POINTS, j.val < (g.values.devices i).data_count →
        nul_free ((g.values.devices i).data j).timestamp ∧
        nul_free ((g.values.devices i).data j).meter_datetime ∧
        nul_free ((g.values.devices i).data j).status

instance (s : List Char) : Decidable (nul_free s) := by
  unfold nul_free; exact inferInstance

instance (g : JsonGateway) : Decidable g.c_strings := by
  unfold JsonGateway.c_strings; exact inferInstance

/-! ## A record beyond the capacities -/

/-- A device without valid data points. -/
def idle_device : JsonDeviceReading :=
  { example_device with data_count := 0 }

/-- A record whose `device_count` is 9, one more than the capacity of `devices`. -/
def over_gateway : JsonGateway :=
  { example_gateway with values := { devices := fun _ => idle_device, device_count := 9 } }

/-! ## Two runs side by side -/

/-- Two outcomes of the same kind: both fall through with results related by `P`, both
return the same code, or both are the same undefined behaviour. -/
def Flow.same {α : Type} (P : α → α → Prop) : Flow α → Flow α → Prop
  | .next a, .next b => P a b
  | .ret code1 _, .ret code2 _ => code1 = code2
  | .bad_read, .bad_read => True
  | .bad_write, .bad_write => True
  | _, _ => False

/-- Two cursors at the same position, each inside its buffer of `size` bytes. -/
def Cursor.alike (size : Nat) (c1 c2 : Cursor) : Prop :=
  c1.pos = c2.pos ∧ c1.inside size ∧ c2.inside size

/-- Two calls end the same way: both return the same code, or both are the same undefined
behaviour. -/
def Outcome.same_code : Outcome → Outcome → Prop
  | .returned code1 _, .returned code2 _ => code1 = code2
  | .bad_read, .bad_read => True
  | .bad_write, .bad_write => True
  | _, _ => False

/-! ## Records with short texts -/

/-- The text lengths under which the estimator is sufficient: the two `uint32_t` members
are in range, the three gateway texts total at most 100 characters, the four texts of each
device below `device_count` total at most 64, and the three texts and the rendered
`total_m3` of each data point below `data_count` total at most 64. -/
def JsonGateway.short_texts (g : JsonGateway) (env : Env) : Prop :=
  g.interval_minutes < 2 ^ 32 ∧ g.total_readings < 2 ^ 32 ∧
    g.gateway_id.length + g.date.length + g.device_type.length ≤ 100 ∧
    ∀ i : Fin JSON_MAX_DEVICES, i.val < g.values.device_count →
      (g.values.devices i).media.length + (g.values.devices i).meter.length
        + (g.values.devices i).device_id.length + (g.values.devices i).unit.length ≤ 64 ∧
      ∀ j : Fin JSON_MAX_DATA_POINTS, j.val < (g.values.devices i).data_count →
        ((g.values.devices i).data j).timestamp.length
          + ((g.values.devices i).data j).meter_datetime.length
          + ((g.values.devices i).data j).status.length
          + (fmt_f3 env ((g.values.devices i).data j).total_m3).length ≤ 64

instance (g : JsonGateway) (env : Env) : Decidable (g.short_texts env) := by
  unfold JsonGateway.short_texts; exact inferInstance

/-! ## The renderings of `total_m3` named in the specification -/

/-- The `float` 1.0, `2^23 * 2^-23`. -/
def float_one : CFloat := .finite false 8388608 (-23)

/-- The `float` 2.5, `10485760 * 2^-22`. -/
def float_two_and_a_half : CFloat := .finite false 10485760 (-22)

/-- The `float` nearest to 0.0001, `13743895 * 2^-37`. -/
def float_ten_thousandth : CFloat := .finite false 13743895 (-37)

/-- The example record with another `total_m3` in its data point. -/
def reading_gateway (x : CFloat) : JsonGateway :=
  { example_gateway with
    values :=
      { devices := fun _ =>
          { example_device with data := fun _ => { example_point with total_m3 := x } }
        device_count := 1 } }

/-- The JSON text of `reading_gateway x` when `total_m3` renders as `rendered`. -/
def reading_text (rendered : String) : List Char :=
  ("[\x7b\"gatewayId\":\"GW1\",\"date\":\"2024-01-01\",\"deviceType\":\"meter\"," ++
   "\"interval_minutes\":15,\"total_readings\":1,\"values\":\x7b\"device_count\":1," ++
   "\"readings\":[\x7b\"media\":\"water\",\"meter\":\"m1\",\"deviceId\":\"d1\"," ++
   "\"unit\":\"m3\",\"data\":[\x7b\"timestamp\":\"2024-01-01 00:00\"," ++
   "\"meter_datetime\":\"2024-01-01 00:00\",\"total_m3\":" ++ rendered ++
   ",\"status\":\"OK\"\x7d]\x7d]\x7d\x7d]").toList

/-! ## A lexical scan of JSON texts

A necessary condition for a text to be JSON: scanned from left to right, every double
quote opens or closes a string (unless escaped inside one), no control character stands
inside a string, outside strings the only control characters are tab, line feed and
carriage return, and the text ends outside a string. -/

/-- Where the scan stands: outside a string, inside a string, inside a string right after
a backslash, or past a character no JSON text has at that place. -/
inductive LexState where
  | out
  | str
  | esc
  | bad
  deriving DecidableEq, Repr

/-- One character of the scan. -/
def lex_step : LexState → Char → LexState
  | .out, c =>
    if c = '"' then .str
    else if c.toNat < 0x20 ∧ c ≠ '\t' ∧ c ≠ '\n' ∧ c ≠ '\r' then .bad
    else .out
  | .str, c =>
    if c = '"' then .out
    else if c = '\\' then .esc
    else if c.toNat < 0x20 then .bad
    else .str
  | .esc, c => if c.toNat < 0x20 then .bad else .str
  | .bad, _ => .bad

/-- The scan of a text from a state. -/
def lex (st : LexState) (s : List Char) : LexState := s.foldl lex_step st

/-- The scan of `s` from outside a string ends outside a string or fails, and it fails
when `ctl` holds. -/
def LexTo (s : List Char) (ctl : Prop) : Prop :=
  (lex .out s = .out ∨ lex .out s = .bad) ∧ (ctl → lex .out s = .bad)

/-! ## The text fields a call reads -/

/-- The text fields of a data point. -/
def JsonMeterDataPoint.texts (p : JsonMeterDataPoint) : List (List Char) :=
  [p.timestamp, p.meter_datetime, p.status]

/-- The text fields of a device and of its data points below `data_count`. -/
def JsonDeviceReading.texts (d : JsonDeviceReading) : List (List Char) :=
  [d.media, d.meter, d.device_id, d.unit] ++ (d.points.map JsonMeterDataPoint.texts).flatten

/-- The text fields of a record: those of the gateway and of its devices below
`device_count`. -/
def JsonGateway.texts (g : JsonGateway) : List (List Char) :=
  [g.gateway_id, g.date, g.device_type] ++ (g.readings.map JsonDeviceReading.texts).flatten

/-- A text with a control character (below U+0020). -/
def has_control (s : List Char) : Prop := ∃ c ∈ s, c.toNat < 0x20

/-- A text with a control character other than tab, line feed and carriage return. -/
def has_hard_control (s : List Char) : Prop :=
  ∃ c ∈ s, c.toNat < 0x20 ∧ c ≠ '\t' ∧ c ≠ '\n' ∧ c ≠ '\r'

/-- A text without double quote and backslash. -/
def quote_free (s : List Char) : Prop := ∀ c ∈ s, c ≠ '"' ∧ c ≠ '\\'

/-! ## Records with a double quote in a text field -/

/-- The example record with the gateway identifier `GW1","x":"y`. -/
def quoted_gateway : JsonGateway :=
  { example_gateway with gateway_id := "GW1\",\"x\":\"y".toList }

/-- The JSON structure of the text of `quoted_gateway` in the "C" locale: the quotes of the
identifier end the `gatewayId` string and open a member `x`. -/
def quoted_json : List Char :=
  json_arr [json_obj [json_kv "gatewayId" (json_str "GW1".toList),
    json_kv "x" (json_str "y".toList),
    json_kv "date" (json_str example_gateway.date),
    json_kv "deviceType" (json_str example_gateway.device_type),
    json_kv "interval_minutes" (fmt_lu example_gateway.interval_minutes),
    json_kv "total_readings" (fmt_lu example_gateway.total_readings),
    json_kv "values" (json_obj [json_kv "device_count"
        (fmt_lu example_gateway.values.device_count),
      json_kv "readings" (json_arr (example_gateway.readings.map (device_json c_env)))])]]

/-- The example record with a gateway identifier that is one double quote. -/
def lone_quote_gateway : JsonGateway :=
  { example_gateway with gateway_id := ['"'] }

instance (s : List Char) : Decidable (has_control s) := by
  unfold has_control; exact inferInstance

instance (s : List Char) : Decidable (has_hard_control s) := by
  unfold has_hard_control; exact inferInstance

instance (s : List Char) : Decidable (quote_free s) := by
  unfold quote_free; exact inferInstance

/-- The example record with a line feed inside the gateway identifier. -/
def newline_gateway : JsonGateway :=
  { example_gateway with gateway_id := "GW\n1".toList }

/-! ## Records that `snprintf` can format -/

/-- No `snprintf` call of the serializer fails for the record: every fragment it renders
has a length that an `int` can hold. -/
def formats (env : Env) (g : JsonGateway) : Prop :=
  ∀ t ∈ gateway_frags env g, t.length ≤ env.int_max

instance (env : Env) (g : JsonGateway) : Decidable (formats env g) := by
  unfold formats; exact inferInstance

/-! ## The example in a locale with a decimal comma -/

/-- The text of the example record where the decimal-point character is the comma:
`total_m3` reads `12,345`. -/
def example_text_comma : List Char :=
  ("[\x7b\"gatewayId\":\"GW1\",\"date\":\"2024-01-01\",\"deviceType\":\"meter\"," ++
   "\"interval_minutes\":15,\"total_readings\":1,\"values\":\x7b\"device_count\":1," ++
   "\"readings\":[\x7b\"media\":\"water\",\"meter\":\"m1\",\"deviceId\":\"d1\"," ++
   "\"unit\":\"m3\",\"data\":[\x7b\"timestamp\":\"2024-01-01 00:00\"," ++
   "\"meter_datetime\":\"2024-01-01 00:00\",\"total_m3\":12,345,\"status\":\"OK\"\x7d]\x7d]" ++
   "\x7d\x7d]").toList

/-! ## A call that returns at a failing append -/

/-- The buffer a call leaves when it returns at the fragment `t`, the fragments `pre`
having been appended before it: the text of `pre`, the part of `t` that `snprintf` stored
(what fits before the last byte of the buffer), the terminator, and behind it the bytes of
`buf`, untouched.  Nothing of a later fragment is in it. -/
def aborted (buf : List Char) (size : Nat) (pre : List (List Char)) (t : List Char) :
    List Char :=
  pre.flatten ++ t.take (size - 1 - pre.flatten.length)
    ++ '\x00' :: buf.drop
      (pre.flatten.length + (t.take (size - 1 - pre.flatten.length)).length + 1)

/-- The example record with a gateway identifier of `INT_MAX + 1 = 2147483648` characters
(2 GiB, for a 32-bit `int`). -/
def huge_gateway : JsonGateway :=
  { example_gateway with gateway_id := List.replicate 2147483648 'a' }

/-- The example record with `total_m3 = 1.0`, rendered with a decimal comma. -/
def reading_text_comma : List Char := reading_text "1,000"

/-! ## A structural scan of JSON texts

A second necessary condition for a text to be JSON, which looks at the nesting: scanned
from left to right, outside strings, the token after a value separator (`,`) inside an
object is a member name, that is, it starts with a double quote. -/

/-- Where the structural scan stands: the lexical state, the open containers from the
innermost out (`true` for an object, `false` for an array), and whether the next token has
to be a member name (the scan is right behind a `,` inside an object). -/
structure ScanState where
  mode : LexState
  nest : List Bool
  name_due : Bool
  deriving DecidableEq, Repr

/-- One character of the structural scan.  Inside a string it follows `lex_step`; outside,
a double quote opens a string, whitespace is skipped, any other character where a member
name is due fails the scan, brackets open and close containers, and a comma makes a member
name due when the innermost open container is an object. -/
def scan_step (st : ScanState) (c : Char) : ScanState :=
  match st.mode with
  | .out =>
    if c = '"' then { st with mode := .str, name_due := false }
    else if c = ' ' ∨ c = '\t' ∨ c = '\n' ∨ c = '\r' then st
    else if st.name_due = true then { st with mode := .bad }
    else if c = '\x7b' then { st with nest := true :: st.nest }
    else if c = '[' then { st with nest := false :: st.nest }
    else if c = '\x7d' ∨ c = ']' then { st with nest := st.nest.tail }
    else if c = ',' then { st with name_due := st.nest.headD false }
    else st
  | m => { st with mode := lex_step m c }

/-- The structural scan of a text from a state. -/
def scan (st : ScanState) (s : List Char) : ScanState := s.foldl scan_step st

/-- A character that the structural scan passes over outside a string. -/
def inert (c : Char) : Prop :=
  c ≠ '"' ∧ c ≠ '\x7b' ∧ c ≠ '[' ∧ c ≠ '\x7d' ∧ c ≠ ']' ∧ c ≠ ','

instance (c : Char) : Decidable (inert c) := by
  unfold inert; exact inferInstance

/-! ## Sequencing lemmas -/

@[simp] theorem Flow.bind_eq {α β : Type} (x : Flow α) (f : α → Flow β) :
    (x >>= f) = x.bind f := rfl

@[simp] theorem Flow.pure_eq {α : Type} (a : α) : (pure a : Flow α) = Flow.next a := rfl

@[simp] theorem Flow.bind_next {α β : Type} (a : α) (f : α → Flow β) :
    (Flow.next a).bind f = f a := rfl

@[simp] theorem Flow.bind_ret {α β : Type} (code : Int) (c : Cursor) (f : α → Flow β) :
    (Flow.ret code c : Flow α).bind f = Flow.ret code c := rfl

@[simp] theorem Flow.bind_bad_read {α β : Type} (f : α → Flow β) :
    (Flow.bad_read : Flow α).bind f = Flow.bad_read := rfl

@[simp] theorem Flow.bind_bad_write {α β : Type} (f : α → Flow β) :
    (Flow.bad_write : Flow α).bind f = Flow.bad_write := rfl

theorem Flow.bind_assoc {α β γ : Type} (x : Flow α) (f : α → Flow β) (g : β → Flow γ) :
    (x.bind f).bind g = x.bind (fun a => (f a).bind g) := by
  cases x <;> rfl

/-! ## The buffer after a store -/

theorem store_length (buf : List Char) (pos : Nat) (text : List Char)
    (h : pos + text.length < buf.length) : (store buf pos text).length = buf.length := by
  simp only [store, List.length_append, List.length_take, List.length_cons, List.length_drop]
  omega

theorem store_take (buf : List Char) (pos : Nat) (text : List Char) (h : pos ≤ buf.length) :
    (store buf pos text).take (pos + text.length) = buf.take pos ++ text := by
  have hl : (buf.take pos ++ text).length = pos + text.length := by
    simp [List.length_take, Nat.min_eq_left h]
  unfold store
  rw [← hl, List.take_left']
  rfl

theorem store_store (buf : List Char) (pos : Nat) (t1 t2 : List Char)
    (h : pos ≤ buf.length) :
    store (store buf pos t1) (pos + t1.length) t2 = store buf pos (t1 ++ t2) := by
  have hl : (buf.take pos ++ t1).length = pos + t1.length := by
    simp [List.length_take, Nat.min_eq_left h]
  have hd : (store buf pos t1).drop (pos + t1.length + t2.length + 1)
      = buf.drop (pos + (t1 ++ t2).length + 1) := by
    unfold store
    rw [show pos + t1.length + t2.length + 1 = (buf.take pos ++ t1).length + (t2.length + 1) by
      rw [hl]; omega]
    rw [List.drop_append, List.drop_succ_cons, List.drop_drop]
    congr 1
    simp only [List.length_append]; omega
  calc store (store buf pos t1) (pos + t1.length) t2
      = (store buf pos t1).take (pos + t1.length) ++ t2 ++
          '\x00' :: (store buf pos t1).drop (pos + t1.length + t2.length + 1) := rfl
    _ = store buf pos (t1 ++ t2) := by
      rw [store_take buf pos t1 h, hd]
      simp [store, List.append_assoc]

/-! ## One append -/

theorem snprintf_result_ok {env : Env} (text : List Char) (hint : text.length ≤ env.int_max) :
    snprintf_result env text = (text.length : Int) := by
  simp [snprintf_result, hint]

theorem snprintf_result_fail {env : Env} (text : List Char)
    (hint : env.int_max < text.length) : snprintf_result env text = -1 := by
  simp [snprintf_result, Nat.not_le.mpr hint]

theorem snprintf_result_cases (env : Env) (text : List Char) :
    snprintf_result env text = (text.length : Int) ∨ snprintf_result env text = -1 := by
  unfold snprintf_result
  split
  · exact Or.inl rfl
  · exact Or.inr rfl

/-- With room for at least the terminator inside `mem`, `snprintf` stores inside `mem`,
whatever it returns. -/
theorem snprintf_stores {env : Env} (mem : List Char) (off n : Nat) (text : List Char)
    (h0 : n ≠ 0) (hmem : off + n ≤ mem.length) :
    snprintf env mem off n text
      = some (mem.take off ++ text.take (n - 1)
          ++ '\x00' :: mem.drop (off + (text.take (n - 1)).length + 1),
          snprintf_result env text) := by
  have h4 : (text.take (n - 1)).length ≤ n - 1 := by
    rw [List.length_take]; exact Nat.min_le_left _ _
  have h5 : off + ((text.take (n - 1)).length + 1) ≤ mem.length := by omega
  simp only [snprintf, h0, if_false, List.length_append, List.length_singleton, h5, if_true]
  simp [Nat.add_assoc]

theorem snprintf_fits {env : Env} (mem : List Char) (off n : Nat) (text : List Char)
    (hint : text.length ≤ env.int_max)
    (hn : text.length < n) (hmem : off + text.length < mem.length) :
    snprintf env mem off n text = some (store mem off text, (text.length : Int)) := by
  have h1 : text.take (n - 1) = text := List.take_of_length_le (by omega)
  have h0 : ¬ (n = 0) := by omega
  have h2 : off + (text.length + 1) ≤ mem.length := by omega
  simp only [snprintf, h0, h1, if_false, List.length_append, List.length_singleton, h2,
    if_true, store, snprintf_result_ok text hint]
  simp [Nat.add_assoc]

theorem snprintf_trunc {env : Env} (mem : List Char) (off n : Nat) (text : List Char)
    (h0 : n ≠ 0) (hn : n ≤ text.length) (hmem : off + n ≤ mem.length) :
    snprintf env mem off n text
      = some (mem.take off ++ text.take (n - 1) ++ '\x00' :: mem.drop (off + n),
          snprintf_result env text) := by
  have h4 : (text.take (n - 1)).length = n - 1 := by
    rw [List.length_take]; omega
  have h5 : n - 1 + 1 = n := by omega
  simp only [snprintf, h0, if_false, List.length_append, List.length_singleton, h4, h5, hmem,
    if_true]
  simp

theorem APPEND_FMT_fits {env : Env} (size : Nat) (text : List Char) (c : Cursor)
    (hint : text.length ≤ env.int_max)
    (hlen : c.output.length = size) (hfit : c.pos + text.length < size) :
    APPEND_FMT env size text c = .next ⟨store c.output c.pos text, c.pos + text.length⟩ := by
  have h3 : ¬ (size - c.pos ≤ text.length) := by omega
  simp only [APPEND_FMT, snprintf_fits c.output c.pos (size - c.pos) text hint (by omega)
    (by omega)]
  simp [h3]

theorem APPEND_FMT_full {env : Env} (size : Nat) (text : List Char) (c : Cursor)
    (hint : text.length ≤ env.int_max)
    (hlen : c.output.length = size) (hpos : c.pos < size) (hfull : size ≤ c.pos + text.length) :
    APPEND_FMT env size text c
      = .ret (-2) ⟨c.output.take c.pos ++ text.take (size - 1 - c.pos) ++ ['\x00'], c.pos⟩ := by
  have h3 : size - c.pos ≤ text.length := by omega
  have h5 : c.pos + (size - c.pos) = c.output.length := by omega
  have h6 : size - c.pos - 1 = size - 1 - c.pos := by omega
  simp only [APPEND_FMT, snprintf_trunc c.output c.pos (size - c.pos) text (by omega) h3
    (by omega), snprintf_result_ok text hint]
  simp [h3, h5, h6]

/-- The buffer after a failed or truncating `snprintf` of `text` at `pos`. -/
theorem APPEND_FMT_fail {env : Env} (size : Nat) (text : List Char) (c : Cursor)
    (hint : env.int_max < text.length)
    (hlen : c.output.length = size) (hpos : c.pos < size) :
    APPEND_FMT env size text c
      = .ret (-3) ⟨c.output.take c.pos ++ text.take (size - 1 - c.pos)
          ++ '\x00' :: c.output.drop (c.pos + (text.take (size - 1 - c.pos)).length + 1),
          c.pos⟩ := by
  have h6 : size - c.pos - 1 = size - 1 - c.pos := by omega
  simp only [APPEND_FMT, snprintf_stores c.output c.pos (size - c.pos) text (by omega)
    (by omega), snprintf_result_fail text hint, h6]
  simp

theorem APPEND_FMT_next {env : Env} (size : Nat) (text : List Char) (c c' : Cursor)
    (hlen : c.output.length = size) (hpos : c.pos < size)
    (h : APPEND_FMT env size text c = .next c') :
    text.length ≤ env.int_max ∧ c.pos + text.length < size := by
  by_cases hint : text.length ≤ env.int_max
  · refine ⟨hint, ?_⟩
    by_contra hfit
    rw [APPEND_FMT_full size text c hint hlen hpos (by omega)] at h
    cases h
  · rw [APPEND_FMT_fail size text c (by omega) hlen hpos] at h
    cases h

/-! ## A run of appends -/

theorem emit_append {env : Env} (size : Nat) (xs ys : List (List Char)) (c : Cursor) :
    emit env size (xs ++ ys) c = (emit env size xs c).bind (emit env size ys) := by
  induction xs generalizing c with
  | nil => rfl
  | cons t ts ih =>
    simp only [List.cons_append, emit, Flow.bind_assoc]
    congr 1
    funext c1
    exact ih c1

theorem emit_fits {env : Env} (size : Nat) (t : List Char) (ts : List (List Char)) (c : Cursor)
    (hint : ∀ x ∈ t :: ts, x.length ≤ env.int_max)
    (hlen : c.output.length = size) (hfit : c.pos + (t :: ts).flatten.length < size) :
    emit env size (t :: ts) c
      = .next ⟨store c.output c.pos (t :: ts).flatten, c.pos + (t :: ts).flatten.length⟩ := by
  induction ts generalizing t c with
  | nil =>
    simp only [List.flatten_cons, List.flatten_nil, List.append_nil] at hfit ⊢
    simp [emit, APPEND_FMT_fits size t c (hint t (List.mem_cons_self _ _)) hlen hfit]
  | cons t2 ts ih =>
    rw [List.flatten_cons, List.length_append] at hfit
    have h1 : c.pos + t.length < size := by omega
    rw [emit, APPEND_FMT_fits size t c (hint t (List.mem_cons_self _ _)) hlen h1,
      Flow.bind_next]
    rw [ih t2 ⟨store c.output c.pos t, c.pos + t.length⟩
      (fun x hx => hint x (List.mem_cons_of_mem _ hx))
      ((store_length c.output c.pos t (by omega)).trans hlen)
      (by simp only; omega)]
    simp only [store_store c.output c.pos t _ (by omega), List.flatten_cons,
      List.length_append, Nat.add_assoc]

/-- A run of appends none of which fails, from any cursor inside the buffer. -/
theorem emit_all_fit {env : Env} (size : Nat) (ts : List (List Char)) (c : Cursor)
    (hint : ∀ x ∈ ts, x.length ≤ env.int_max)
    (hlen : c.output.length = size) (hfit : c.pos + ts.flatten.length < size) :
    ∃ out, emit env size ts c = .next ⟨out, c.pos + ts.flatten.length⟩ ∧
      out.length = size ∧
      out.take (c.pos + ts.flatten.length) = c.output.take c.pos ++ ts.flatten ∧
      out.drop (c.pos + ts.flatten.length + 1) = c.output.drop (c.pos + ts.flatten.length + 1) ∧
      (ts ≠ [] → out = store c.output c.pos ts.flatten) := by
  cases ts with
  | nil =>
    refine ⟨c.output, ?_, hlen, by simp, rfl, fun h => absurd rfl h⟩
    simp [emit]
  | cons t ts =>
    refine ⟨store c.output c.pos (t :: ts).flatten, emit_fits size t ts c hint hlen hfit,
      (store_length _ _ _ (by omega)).trans hlen, store_take _ _ _ (by omega), ?_,
      fun _ => rfl⟩
    unfold store
    rw [show c.pos + (t :: ts).flatten.length + 1
        = (c.output.take c.pos ++ (t :: ts).flatten).length + 1 by
      simp only [List.length_append, List.length_take]; omega]
    rw [List.drop_append, List.drop_succ_cons, List.drop_zero]

theorem emit_full {env : Env} (size : Nat) (ts : List (List Char)) (c : Cursor)
    (hint : ∀ x ∈ ts, x.length ≤ env.int_max)
    (hlen : c.output.length = size) (hpos : c.pos < size)
    (hfull : size ≤ c.pos + ts.flatten.length) :
    ∃ p, emit env size ts c
        = .ret (-2) ⟨c.output.take c.pos ++ ts.flatten.take (size - 1 - c.pos) ++ ['\x00'], p⟩
      ∧ c.pos ≤ p ∧ p < size := by
  induction ts generalizing c with
  | nil => simp at hfull; omega
  | cons t ts ih =>
    rw [List.flatten_cons, List.length_append] at hfull
    have hint_t := hint t (List.mem_cons_self _ _)
    by_cases h1 : c.pos + t.length < size
    · rw [emit, APPEND_FMT_fits size t c hint_t hlen h1, Flow.bind_next]
      obtain ⟨p, hp, hle, hlt⟩ := ih ⟨store c.output c.pos t, c.pos + t.length⟩
        (fun x hx => hint x (List.mem_cons_of_mem _ hx))
        ((store_length c.output c.pos t (by omega)).trans hlen) h1
        (by simp only; omega)
      refine ⟨p, ?_, by simp only at hle; omega, hlt⟩
      rw [hp]
      simp only [store_take c.output c.pos t (by omega), List.flatten_cons]
      rw [List.take_append_eq_append_take,
        List.take_of_length_le (by omega : t.length ≤ size - 1 - c.pos)]
      have : size - 1 - (c.pos + t.length) = size - 1 - c.pos - t.length := by omega
      simp only [this, List.append_assoc]
    · refine ⟨c.pos, ?_, le_refl _, hpos⟩
      rw [emit, APPEND_FMT_full size t c hint_t hlen hpos (by omega), Flow.bind_ret]
      rw [List.flatten_cons, List.take_append_eq_append_take]
      have : size - 1 - c.pos - t.length = 0 := by omega
      simp [this]

/-- A run of appends that falls through had no failing append: every fragment has a length
an `int` can hold, and all of them fit. -/
theorem emit_next {env : Env} (size : Nat) (ts : List (List Char)) (c c' : Cursor)
    (hlen : c.output.length = size) (hpos : c.pos < size)
    (h : emit env size ts c = .next c') :
    (∀ x ∈ ts, x.length ≤ env.int_max) ∧ c.pos + ts.flatten.length < size := by
  induction ts generalizing c with
  | nil => simpa using hpos
  | cons t ts ih =>
    rw [emit] at h
    cases h1 : APPEND_FMT env size t c with
    | next c1 =>
      obtain ⟨hint, hfit⟩ := APPEND_FMT_next size t c c1 hlen hpos h1
      rw [APPEND_FMT_fits size t c hint hlen hfit] at h1
      cases h1
      rw [APPEND_FMT_fits size t c hint hlen hfit, Flow.bind_next] at h
      obtain ⟨hints, hfits⟩ := ih ⟨store c.output c.pos t, c.pos + t.length⟩
        ((store_length c.output c.pos t (by omega)).trans hlen) hfit h
      refine ⟨?_, ?_⟩
      · intro x hx
        rcases List.mem_cons.mp hx with rfl | hx
        · exact hint
        · exact hints x hx
      · rw [List.flatten_cons, List.length_append]
        simp only at hfits
        omega
    | ret code c1 => rw [h1] at h; cases h
    | bad_read => rw [h1] at h; cases h
    | bad_write => rw [h1] at h; cases h

/-! ## The loops as runs of appends -/

theorem drop_ofFn {α : Type} {n : Nat} (a : Fin n → α) (j : Nat) (hj : j < n) :
    (List.ofFn a).drop j = a ⟨j, hj⟩ :: (List.ofFn a).drop (j + 1) := by
  rw [List.drop_eq_getElem_cons (by simpa using hj)]
  simp

theorem data_loop_eq {env : Env} (size : Nat) (dev : JsonDeviceReading)
    (hcap : dev.data_count ≤ JSON_MAX_DATA_POINTS) :
    ∀ (k j : Nat) (c : Cursor), j + k = dev.data_count →
      data_loop env size dev k j c
        = emit env size
            (sep_frags ((((List.ofFn dev.data).drop j).take k).map (point_frags env))) c := by
  intro k
  induction k with
  | zero => intro j c _; simp [data_loop, emit, sep_frags]
  | succ k ih =>
    intro j c hjk
    have hj : j < JSON_MAX_DATA_POINTS := by omega
    rw [drop_ofFn dev.data j hj, List.take_succ_cons, List.map_cons]
    cases k with
    | zero =>
      have hlast : ¬ (j + 1 < dev.data_count) := by omega
      simp [data_loop, slot, hj, hlast, emit, sep_frags, point_frags]
    | succ k =>
      have hj1 : j + 1 < JSON_MAX_DATA_POINTS := by omega
      have hmore : j + 1 < dev.data_count := by omega
      have ih1 := fun c => ih (j + 1) c (by omega)
      rw [drop_ofFn dev.data (j + 1) hj1, List.take_succ_cons, List.map_cons] at ih1 ⊢
      rw [sep_frags, emit_append, data_loop]
      simp only [slot, hj, hmore, dite_true, if_true, Flow.bind_eq, Flow.bind_next,
        emit, point_frags, ih1, Flow.bind_assoc]

theorem emit_nil {env : Env} (size : Nat) (c : Cursor) : emit env size [] c = .next c := rfl

theorem emit_cons {env : Env} (size : Nat) (t : List Char) (ts : List (List Char)) (c : Cursor) :
    emit env size (t :: ts) c = (APPEND_FMT env size t c).bind (emit env size ts) := rfl

theorem emit_one {env : Env} (size : Nat) (t : List Char) (c : Cursor) :
    emit env size [t] c = APPEND_FMT env size t c := by
  rw [emit_cons]
  cases APPEND_FMT env size t c <;> rfl

theorem emit_cons_fun {env : Env} (size : Nat) (t : List Char) (ts : List (List Char)) :
    emit env size (t :: ts) = fun c => (APPEND_FMT env size t c).bind (emit env size ts) := rfl

theorem emit_append_fun {env : Env} (size : Nat) (xs ys : List (List Char)) :
    emit env size (xs ++ ys) = fun c => (emit env size xs c).bind (emit env size ys) :=
  funext (emit_append size xs ys)

theorem emit_nil_fun {env : Env} (size : Nat) : emit env size [] = Flow.next := rfl

theorem Flow.bind_next_eta {α : Type} (x : Flow α) : x.bind Flow.next = x := by
  cases x <;> rfl

theorem Flow.bind_next_fun {α : Type} (x : Flow α) : (x.bind fun a => Flow.next a) = x := by
  cases x <;> rfl

theorem device_loop_eq {env : Env} (size : Nat) (values : JsonValues)
    (hcap : values.device_count ≤ JSON_MAX_DEVICES)
    (hdata : ∀ i : Fin JSON_MAX_DEVICES, i.val < values.device_count →
      (values.devices i).data_count ≤ JSON_MAX_DATA_POINTS) :
    ∀ (k i : Nat) (c : Cursor), i + k = values.device_count →
      device_loop env size values k i c
        = emit env size
            (sep_frags
              ((((List.ofFn values.devices).drop i).take k).map (device_frags env))) c := by
  intro k
  induction k with
  | zero => intro i c _; simp [device_loop, emit, sep_frags]
  | succ k ih =>
    intro i c hik
    have hi : i < JSON_MAX_DEVICES := by omega
    have hd := fun c => @data_loop_eq env size (values.devices ⟨i, hi⟩)
      (hdata ⟨i, hi⟩ (by simp only; omega)) (values.devices ⟨i, hi⟩).data_count 0 c
      (by simp)
    rw [List.drop_zero] at hd
    rw [drop_ofFn values.devices i hi, List.take_succ_cons, List.map_cons]
    cases k with
    | zero =>
      have hlast : ¬ (i + 1 < values.device_count) := by omega
      rw [device_loop]
      simp only [slot, hi, hlast, dite_true, if_false, Flow.bind_eq, Flow.bind_next,
        Flow.pure_eq, Nat.sub_zero, hd, List.take_zero, List.map_nil, sep_frags, device_frags,
        device_open_frags, List.cons_append, List.nil_append, emit_append_fun, emit_cons_fun,
        emit_nil_fun, Flow.bind_next_eta,
        Flow.bind_assoc, device_loop, Flow.bind_next_fun]
    | succ k =>
      have hi1 : i + 1 < JSON_MAX_DEVICES := by omega
      have hmore : i + 1 < values.device_count := by omega
      have ih1 := fun c => ih (i + 1) c (by omega)
      rw [drop_ofFn values.devices (i + 1) hi1, List.take_succ_cons, List.map_cons] at ih1 ⊢
      rw [sep_frags, emit_append, device_loop]
      simp only [slot, hi, hmore, dite_true, if_true, Flow.bind_eq, Flow.bind_next,
        Nat.sub_zero, hd, ih1, device_frags, device_open_frags, List.cons_append,
        List.nil_append, emit_append_fun, emit_cons_fun, emit_nil_fun, Flow.bind_next_eta,
        Flow.bind_assoc]

theorem serialize_body_eq {env : Env} (g : JsonGateway) (buf : List Char) (size : Nat)
    (hcap : within_capacity g) :
    serialize_body env g buf size
      = (emit env size (gateway_frags env g) ⟨buf, 0⟩).bind (fun c => Flow.ret 0 c) := by
  have hl := fun c => @device_loop_eq env size g.values hcap.1 hcap.2 g.values.device_count 0 c
    (by simp)
  rw [List.drop_zero] at hl
  simp only [serialize_body, Flow.bind_eq, Nat.sub_zero, hl, gateway_frags,
    gateway_open_frags, List.cons_append, List.nil_append, emit_append_fun, emit_cons_fun,
    emit_nil_fun, Flow.bind_next_eta,
    emit_nil, Flow.bind_assoc, Flow.bind_next]

/-! ## The fragments concatenate to the specified text -/

theorem sep_frags_flatten (gs : List (List (List Char))) :
    (sep_frags gs).flatten = List.intercalate [','] (gs.map List.flatten) := by
  induction gs with
  | nil => rfl
  | cons x r ih =>
    cases r with
    | nil => simp [sep_frags, List.intercalate]
    | cons y r =>
      rw [sep_frags, List.flatten_append, List.flatten_cons, ih]
      simp [List.intercalate, List.intersperse]

theorem point_frags_flatten {env : Env} (p : JsonMeterDataPoint) :
    (point_frags env p).flatten = point_text env p := by
  simp [point_frags, point_text]

theorem device_frags_flatten {env : Env} (d : JsonDeviceReading) :
    (device_frags env d).flatten = device_text env d := by
  simp only [device_frags, device_text, List.flatten_append, sep_frags_flatten, List.map_map,
    JsonDeviceReading.points]
  have : (List.flatten ∘ (point_frags env)) = point_text env := funext point_frags_flatten
  rw [this]
  simp [device_open_frags, device_head]

theorem gateway_frags_flatten {env : Env} (g : JsonGateway) :
    (gateway_frags env g).flatten = gateway_text env g := by
  simp only [gateway_frags, gateway_text, List.flatten_append, sep_frags_flatten, List.map_map,
    JsonGateway.readings]
  have : (List.flatten ∘ (device_frags env)) = device_text env := funext device_frags_flatten
  rw [this]
  simp [gateway_open_frags, gateway_head]

theorem gateway_frags_ne_nil {env : Env} (g : JsonGateway) :
    ∃ t ts, gateway_frags env g = t :: ts := by
  simp [gateway_frags, gateway_open_frags]

/-! ## The call, for records within the capacities -/

theorem serialize_fits {env : Env} (g : JsonGateway) (buf : List Char) (size : Nat)
    (hcap : within_capacity g) (hfmt : formats env g) (hlen : buf.length = size)
    (hfit : (gateway_text env g).length < size) :
    json_serialize_gateway env (some g) (some buf) size
      = .returned 0
          (some (gateway_text env g ++ '\x00' :: buf.drop ((gateway_text env g).length + 1))) := by
  obtain ⟨t, ts, hts⟩ := gateway_frags_ne_nil g
  have h0 : size ≠ 0 := by omega
  have hrun := emit_fits size t ts ⟨buf, 0⟩ (by rw [← hts]; exact hfmt) hlen
    (by rw [← hts, gateway_frags_flatten]; simpa using hfit)
  rw [← hts, gateway_frags_flatten] at hrun
  simp [json_serialize_gateway, h0, serialize_body_eq g buf size hcap, hrun, store]

theorem serialize_full {env : Env} (g : JsonGateway) (buf : List Char) (size : Nat)
    (hcap : within_capacity g) (hfmt : formats env g) (hlen : buf.length = size)
    (hpos : 0 < size) (hfull : size ≤ (gateway_text env g).length) :
    json_serialize_gateway env (some g) (some buf) size
      = .returned (-2) (some ((gateway_text env g).take (size - 1) ++ ['\x00'])) := by
  have h0 : size ≠ 0 := by omega
  obtain ⟨p, hp, -, -⟩ := emit_full size (gateway_frags env g) ⟨buf, 0⟩ hfmt hlen hpos
    (by rw [gateway_frags_flatten]; simpa using hfull)
  rw [gateway_frags_flatten] at hp
  simp [json_serialize_gateway, h0, serialize_body_eq g buf size hcap, hp]

/-- A fragment is no longer than the whole text. -/
theorem length_le_flatten {α : Type} (l : List (List α)) (t : List α) (h : t ∈ l) :
    t.length ≤ l.flatten.length := by
  induction l with
  | nil => cases h
  | cons x r ih =>
    rw [List.flatten_cons, List.length_append]
    rcases List.mem_cons.mp h with rfl | h
    · omega
    · have := ih h
      omega

/-- A record whose whole text has a length an `int` can hold is one `snprintf` can format;
so is every record whose text has at most 32767 characters, in every environment. -/
theorem formats_of_length {env : Env} (g : JsonGateway)
    (h : (gateway_text env g).length ≤ env.int_max) : formats env g := by
  intro t ht
  have := length_le_flatten _ t ht
  rw [gateway_frags_flatten] at this
  omega

theorem formats_of_short {env : Env} (g : JsonGateway)
    (h : (gateway_text env g).length ≤ 32767) : formats env g :=
  formats_of_length g (le_trans h env.int_max_ge)

theorem APPEND_FMT_ret_code {env : Env} (size : Nat) (text : List Char) (c c1 : Cursor)
    (code : Int) (h : APPEND_FMT env size text c = .ret code c1) : code = -2 ∨ code = -3 := by
  unfold APPEND_FMT at h
  split at h
  · cases h
  · split at h
    · cases h; exact Or.inr rfl
    · split at h
      · cases h; exact Or.inl rfl
      · cases h

/-- A run of appends returns only with the codes -2 and -3. -/
theorem emit_ret_code {env : Env} (size : Nat) (ts : List (List Char)) (c c1 : Cursor)
    (code : Int) (h : emit env size ts c = .ret code c1) : code = -2 ∨ code = -3 := by
  induction ts generalizing c with
  | nil => cases h
  | cons t ts ih =>
    rw [emit] at h
    cases h1 : APPEND_FMT env size t c with
    | next c2 => rw [h1, Flow.bind_next] at h; exact ih c2 h
    | ret code2 c2 =>
      rw [h1, Flow.bind_ret] at h
      cases h
      exact APPEND_FMT_ret_code size t c c1 code h1
    | bad_read => rw [h1] at h; cases h
    | bad_write => rw [h1] at h; cases h

/-- A call that returns 0 had no failing append, for a record within the capacities. -/
theorem serialize_zero_inv {env : Env} (g : JsonGateway) (buf : List Char) (size : Nat)
    (out : Option (List Char)) (hcap : within_capacity g) (hlen : buf.length = size)
    (h : json_serialize_gateway env (some g) (some buf) size = .returned 0 out) :
    formats env g ∧ (gateway_text env g).length < size := by
  have h0 : size ≠ 0 := by
    intro h0
    simp [json_serialize_gateway, h0] at h
  simp only [json_serialize_gateway, h0, if_false, serialize_body_eq g buf size hcap] at h
  cases hrun : emit env size (gateway_frags env g) ⟨buf, 0⟩ with
  | next c' =>
    have := emit_next size (gateway_frags env g) ⟨buf, 0⟩ c' hlen (by simp only; omega) hrun
    rw [gateway_frags_flatten] at this
    exact ⟨this.1, by simpa using this.2⟩
  | ret code c1 =>
    exfalso
    rw [hrun] at h
    simp only [Flow.bind_ret] at h
    have hc := emit_ret_code size _ _ c1 code hrun
    have h0 : code = 0 := by
      injection h with h _
    rcases hc with hc | hc <;> rw [hc] at h0 <;> cases h0
  | bad_read => rw [hrun] at h; cases h
  | bad_write => rw [hrun] at h; cases h

/-! ## Decimal digits -/

theorem toDigitsCore_acc (b f n : Nat) (acc : List Char) :
    Nat.toDigitsCore b f n acc = Nat.toDigitsCore b f n [] ++ acc := by
  induction f generalizing n acc with
  | zero => simp [Nat.toDigitsCore]
  | succ f ih =>
    simp only [Nat.toDigitsCore]
    split
    · simp
    · rw [ih (n / b) (_ :: acc), ih (n / b) [_]]
      simp

theorem toDigitsCore_fuel (f : Nat) :
    ∀ (n : Nat) (acc : List Char), n < f →
      Nat.toDigitsCore 10 f n acc = Nat.toDigitsCore 10 (n + 1) n acc := by
  induction f using Nat.strong_induction_on with
  | _ f ih =>
    intro n acc hn
    cases f with
    | zero => omega
    | succ f =>
      simp only [Nat.toDigitsCore]
      split
      · rfl
      · rename_i hne
        have h1 : n / 10 < n := Nat.div_lt_self (by omega) (by omega)
        rw [ih f (by omega) (n / 10) _ (by omega), ih n (by omega) (n / 10) _ h1]

theorem toDigits_small (n : Nat) (h : n < 10) : Nat.toDigits 10 n = [Nat.digitChar n] := by
  have h0 : n / 10 = 0 := Nat.div_eq_of_lt h
  simp [Nat.toDigits, Nat.toDigitsCore, h0, Nat.mod_eq_of_lt h]

theorem toDigits_step (n : Nat) (h : 10 ≤ n) :
    Nat.toDigits 10 n = Nat.toDigits 10 (n / 10) ++ [Nat.digitChar (n % 10)] := by
  have h0 : ¬ (n / 10 = 0) := by omega
  have h1 : n / 10 < n := Nat.div_lt_self (by omega) (by omega)
  have hstep : Nat.toDigitsCore 10 (n + 1) n []
      = Nat.toDigitsCore 10 n (n / 10) [Nat.digitChar (n % 10)] := by
    simp only [Nat.toDigitsCore, h0, if_false]
  show Nat.toDigitsCore 10 (n + 1) n []
    = Nat.toDigitsCore 10 (n / 10 + 1) (n / 10) [] ++ [Nat.digitChar (n % 10)]
  rw [hstep, toDigitsCore_acc, toDigitsCore_fuel n (n / 10) [] h1]

/-- Decimal digit characters. -/
theorem digitChar_isDigit (k : Nat) (h : k < 10) : (Nat.digitChar k).isDigit = true := by
  interval_cases k <;> rfl

theorem digitChar_toNat (k : Nat) (h : k < 10) :
    (Nat.digitChar k).toNat - '0'.toNat = k := by
  interval_cases k <;> rfl

theorem digitChar_ne_zero (k : Nat) (h : k < 10) (h0 : k ≠ 0) : Nat.digitChar k ≠ '0' := by
  interval_cases k <;> first | omega | decide

theorem toDigits_ne_nil (n : Nat) : Nat.toDigits 10 n ≠ [] := by
  by_cases h : n < 10
  · simp [toDigits_small n h]
  · simp [toDigits_step n (by omega)]

theorem toDigits_isDigit (n : Nat) : ∀ c ∈ Nat.toDigits 10 n, c.isDigit = true := by
  induction n using Nat.strong_induction_on with
  | _ n ih =>
    by_cases h : n < 10
    · simp [toDigits_small n h, digitChar_isDigit n h]
    · intro c hc
      rw [toDigits_step n (by omega), List.mem_append, List.mem_singleton] at hc
      rcases hc with hc | rfl
      · exact ih (n / 10) (Nat.div_lt_self (by omega) (by omega)) c hc
      · exact digitChar_isDigit _ (Nat.mod_lt _ (by omega))

theorem toDigits_head (n : Nat) (h0 : n ≠ 0) : (Nat.toDigits 10 n).head? ≠ some '0' := by
  induction n using Nat.strong_induction_on with
  | _ n ih =>
    by_cases h : n < 10
    · simpa [toDigits_small n h] using digitChar_ne_zero n h h0
    · rw [toDigits_step n (by omega)]
      have hne := toDigits_ne_nil (n / 10)
      have := ih (n / 10) (Nat.div_lt_self (by omega) (by omega)) (by omega)
      cases hd : Nat.toDigits 10 (n / 10) with
      | nil => exact absurd hd hne
      | cons a l => rw [hd] at this; simpa using this

theorem decimal_value_snoc (cs : List Char) (c : Char) :
    decimal_value (cs ++ [c]) = 10 * decimal_value cs + (c.toNat - '0'.toNat) := by
  simp [decimal_value, List.foldl_append]

theorem decimal_value_toDigits (n : Nat) : decimal_value (Nat.toDigits 10 n) = n := by
  induction n using Nat.strong_induction_on with
  | _ n ih =>
    by_cases h : n < 10
    · rw [toDigits_small n h]
      have := decimal_value_snoc [] (Nat.digitChar n)
      simp only [List.nil_append] at this
      rw [this, digitChar_toNat n h]
      simp [decimal_value]
    · rw [toDigits_step n (by omega), decimal_value_snoc,
        ih (n / 10) (Nat.div_lt_self (by omega) (by omega)),
        digitChar_toNat _ (Nat.mod_lt _ (by omega))]
      omega

/-! ## Lengths -/

theorem intercalate_length (xs : List (List Char)) :
    (List.intercalate [','] xs).length = (xs.map List.length).sum + (xs.length - 1) := by
  induction xs with
  | nil => rfl
  | cons x r ih =>
    cases r with
    | nil => simp [List.intercalate]
    | cons y r =>
      have : List.intercalate [','] (x :: y :: r)
          = x ++ ',' :: List.intercalate [','] (y :: r) := by
        simp [List.intercalate, List.intersperse]
      rw [this, List.length_append, List.length_cons, ih]
      simp only [List.map_cons, List.sum_cons, List.length_cons]
      omega

/-! ## The text depends on the environment through the decimal-point character only -/

theorem fmt_f3_congr {env1 env2 : Env} (h : env1.decimal_point = env2.decimal_point)
    (x : CFloat) : fmt_f3 env1 x = fmt_f3 env2 x := by
  cases x <;> simp [fmt_f3, h]

theorem point_text_congr {env1 env2 : Env} (h : env1.decimal_point = env2.decimal_point)
    (p : JsonMeterDataPoint) : point_text env1 p = point_text env2 p := by
  simp only [point_text, fmt_f3_congr h]

theorem device_text_congr {env1 env2 : Env} (h : env1.decimal_point = env2.decimal_point)
    (d : JsonDeviceReading) : device_text env1 d = device_text env2 d := by
  have : point_text env1 = point_text env2 := funext (point_text_congr h)
  simp only [device_text, this]

theorem gateway_text_congr {env1 env2 : Env} (h : env1.decimal_point = env2.decimal_point)
    (g : JsonGateway) : gateway_text env1 g = gateway_text env2 g := by
  have : device_text env1 = device_text env2 := funext (device_text_congr h)
  simp only [gateway_text, this]

/-- The length of a rendering does not depend on the environment. -/
theorem fmt_f3_length (env1 env2 : Env) (x : CFloat) :
    (fmt_f3 env1 x).length = (fmt_f3 env2 x).length := by
  cases x <;> simp [fmt_f3]

theorem point_text_length_env (env1 env2 : Env) (p : JsonMeterDataPoint) :
    (point_text env1 p).length = (point_text env2 p).length := by
  simp only [point_text, List.length_append, fmt_f3_length env1 env2]

theorem device_text_length_env (env1 env2 : Env) (d : JsonDeviceReading) :
    (device_text env1 d).length = (device_text env2 d).length := by
  have e : (List.length ∘ point_text env1) = (List.length ∘ point_text env2) :=
    funext (fun p => point_text_length_env env1 env2 p)
  simp only [device_text, List.length_append, intercalate_length, List.map_map,
    List.length_map, e]

theorem gateway_text_length_env (env1 env2 : Env) (g : JsonGateway) :
    (gateway_text env1 g).length = (gateway_text env2 g).length := by
  have e : (List.length ∘ device_text env1) = (List.length ∘ device_text env2) :=
    funext (fun d => device_text_length_env env1 env2 d)
  simp only [gateway_text, List.length_append, intercalate_length, List.map_map,
    List.length_map, e]

set_option maxRecDepth 100000 in
theorem big_point_length {env : Env} : (point_text env big_point).length = 137 := by
  rw [point_text_length_env env c_env]
  decide

theorem big_device_length {env : Env} : (device_text env big_device).length = 2300 := by
  have h : big_device.points = List.replicate 16 big_point := by
    simp [JsonDeviceReading.points, big_device, List.ofFn_const, JSON_MAX_DATA_POINTS]
  simp only [device_text, device_head, h, List.map_replicate, List.length_append,
    intercalate_length, big_point_length, List.sum_replicate, List.length_replicate]
  simp [big_device]

theorem big_gateway_length {env : Env} : (gateway_text env big_gateway).length = 18559 := by
  have h : big_gateway.readings = List.replicate 8 big_device := by
    simp [JsonGateway.readings, big_gateway, List.ofFn_const, JSON_MAX_DEVICES]
  simp only [gateway_text, gateway_head, h, List.map_replicate, List.length_append,
    intercalate_length, big_device_length, List.sum_replicate, List.length_replicate]
  have d1 : fmt_lu 15 = ['1', '5'] := by decide
  have d2 : fmt_lu 128 = ['1', '2', '8'] := by decide
  have d3 : fmt_lu 8 = ['8'] := by decide
  simp [big_gateway, d1, d2, d3]

theorem big_within_capacity : within_capacity big_gateway := by decide

/-- C1 (code evaluated at the failing input): the record `big_gateway` is within the
capacities (8 devices with 16 data points each, every text field in its documented format,
`total_m3` the largest finite `float`), its JSON text has 18559 characters, and
`json_serialize_gateway` called with a buffer of `json_get_max_output_size() = 17664`
bytes returns -2 (buffer too small), not 0. -/
theorem max_output_size_too_small (env : Env) :
    within_capacity big_gateway ∧ big_point.total_m3.isBinary32 = true ∧
    json_get_max_output_size = 17664 ∧ (gateway_text env big_gateway).length = 18559 ∧
    json_serialize_gateway env (some big_gateway) (some (List.replicate 17664 'x'))
        json_get_max_output_size
      = .returned (-2) (some ((gateway_text env big_gateway).take 17663 ++ ['\x00'])) := by
  refine ⟨big_within_capacity, by decide, by decide, big_gateway_length, ?_⟩
  have hsize : json_get_max_output_size = 17664 := by decide
  rw [hsize]
  exact serialize_full big_gateway _ 17664 big_within_capacity
    (formats_of_short big_gateway (by rw [big_gateway_length]; omega))
    (List.length_replicate _ _) (by omega) (by rw [big_gateway_length]; omega)

/-! ## Success means that the whole text fits -/

theorem serialize_zero {env : Env} (g : JsonGateway) (buf : List Char) (size : Nat)
    (out : Option (List Char)) (hcap : within_capacity g) (hlen : buf.length = size)
    (h : json_serialize_gateway env (some g) (some buf) size = .returned 0 out) :
    (gateway_text env g).length < size ∧
      out = some (gateway_text env g ++ '\x00' :: buf.drop ((gateway_text env g).length + 1)) := by
  obtain ⟨hfmt, hfit⟩ := serialize_zero_inv g buf size out hcap hlen h
  rw [serialize_fits g buf size hcap hfmt hlen hfit] at h
  exact ⟨hfit, by injection h with _ h2; exact h2.symm⟩

/-! ## The text left by a successful call -/

set_option maxRecDepth 100000 in
theorem example_run :
    json_serialize_gateway c_env (some example_gateway) (some (List.replicate 400 'x')) 400
      = .returned 0 (some (example_text ++ '\x00' :: List.replicate 86 'x')) := by
  decide

set_option maxRecDepth 100000 in
theorem example_gateway_text_c : gateway_text c_env example_gateway = example_text := by
  decide

theorem example_gateway_text {env : Env} (hdp : env.decimal_point = '.') :
    gateway_text env example_gateway = example_text := by
  rw [gateway_text_congr (show env.decimal_point = c_env.decimal_point from hdp),
    example_gateway_text_c]

set_option maxRecDepth 100000 in
theorem example_text_length : example_text.length = 313 := by
  decide

theorem example_within_capacity : within_capacity example_gateway := by
  decide

/-- The example record has 313 characters in every environment, so `snprintf` formats
it. -/
theorem example_formats (env : Env) : formats env example_gateway := by
  apply formats_of_short
  rw [gateway_text_length_env env c_env, example_gateway_text_c, example_text_length]
  omega

set_option maxRecDepth 100000 in
/-- C3 (counterexample): where the decimal-point character of the numeric locale is the
comma, the call for the example record with a 400-byte buffer returns 0 and leaves a text
that reads `"total_m3":12,345`, not the text of the specification. -/
theorem serialize_example_decimal_comma :
    comma_env.decimal_point = ',' ∧ within_capacity example_gateway ∧
    json_serialize_gateway comma_env (some example_gateway) (some (List.replicate 400 'x')) 400
      = .returned 0 (some (example_text_comma ++ '\x00' :: List.replicate 86 'x')) ∧
    example_text_comma ≠ example_text ∧
    json_serialize_gateway comma_env (some example_gateway) (some (List.replicate 400 'x')) 400
      ≠ .returned 0 (some (example_text ++ '\x00' :: List.replicate 86 'x')) := by
  refine ⟨rfl, by decide, by decide, by decide, by decide⟩

/-- C3 (amended): where the decimal-point character of the numeric locale is `.` (as in the
"C" locale, in effect at program startup), for the record of the specification's end-to-end
example (`example_gateway`) and every buffer large enough for its 313 characters and the
terminator, `json_serialize_gateway` returns 0 and the buffer holds exactly the example's
JSON text (`example_text`), followed by the terminator and the untouched rest of the
buffer. -/
theorem serialize_example (env : Env) (hdp : env.decimal_point = '.') (buf : List Char)
    (size : Nat) (hlen : buf.length = size) (hbig : 313 < size) :
    json_serialize_gateway env (some example_gateway) (some buf) size
      = .returned 0 (some (example_text ++ '\x00' :: buf.drop 314)) := by
  have h := serialize_fits example_gateway buf size example_within_capacity
    (example_formats env) hlen
    (by rw [example_gateway_text hdp, example_text_length]; exact hbig)
  rw [example_gateway_text hdp, example_text_length] at h
  exact h

/-- Witness for C3 (amended): the "C" locale and a 512-byte buffer. -/
theorem serialize_example_witness :
    c_env.decimal_point = '.' ∧ (List.replicate 512 ' ').length = 512 ∧ 313 < 512 ∧
    json_serialize_gateway c_env (some example_gateway) (some (List.replicate 512 ' ')) 512
      = .returned 0 (some (example_text ++ '\x00' :: (List.replicate 512 ' ').drop 314)) :=
  ⟨rfl, List.length_replicate _ _, by decide,
    serialize_example c_env rfl (List.replicate 512 ' ') 512 (List.length_replicate _ _)
      (by decide)⟩

theorem gateway_text_pos {env : Env} (g : JsonGateway) : 0 < (gateway_text env g).length := by
  simp [gateway_text, gateway_head]

/-- C4 (amended): for a record whose counts are within the capacities and whose fragments
`snprintf` can format (none is longer than `INT_MAX`), with `L` the length of its complete
JSON text, a buffer of `L + 1` bytes is sufficient (the call returns 0 and the buffer holds
the text and the terminator), and a buffer exactly one byte shorter (`output_size = L`)
makes `json_serialize_gateway` return -2 (buffer too small). -/
theorem serialize_one_byte_short (env : Env) (g : JsonGateway) (buf : List Char)
    (hcap : within_capacity g) (hfmt : formats env g)
    (hlen : buf.length = (gateway_text env g).length) :
    json_serialize_gateway env (some g) (some buf) (gateway_text env g).length
      = .returned (-2)
          (some ((gateway_text env g).take ((gateway_text env g).length - 1) ++ ['\x00']))
    ∧ ∀ c : Char, json_serialize_gateway env (some g) (some (buf ++ [c]))
          ((gateway_text env g).length + 1)
        = .returned 0 (some (gateway_text env g ++ ['\x00'])) := by
  refine ⟨serialize_full g buf _ hcap hfmt hlen (gateway_text_pos g) (le_refl _), fun c => ?_⟩
  have h := serialize_fits g (buf ++ [c]) ((gateway_text env g).length + 1) hcap hfmt
    (by simp [hlen]) (by omega)
  rw [h, List.drop_of_length_le (by simp [hlen])]

set_option maxRecDepth 100000 in
/-- Witness for C4 (amended): the example record (313 characters) in a 313-byte buffer, in
the "C" locale with a 32-bit `int`. -/
theorem serialize_one_byte_short_witness :
    within_capacity example_gateway ∧ formats c_env example_gateway ∧
    (List.replicate 313 'x').length = (gateway_text c_env example_gateway).length ∧
    json_serialize_gateway c_env (some example_gateway) (some (List.replicate 313 'x'))
        (gateway_text c_env example_gateway).length
      = .returned (-2) (some ((gateway_text c_env example_gateway).take
          ((gateway_text c_env example_gateway).length - 1) ++ ['\x00'])) :=
  ⟨by decide, by decide, by decide,
    (serialize_one_byte_short c_env example_gateway (List.replicate 313 'x')
      (by decide) (by decide) (by decide)).1⟩

/-! ## Invariants of the control flow, for arbitrary records -/

theorem Flow.sat_bind {α β : Type} {P : α → Prop} {P' : β → Prop} {Q : Int → Cursor → Prop}
    {W : Prop} (x : Flow α) (f : α → Flow β) (hx : x.sat P Q W)
    (hf : ∀ a, P a → (f a).sat P' Q W) : (x.bind f).sat P' Q W := by
  cases x with
  | next a => exact hf a hx
  | ret code c => exact hx
  | bad_read => trivial
  | bad_write => exact hx

theorem slot_sat {α : Type} {n : Nat} (a : Fin n → α) (i : Nat) (Q : Int → Cursor → Prop)
    (W : Prop) : (slot a i).sat (fun _ => True) Q W := by
  unfold slot
  split <;> trivial

theorem data_loop_sat {env : Env} (size : Nat) (dev : JsonDeviceReading) (I : Cursor → Prop)
    (Q : Int → Cursor → Prop) (W : Prop)
    (happ : ∀ t c, I c → (APPEND_FMT env size t c).sat I Q W) :
    ∀ (k j : Nat) (c : Cursor), I c → (data_loop env size dev k j c).sat I Q W := by
  intro k
  induction k with
  | zero => intro j c hc; exact hc
  | succ k ih =>
    intro j c hc
    rw [data_loop]
    simp only [Flow.bind_eq, Flow.pure_eq]
    refine Flow.sat_bind _ _ (happ _ _ hc) (fun c hc => ?_)
    refine Flow.sat_bind _ _ (slot_sat _ _ Q W) (fun dp _ => ?_)
    refine Flow.sat_bind _ _ (happ _ _ hc) (fun c hc => ?_)
    refine Flow.sat_bind _ _ (happ _ _ hc) (fun c hc => ?_)
    refine Flow.sat_bind _ _ (happ _ _ hc) (fun c hc => ?_)
    refine Flow.sat_bind _ _ (happ _ _ hc) (fun c hc => ?_)
    refine Flow.sat_bind _ _ (happ _ _ hc) (fun c hc => ?_)
    split
    · exact Flow.sat_bind _ _ (happ _ _ hc) (fun c hc => ih _ c hc)
    · exact ih _ c hc

theorem device_loop_sat {env : Env} (size : Nat) (values : JsonValues) (I : Cursor → Prop)
    (Q : Int → Cursor → Prop) (W : Prop)
    (happ : ∀ t c, I c → (APPEND_FMT env size t c).sat I Q W) :
    ∀ (k i : Nat) (c : Cursor), I c → (device_loop env size values k i c).sat I Q W := by
  intro k
  induction k with
  | zero => intro i c hc; exact hc
  | succ k ih =>
    intro i c hc
    rw [device_loop]
    simp only [Flow.bind_eq, Flow.pure_eq]
    refine Flow.sat_bind _ _ (happ _ _ hc) (fun c hc => ?_)
    refine Flow.sat_bind _ _ (slot_sat _ _ Q W) (fun dev _ => ?_)
    refine Flow.sat_bind _ _ (happ _ _ hc) (fun c hc => ?_)
    refine Flow.sat_bind _ _ (happ _ _ hc) (fun c hc => ?_)
    refine Flow.sat_bind _ _ (happ _ _ hc) (fun c hc => ?_)
    refine Flow.sat_bind _ _ (happ _ _ hc) (fun c hc => ?_)
    refine Flow.sat_bind _ _ (happ _ _ hc) (fun c hc => ?_)
    refine Flow.sat_bind _ _ (data_loop_sat size dev I Q W happ _ _ c hc) (fun c hc => ?_)
    refine Flow.sat_bind _ _ (happ _ _ hc) (fun c hc => ?_)
    split
    · exact Flow.sat_bind _ _ (happ _ _ hc) (fun c hc => ih _ c hc)
    · exact ih _ c hc

theorem serialize_body_sat {env : Env} (g : JsonGateway) (buf : List Char) (size : Nat)
    (I : Cursor → Prop) (Q : Int → Cursor → Prop) (W : Prop)
    (happ : ∀ t c, I c → (APPEND_FMT env size t c).sat I Q W) (h0 : I ⟨buf, 0⟩)
    (hret : ∀ c, I c → Q 0 c) :
    (serialize_body env g buf size).sat (fun _ => False) Q W := by
  unfold serialize_body
  simp only [Flow.bind_eq]
  refine Flow.sat_bind _ _ (happ _ _ h0) (fun c hc => ?_)
  refine Flow.sat_bind _ _ (happ _ _ hc) (fun c hc => ?_)
  refine Flow.sat_bind _ _ (happ _ _ hc) (fun c hc => ?_)
  refine Flow.sat_bind _ _ (happ _ _ hc) (fun c hc => ?_)
  refine Flow.sat_bind _ _ (happ _ _ hc) (fun c hc => ?_)
  refine Flow.sat_bind _ _ (happ _ _ hc) (fun c hc => ?_)
  refine Flow.sat_bind _ _ (happ _ _ hc) (fun c hc => ?_)
  refine Flow.sat_bind _ _ (happ _ _ hc) (fun c hc => ?_)
  refine Flow.sat_bind _ _ (happ _ _ hc) (fun c hc => ?_)
  refine Flow.sat_bind _ _ (device_loop_sat size g.values I Q W happ _ _ c hc) (fun c hc => ?_)
  refine Flow.sat_bind _ _ (happ _ _ hc) (fun c hc => ?_)
  refine Flow.sat_bind _ _ (happ _ _ hc) (fun c hc => ?_)
  exact hret c hc

/-- Whatever the cursor, an append that returns does so with code -2 or -3. -/
theorem APPEND_FMT_code {env : Env} (size : Nat) (t : List Char) (c : Cursor) :
    (APPEND_FMT env size t c).sat (fun _ => True)
      (fun code _ => code = 0 ∨ code = -2 ∨ code = -3) True := by
  cases h : APPEND_FMT env size t c with
  | next c1 => trivial
  | ret code c1 => exact Or.inr (APPEND_FMT_ret_code size t c c1 code h)
  | bad_read => trivial
  | bad_write => trivial

/-- Inside the buffer, an append stays inside the buffer, never stores outside it, leaves
the bytes below `pos` alone, and returns only with `pos` unchanged: with code -2 when the
fragment has a length an `int` can hold and does not fit, with code -3 when it has not. -/
theorem APPEND_FMT_inside {env : Env} (size : Nat) (t : List Char) (c : Cursor)
    (hc : c.inside size) :
    (APPEND_FMT env size t c).sat
      (fun c' => c'.inside size ∧ c'.pos = c.pos + t.length ∧ t.length ≤ env.int_max ∧
        c'.output.take c.pos = c.output.take c.pos)
      (fun code c' =>
        ((code = -2 ∧ t.length ≤ env.int_max ∧ size - c.pos ≤ t.length) ∨
          (code = -3 ∧ env.int_max < t.length)) ∧
        c'.inside size ∧ c'.pos = c.pos ∧ c'.output.take c.pos = c.output.take c.pos)
      False := by
  obtain ⟨hlen, hpos⟩ := hc
  by_cases hint : t.length ≤ env.int_max
  · by_cases hfit : c.pos + t.length < size
    · rw [APPEND_FMT_fits size t c hint hlen hfit]
      refine ⟨⟨(store_length c.output c.pos t (by omega)).trans hlen, hfit⟩, rfl, hint, ?_⟩
      simp only [store, List.append_assoc]
      rw [List.take_append_of_le_length (by rw [List.length_take]; omega)]
      simp
    · rw [APPEND_FMT_full size t c hint hlen hpos (by omega)]
      refine ⟨Or.inl ⟨rfl, hint, by omega⟩, ⟨?_, hpos⟩, rfl, ?_⟩
      · simp only [List.length_append, List.length_take, List.length_singleton]
        omega
      · simp only [List.append_assoc]
        rw [List.take_append_of_le_length (by rw [List.length_take]; omega)]
        simp
  · rw [APPEND_FMT_fail size t c (by omega) hlen hpos]
    refine ⟨Or.inr ⟨rfl, by omega⟩, ⟨?_, hpos⟩, rfl, ?_⟩
    · simp only [List.length_append, List.length_take, List.length_cons, List.length_drop]
      omega
    · simp only [List.append_assoc]
      rw [List.take_append_of_le_length (by rw [List.length_take]; omega)]
      simp

theorem Flow.sat_mono {α : Type} {P P' : α → Prop} {Q Q' : Int → Cursor → Prop} {W W' : Prop}
    (x : Flow α) (hx : x.sat P Q W) (hP : ∀ a, P a → P' a) (hQ : ∀ code c, Q code c → Q' code c)
    (hW : W → W') : x.sat P' Q' W' := by
  cases x with
  | next a => exact hP a hx
  | ret code c => exact hQ code c hx
  | bad_read => trivial
  | bad_write => exact hW hx

theorem serialize_body_code {env : Env} (g : JsonGateway) (buf : List Char) (size : Nat) :
    (serialize_body env g buf size).sat (fun _ => False)
      (fun code _ => code = 0 ∨ code = -2 ∨ code = -3) True :=
  serialize_body_sat g buf size (fun _ => True) _ True
    (fun t c _ => APPEND_FMT_code size t c) trivial (fun _ _ => Or.inl rfl)

theorem serialize_body_inside {env : Env} (g : JsonGateway) (buf : List Char) (size : Nat)
    (h0 : size ≠ 0) (hlen : buf.length = size) :
    (serialize_body env g buf size).sat (fun _ => False)
      (fun code c => (code = 0 ∨ code = -2 ∨ code = -3) ∧ c.inside size) False :=
  serialize_body_sat g buf size (Cursor.inside size) _ False
    (fun t c hc => Flow.sat_mono _ (APPEND_FMT_inside size t c hc) (fun _ h => h.1)
      (fun _ _ h => ⟨Or.inr (h.1.elim (fun h2 => Or.inl h2.1) (fun h3 => Or.inr h3.1)),
        h.2.1⟩) id)
    ⟨hlen, Nat.pos_of_ne_zero h0⟩ (fun _ hc => ⟨Or.inl rfl, hc⟩)

/-- C5: `json_serialize_gateway` returns -1 exactly when the gateway reference is absent,
the output reference is absent, or `output_size` is 0; in those cases the buffer is handed
back unchanged, and when the output is absent or its size is 0 the result is the same for
every record. -/
theorem invalid_argument_iff (env : Env) (gateway : Option JsonGateway)
    (output : Option (List Char)) (size : Nat) :
    ((∃ out, json_serialize_gateway env gateway output size = .returned (-1) out)
      ↔ (gateway = none ∨ output = none ∨ size = 0)) ∧
    ((gateway = none ∨ output = none ∨ size = 0) →
      json_serialize_gateway env gateway output size = .returned (-1) output) ∧
    ((output = none ∨ size = 0) → ∀ other : Option JsonGateway,
      json_serialize_gateway env other output size = .returned (-1) output) := by
  have key : ∀ gw : Option JsonGateway, (gw = none ∨ output = none ∨ size = 0) →
      json_serialize_gateway env gw output size = .returned (-1) output := by
    intro gw h
    cases gw with
    | none => rfl
    | some g =>
      cases output with
      | none => rfl
      | some buf =>
        have hs : size = 0 := by simpa using h
        simp [json_serialize_gateway, hs]
  refine ⟨⟨?_, fun h => ⟨output, key gateway h⟩⟩, key gateway,
    fun h other => key other (Or.inr h)⟩
  rintro ⟨out, hout⟩
  cases gateway with
  | none => exact Or.inl rfl
  | some g =>
    cases output with
    | none => exact Or.inr (Or.inl rfl)
    | some buf =>
      by_cases hs : size = 0
      · exact Or.inr (Or.inr hs)
      · exfalso
        have hcode := @serialize_body_code env g buf size
        simp only [json_serialize_gateway, hs, if_false] at hout
        cases hb : serialize_body env g buf size with
        | next c => rw [hb] at hcode; exact hcode
        | ret code c =>
          rw [hb] at hcode hout
          injection hout with h1 _
          rcases hcode with h | h | h <;> omega
        | bad_read => rw [hb] at hout; exact Outcome.noConfusion hout
        | bad_write => rw [hb] at hout; exact Outcome.noConfusion hout

/-- C6: for every record and every buffer of `size ≠ 0` bytes: (1) an `APPEND_FMT` that
starts with the cursor inside the buffer (`pos < size`) never stores outside the buffer,
leaves the bytes below `pos` unchanged, and either advances `pos` by the fragment length
`w`, which then satisfies `w < size - pos`, keeping `pos < size`, or returns with `pos`
unchanged: -2 when `snprintf` reported a length `w ≥ size - pos`, -3 when `snprintf` failed
(the length is above `INT_MAX`); (2) the statements of `json_serialize_gateway` never store
outside the buffer and return only with the cursor inside the buffer; (3) the call is never
a store outside the buffer and hands back a buffer of the same `size` bytes. -/
theorem cursor_stays_inside (env : Env) (g : JsonGateway) (buf : List Char) (size : Nat)
    (h0 : size ≠ 0) (hlen : buf.length = size) :
    (∀ (t : List Char) (c : Cursor), c.inside size →
      (APPEND_FMT env size t c).sat
        (fun c' => c'.inside size ∧ c'.pos = c.pos + t.length ∧ t.length < size - c.pos ∧
          c'.output.take c.pos = c.output.take c.pos)
        (fun code c' =>
          ((code = -2 ∧ t.length ≤ env.int_max ∧ size - c.pos ≤ t.length) ∨
            (code = -3 ∧ env.int_max < t.length)) ∧
          c'.inside size ∧ c'.pos = c.pos ∧ c'.output.take c.pos = c.output.take c.pos)
        False) ∧
    (serialize_body env g buf size).sat (fun _ => False)
      (fun code c => (code = 0 ∨ code = -2 ∨ code = -3) ∧ c.inside size) False ∧
    json_serialize_gateway env (some g) (some buf) size ≠ .bad_write ∧
    (∀ code out, json_serialize_gateway env (some g) (some buf) size = .returned code out →
      ∃ o, out = some o ∧ o.length = size) := by
  have hbody := @serialize_body_inside env g buf size h0 hlen
  refine ⟨fun t c hc => Flow.sat_mono _ (APPEND_FMT_inside size t c hc)
    (fun c' h => ⟨h.1, h.2.1, ?_, h.2.2.2⟩) (fun _ _ h => h) id, hbody, ?_, ?_⟩
  · have := h.1.2
    omega
  · simp only [json_serialize_gateway, h0, if_false]
    cases hb : serialize_body env g buf size with
    | next c => simp
    | ret code c => simp
    | bad_read => simp
    | bad_write => rw [hb] at hbody; exact absurd hbody id
  · intro code out hout
    simp only [json_serialize_gateway, h0, if_false] at hout
    cases hb : serialize_body env g buf size with
    | next c => rw [hb] at hbody; exact absurd hbody id
    | ret code' c =>
      rw [hb] at hbody hout
      injection hout with _ h2
      exact ⟨c.output, h2.symm, hbody.2.1⟩
    | bad_read => rw [hb] at hout; exact Outcome.noConfusion hout
    | bad_write => rw [hb] at hout; exact Outcome.noConfusion hout

set_option maxRecDepth 100000 in
/-- Witness for C6: the example record in a 64-byte buffer, too small for its text. -/
theorem cursor_stays_inside_witness :
    (64 : Nat) ≠ 0 ∧ (List.replicate 64 'x').length = 64 ∧
    json_serialize_gateway c_env (some example_gateway) (some (List.replicate 64 'x')) 64
      ≠ .bad_write :=
  ⟨by decide, by decide,
    (cursor_stays_inside c_env example_gateway (List.replicate 64 'x') 64 (by decide)
      (by decide)).2.2.1⟩

/-! ## Slots at or beyond the counts are not read -/

theorem data_loop_congr {env : Env} (size : Nat) (d1 d2 : JsonDeviceReading) (h : d1.agrees d2) :
    ∀ (k j : Nat) (c : Cursor), j + k ≤ d1.data_count →
      data_loop env size d1 k j c = data_loop env size d2 k j c := by
  obtain ⟨-, -, -, -, hcount, hdata⟩ := h
  intro k
  induction k with
  | zero => intro j c _; rfl
  | succ k ih =>
    intro j c hjk
    have hslot : slot d1.data j = slot d2.data j := by
      unfold slot
      split
      · rename_i hj
        rw [hdata ⟨j, hj⟩ (by simp only; omega)]
      · rfl
    have ih1 : ∀ c, data_loop env size d1 k (j + 1) c = data_loop env size d2 k (j + 1) c :=
      fun c => ih (j + 1) c (by omega)
    rw [data_loop, data_loop, hslot]
    simp only [ih1, hcount]

theorem device_loop_congr {env : Env} (size : Nat) (v1 v2 : JsonValues)
    (hcount : v1.device_count = v2.device_count)
    (hdev : ∀ i : Fin JSON_MAX_DEVICES, i.val < v1.device_count →
      (v1.devices i).agrees (v2.devices i)) :
    ∀ (k i : Nat) (c : Cursor), i + k ≤ v1.device_count →
      device_loop env size v1 k i c = device_loop env size v2 k i c := by
  intro k
  induction k with
  | zero => intro i c _; rfl
  | succ k ih =>
    intro i c hik
    have ih1 : ∀ c, device_loop env size v1 k (i + 1) c = device_loop env size v2 k (i + 1) c :=
      fun c => ih (i + 1) c (by omega)
    rw [device_loop, device_loop]
    by_cases hi : i < JSON_MAX_DEVICES
    · have ha := hdev ⟨i, hi⟩ (by simp only; omega)
      have hloop := @data_loop_congr env size _ _ ha
      obtain ⟨h1, h2, h3, h4, h5, -⟩ := ha
      have hl : ∀ c, data_loop env size (v1.devices ⟨i, hi⟩) ((v1.devices ⟨i, hi⟩).data_count - 0) 0 c
          = data_loop env size (v2.devices ⟨i, hi⟩) ((v2.devices ⟨i, hi⟩).data_count - 0) 0 c := by
        intro c
        rw [← h5]
        exact hloop _ 0 c (by omega)
      simp only [slot, hi, dite_true, Flow.bind_eq, Flow.bind_next, h1, h2, h3, h4, hl, ih1,
        hcount]
    · simp only [slot, hi, dite_false, Flow.bind_eq, Flow.bind_bad_read]

theorem serialize_body_congr {env : Env} (g1 g2 : JsonGateway) (h : g1.agrees g2) (buf : List Char)
    (size : Nat) : serialize_body env g1 buf size = serialize_body env g2 buf size := by
  obtain ⟨h1, h2, h3, h4, h5, h6, h7⟩ := h
  have hl : ∀ c, device_loop env size g1.values (g2.values.device_count - 0) 0 c
      = device_loop env size g2.values (g2.values.device_count - 0) 0 c := by
    intro c
    rw [← h6]
    exact device_loop_congr size _ _ h6 h7 _ 0 c (by omega)
  simp only [serialize_body, h1, h2, h3, h4, h5, h6, hl]

/-- C7: two records that agree on the gateway-level fields, on `device_count`, and, for
each `i < device_count`, on device `i`'s four text fields, its `data_count` and its data
points `j < data_count`, give the same outcome of `json_serialize_gateway` (same code, same
buffer contents) for every buffer and size, whatever the slots at or beyond the counts
hold. -/
theorem unused_slots_not_read (env : Env) (g1 g2 : JsonGateway) (h : g1.agrees g2)
    (output : Option (List Char)) (size : Nat) :
    json_serialize_gateway env (some g1) output size
      = json_serialize_gateway env (some g2) output size := by
  cases output with
  | none => rfl
  | some buf => simp only [json_serialize_gateway, serialize_body_congr g1 g2 h buf size]

set_option maxRecDepth 100000 in
/-- Witness for C7: the example record and a record that differs from it in device slots
1 to 7 and in data slots 1 to 15 of device 0. -/
theorem unused_slots_not_read_witness :
    example_gateway.agrees example_gateway_alt ∧
    example_gateway.values.devices ⟨1, by decide⟩
      ≠ example_gateway_alt.values.devices ⟨1, by decide⟩ ∧
    json_serialize_gateway c_env (some example_gateway) (some (List.replicate 400 'x')) 400
      = json_serialize_gateway c_env (some example_gateway_alt) (some (List.replicate 400 'x'))
          400 :=
  ⟨by decide, by
      intro h
      have := congrArg JsonDeviceReading.data_count h
      exact absurd this (by decide),
    unused_slots_not_read c_env example_gateway example_gateway_alt (by decide) _ _⟩

/-! ## The element lists and their separators -/

theorem readings_length (g : JsonGateway) (hcap : g.values.device_count ≤ JSON_MAX_DEVICES) :
    g.readings.length = g.values.device_count := by
  rw [JsonGateway.readings, List.length_take, List.length_ofFn]
  exact Nat.min_eq_left hcap

theorem points_length (d : JsonDeviceReading) (hcap : d.data_count ≤ JSON_MAX_DATA_POINTS) :
    d.points.length = d.data_count := by
  rw [JsonDeviceReading.points, List.length_take, List.length_ofFn]
  exact Nat.min_eq_left hcap

theorem readings_getElem (g : JsonGateway) (i : Fin JSON_MAX_DEVICES)
    (hi : i.val < g.values.device_count) : g.readings[i.val]? = some (g.values.devices i) := by
  rw [JsonGateway.readings, List.getElem?_take_of_lt hi,
    List.getElem?_eq_getElem (by rw [List.length_ofFn]; exact i.isLt)]
  simp only [List.getElem_ofFn]

theorem points_getElem (d : JsonDeviceReading) (j : Fin JSON_MAX_DATA_POINTS)
    (hj : j.val < d.data_count) : d.points[j.val]? = some (d.data j) := by
  rw [JsonDeviceReading.points, List.getElem?_take_of_lt hj,
    List.getElem?_eq_getElem (by rw [List.length_ofFn]; exact j.isLt)]
  simp only [List.getElem_ofFn]

theorem intersperse_length (sep : List Char) (xs : List (List Char)) :
    (List.intersperse sep xs).length = xs.length + (xs.length - 1) := by
  induction xs with
  | nil => rfl
  | cons x r ih =>
    cases r with
    | nil => rfl
    | cons y r =>
      simp only [List.intersperse, List.length_cons] at ih ⊢
      omega

theorem intercalate_cons_cons (x y : List Char) (r : List (List Char)) :
    List.intercalate [','] (x :: y :: r) = x ++ ',' :: List.intercalate [','] (y :: r) := by
  simp [List.intercalate, List.intersperse]

theorem intercalate_single (x : List Char) : List.intercalate [','] [x] = x := by
  simp [List.intercalate]

theorem intercalate_infix (xs : List (List Char)) :
    ∀ (i : Nat) (x : List Char), xs[i]? = some x →
      ∃ pre post, List.intercalate [','] xs = pre ++ x ++ post := by
  induction xs with
  | nil => intro i x h; simp at h
  | cons a r ih =>
    intro i x h
    cases r with
    | nil =>
      cases i with
      | zero =>
        simp only [List.getElem?_cons_zero, Option.some.injEq] at h
        exact ⟨[], [], by simp [intercalate_single, h]⟩
      | succ i => simp at h
    | cons b r =>
      rw [intercalate_cons_cons]
      cases i with
      | zero =>
        simp only [List.getElem?_cons_zero, Option.some.injEq] at h
        exact ⟨[], ',' :: List.intercalate [','] (b :: r), by simp [h]⟩
      | succ i =>
        rw [List.getElem?_cons_succ] at h
        obtain ⟨pre, post, hpp⟩ := ih i x h
        exact ⟨a ++ ',' :: pre, post, by simp [hpp]⟩

theorem readings_three (g : JsonGateway) (h3 : g.values.device_count = 3) :
    g.readings = [g.values.devices ⟨0, by decide⟩, g.values.devices ⟨1, by decide⟩,
      g.values.devices ⟨2, by decide⟩] := by
  rw [JsonGateway.readings, h3]
  rfl

theorem points_one (d : JsonDeviceReading) (h1 : d.data_count = 1) :
    d.points = [d.data ⟨0, by decide⟩] := by
  rw [JsonDeviceReading.points, h1]
  rfl

theorem points_zero (d : JsonDeviceReading) (h0 : d.data_count = 0) : d.points = [] := by
  rw [JsonDeviceReading.points, h0]
  rfl

theorem readings_zero (g : JsonGateway) (h0 : g.values.device_count = 0) : g.readings = [] := by
  rw [JsonGateway.readings, h0]
  rfl

/-- C8: for a record whose counts are within the capacities and a call that returns 0, the
content of the `readings` array is the `device_count` device objects with one comma between
consecutive objects (`List.intercalate` flattens `List.intersperse`, whose list holds the
objects and `device_count - 1` separators: none before the first object, none after the
last), and likewise the content of each device's `data` array is its `data_count` data-point
objects with `data_count - 1` commas; with `device_count = 3` the content is the three
objects and exactly two commas, and with `data_count = 1` it is the single object and no
comma. -/
theorem separators_between_elements (env : Env) (g : JsonGateway) (buf : List Char) (size : Nat)
    (out : Option (List Char)) (hcap : within_capacity g) (hlen : buf.length = size)
    (h : json_serialize_gateway env (some g) (some buf) size = .returned 0 out) :
    out = some (gateway_head g ++ List.intercalate [','] (g.readings.map (device_text env))
      ++ "]\x7d\x7d]".toList ++ '\x00' :: buf.drop ((gateway_text env g).length + 1)) ∧
    (g.readings.map (device_text env)).length = g.values.device_count ∧
    (List.intersperse [','] (g.readings.map (device_text env))).length
      = g.values.device_count + (g.values.device_count - 1) ∧
    (∀ i : Fin JSON_MAX_DEVICES, i.val < g.values.device_count →
      (g.readings.map (device_text env))[i.val]? = some (device_text env (g.values.devices i)) ∧
      device_text env (g.values.devices i)
        = device_head (g.values.devices i)
          ++ List.intercalate [','] ((g.values.devices i).points.map (point_text env))
          ++ "]\x7d".toList ∧
      ((g.values.devices i).points.map (point_text env)).length
        = (g.values.devices i).data_count ∧
      (List.intersperse [','] ((g.values.devices i).points.map (point_text env))).length
        = (g.values.devices i).data_count + ((g.values.devices i).data_count - 1) ∧
      ((g.values.devices i).data_count = 1 →
        List.intercalate [','] ((g.values.devices i).points.map (point_text env))
          = point_text env ((g.values.devices i).data ⟨0, by decide⟩))) ∧
    (g.values.device_count = 3 →
      List.intercalate [','] (g.readings.map (device_text env))
        = device_text env (g.values.devices ⟨0, by decide⟩) ++ ',' ::
          (device_text env (g.values.devices ⟨1, by decide⟩) ++ ',' ::
            device_text env (g.values.devices ⟨2, by decide⟩))) := by
  have hr := readings_length g hcap.1
  refine ⟨(serialize_zero g buf size out hcap hlen h).2, ?_, ?_, ?_, ?_⟩
  · rw [List.length_map, hr]
  · rw [intersperse_length, List.length_map, hr]
  · intro i hi
    have hp := points_length (g.values.devices i) (hcap.2 i hi)
    refine ⟨?_, rfl, ?_, ?_, ?_⟩
    · rw [List.getElem?_map, readings_getElem g i hi]; rfl
    · rw [List.length_map, hp]
    · rw [intersperse_length, List.length_map, hp]
    · intro h1
      rw [points_one _ h1, List.map_cons, List.map_nil, intercalate_single]
  · intro h3
    rw [readings_three g h3]
    simp only [List.map_cons, List.map_nil, intercalate_cons_cons, intercalate_single]

set_option maxRecDepth 100000 in
/-- Witness for C8: the example record (one device, one data point) in a 400-byte buffer. -/
theorem separators_between_elements_witness :
    within_capacity example_gateway ∧ (List.replicate 400 'x').length = 400 ∧
    json_serialize_gateway c_env (some example_gateway) (some (List.replicate 400 'x')) 400
      = .returned 0 (some (example_text ++ '\x00' :: List.replicate 86 'x')) ∧
    (List.intersperse [','] (example_gateway.readings.map (device_text c_env))).length
      = example_gateway.values.device_count + (example_gateway.values.device_count - 1) :=
  ⟨by decide, List.length_replicate _ _, example_run,
    (separators_between_elements c_env example_gateway (List.replicate 400 'x') 400
      (some (example_text ++ '\x00' :: List.replicate 86 'x'))
      (by decide) (List.length_replicate _ _) example_run).2.2.1⟩

/-- C9: for a record whose counts are within the capacities and a call that returns 0:
with `device_count = 0` the output text ends with `"readings":[]}}]` (so it contains
`"readings":[]`); and every device below `device_count` with `data_count = 0` is rendered,
inside the output text, as its four text members followed by `"data":[]}`, with nothing
between the brackets. -/
theorem empty_sequences (env : Env) (g : JsonGateway) (buf : List Char) (size : Nat)
    (out : Option (List Char)) (hcap : within_capacity g) (hlen : buf.length = size)
    (h : json_serialize_gateway env (some g) (some buf) size = .returned 0 out) :
    (g.values.device_count = 0 →
      ∃ pre rest, out = some (pre ++ "\"readings\":[]\x7d\x7d]".toList ++ '\x00' :: rest)) ∧
    (∀ i : Fin JSON_MAX_DEVICES, i.val < g.values.device_count →
      (g.values.devices i).data_count = 0 →
      device_text env (g.values.devices i)
        = "\x7b\"media\":\"".toList ++ (g.values.devices i).media
          ++ "\",\"meter\":\"".toList ++ (g.values.devices i).meter
          ++ "\",\"deviceId\":\"".toList ++ (g.values.devices i).device_id
          ++ "\",\"unit\":\"".toList ++ (g.values.devices i).unit
          ++ "\",\"data\":[]\x7d".toList ∧
      ∃ pre post rest,
        out = some (pre ++ device_text env (g.values.devices i) ++ post ++ '\x00' :: rest)) := by
  have hout := (serialize_zero g buf size out hcap hlen h).2
  refine ⟨fun h0 => ?_, fun i hi hd => ⟨?_, ?_⟩⟩
  · refine ⟨"[\x7b\"gatewayId\":\"".toList ++ g.gateway_id
      ++ "\",\"date\":\"".toList ++ g.date
      ++ "\",\"deviceType\":\"".toList ++ g.device_type
      ++ "\",\"interval_minutes\":".toList ++ fmt_lu g.interval_minutes
      ++ ",\"total_readings\":".toList ++ fmt_lu g.total_readings
      ++ ",\"values\":\x7b\"device_count\":".toList ++ fmt_lu g.values.device_count
      ++ ",".toList, buf.drop ((gateway_text env g).length + 1), ?_⟩
    rw [hout]
    simp [gateway_text, gateway_head, readings_zero g h0, List.intercalate]
  · simp [device_text, device_head, points_zero _ hd, List.intercalate]
  · have hget : (g.readings.map (device_text env))[i.val]?
        = some (device_text env (g.values.devices i)) := by
      rw [List.getElem?_map, readings_getElem g i hi]; rfl
    obtain ⟨pre, post, hpp⟩ := intercalate_infix _ _ _ hget
    refine ⟨gateway_head g ++ pre, post ++ "]\x7d\x7d]".toList,
      buf.drop ((gateway_text env g).length + 1), ?_⟩
    rw [hout, gateway_text, hpp]
    simp [List.append_assoc]

set_option maxRecDepth 100000 in
theorem empty_run :
    json_serialize_gateway c_env (some empty_gateway) (some (List.replicate 400 'x')) 400
      = .returned 0
          (some (gateway_text c_env empty_gateway ++ '\x00' :: List.replicate 254 'x')) := by
  decide

set_option maxRecDepth 100000 in
/-- Witness for C9: a record with `device_count = 0` in a 400-byte buffer. -/
theorem empty_sequences_witness :
    within_capacity empty_gateway ∧ (List.replicate 400 'x').length = 400 ∧
    json_serialize_gateway c_env (some empty_gateway) (some (List.replicate 400 'x')) 400
      = .returned 0
          (some (gateway_text c_env empty_gateway ++ '\x00' :: List.replicate 254 'x')) ∧
    ∃ pre rest,
      some (gateway_text c_env empty_gateway ++ '\x00' :: List.replicate 254 'x')
        = some (pre ++ "\"readings\":[]\x7d\x7d]".toList ++ '\x00' :: rest) :=
  ⟨by decide, List.length_replicate _ _, empty_run,
    (empty_sequences c_env empty_gateway (List.replicate 400 'x') 400 _ (by decide)
      (List.length_replicate _ _) empty_run).1 (by decide)⟩

/-! ## The specified text by its JSON structure -/

theorem point_text_eq_json {env : Env} (p : JsonMeterDataPoint) :
    point_text env p = point_json env p := by
  simp [point_text, point_json, json_obj, json_kv, json_str, List.intercalate,
    List.intersperse]

theorem device_text_eq_json {env : Env} (d : JsonDeviceReading) :
    device_text env d = device_json env d := by
  have : d.points.map (point_text env) = d.points.map (point_json env) :=
    List.map_congr_left (fun p _ => point_text_eq_json p)
  rw [device_text, this]
  simp [device_head, device_json, json_obj, json_kv, json_str, json_arr, List.intercalate,
    List.intersperse]

theorem gateway_text_eq_json {env : Env} (g : JsonGateway) :
    gateway_text env g = gateway_json env g := by
  have : g.readings.map (device_text env) = g.readings.map (device_json env) :=
    List.map_congr_left (fun d _ => device_text_eq_json d)
  rw [gateway_text, this]
  simp [gateway_head, gateway_json, gateway_object_json, json_obj, json_kv, json_str, json_arr,
    List.intercalate, List.intersperse]

/-! ## Validity of the structured text -/

theorem JsonWs_nil : JsonWs [] := by
  intro c hc
  cases hc

theorem clean_text_chars (s : List Char) (h : clean_text s) : JsonChars s := by
  induction s with
  | nil => exact JsonChars.nil
  | cons c rest ih =>
    have hc := h c (List.mem_cons_self c rest)
    exact JsonChars.unescaped c rest hc.2.2 hc.1 hc.2.1
      (ih (fun x hx => h x (List.mem_cons_of_mem c hx)))

theorem json_str_valid (s : List Char) (h : clean_text s) : JsonString (json_str s) :=
  ⟨s, by simp [json_str], clean_text_chars s h⟩

theorem toDigits_int (n : Nat) : JsonInt (Nat.toDigits 10 n) := by
  by_cases h0 : n = 0
  · left
    rw [h0]
    rfl
  · right
    have hd := toDigits_isDigit n
    have hh := toDigits_head n h0
    cases hl : Nat.toDigits 10 n with
    | nil => exact absurd hl (toDigits_ne_nil n)
    | cons d rest =>
      rw [hl] at hd hh
      refine ⟨d, rest, rfl, hd d (List.mem_cons_self d rest), ?_,
        fun c hc => hd c (List.mem_cons_of_mem d hc)⟩
      intro hd0
      exact hh (by rw [hd0]; rfl)

theorem fmt_lu_number (n : Nat) : JsonNumber (fmt_lu n) :=
  ⟨[], Nat.toDigits 10 n, [], [], by simp [fmt_lu], Or.inl rfl, toDigits_int n, Or.inl rfl,
    Or.inl rfl⟩

theorem fmt_f3_number {env : Env} (hdp : env.decimal_point = '.') (x : CFloat)
    (h : x.isFinite = true) : JsonNumber (fmt_f3 env x) := by
  cases x with
  | finite neg m e =>
    refine ⟨if neg then ['-'] else [], Nat.toDigits 10 (milli m e / 1000),
      ['.', Nat.digitChar (milli m e / 100 % 10), Nat.digitChar (milli m e / 10 % 10),
        Nat.digitChar (milli m e % 10)], [], by simp [fmt_f3, hdp], ?_, toDigits_int _, ?_,
      Or.inl rfl⟩
    · cases neg
      · exact Or.inl rfl
      · exact Or.inr rfl
    · refine Or.inr ⟨_, rfl, by simp, ?_⟩
      intro c hc
      simp only [List.mem_cons, List.mem_singleton, List.not_mem_nil, or_false] at hc
      rcases hc with rfl | rfl | rfl <;>
        exact digitChar_isDigit _ (Nat.mod_lt _ (by omega))
  | inf neg => exact absurd h (by simp [CFloat.isFinite])
  | nan neg => exact absurd h (by simp [CFloat.isFinite])

theorem json_kv_member (name : String) (v : List Char) (hname : clean_text name.toList)
    (hv : JsonValue v) : JsonMember (json_kv name v) :=
  ⟨json_str name.toList, [], [], v, by simp [json_kv], json_str_valid _ hname, JsonWs_nil,
    JsonWs_nil, hv⟩

theorem members_intercalate (ms : List (List Char)) (hne : ms ≠ [])
    (h : ∀ m ∈ ms, JsonMember m) : JsonMembers (List.intercalate [','] ms) := by
  induction ms with
  | nil => exact absurd rfl hne
  | cons m r ih =>
    obtain ⟨k, w1, w2, v, hm, hk, hw1, hw2, hv⟩ := h m (List.mem_cons_self m r)
    cases r with
    | nil =>
      rw [intercalate_single]
      exact JsonMembers.one _ k w1 w2 v hk hw1 hw2 hv hm
    | cons m2 r =>
      rw [intercalate_cons_cons]
      refine JsonMembers.more _ k w1 w2 v [] [] _ hk hw1 hw2 hv JsonWs_nil JsonWs_nil
        (ih (by simp) (fun x hx => h x (List.mem_cons_of_mem m hx))) ?_
      rw [hm]
      simp

theorem json_obj_valid (ms : List (List Char)) (hne : ms ≠ []) (h : ∀ m ∈ ms, JsonMember m) :
    JsonObject (json_obj ms) :=
  JsonObject.members _ [] [] _ [] [] JsonWs_nil JsonWs_nil (members_intercalate ms hne h)
    JsonWs_nil JsonWs_nil (by simp [json_obj])

theorem elements_intercalate (es : List (List Char)) (hne : es ≠ [])
    (h : ∀ e ∈ es, JsonValue e) : JsonElements (List.intercalate [','] es) := by
  induction es with
  | nil => exact absurd rfl hne
  | cons e r ih =>
    have he := h e (List.mem_cons_self e r)
    cases r with
    | nil =>
      rw [intercalate_single]
      exact JsonElements.one _ he
    | cons e2 r =>
      rw [intercalate_cons_cons]
      exact JsonElements.more _ e [] [] _ he JsonWs_nil JsonWs_nil
        (ih (by simp) (fun x hx => h x (List.mem_cons_of_mem e hx))) (by simp)

theorem json_arr_valid (es : List (List Char)) (h : ∀ e ∈ es, JsonValue e) :
    JsonArray (json_arr es) := by
  cases es with
  | nil =>
    exact JsonArray.empty _ [] [] [] [] JsonWs_nil JsonWs_nil JsonWs_nil JsonWs_nil
      (by simp [json_arr, List.intercalate])
  | cons e r =>
    exact JsonArray.elements _ [] [] _ [] [] JsonWs_nil JsonWs_nil
      (elements_intercalate (e :: r) (by simp) h) JsonWs_nil JsonWs_nil (by simp [json_arr])

theorem mem_take_ofFn {α : Type} {n : Nat} (a : Fin n → α) (count : Nat) (x : α)
    (h : x ∈ (List.ofFn a).take count) : ∃ i : Fin n, i.val < count ∧ x = a i := by
  obtain ⟨i, hi⟩ := List.mem_iff_getElem?.mp h
  rw [List.getElem?_take] at hi
  split at hi
  · rename_i hlt
    obtain ⟨hlen, hget⟩ := List.getElem?_eq_some.mp hi
    rw [List.length_ofFn] at hlen
    refine ⟨⟨i, hlen⟩, hlt, ?_⟩
    rw [← hget]
    simp only [List.getElem_ofFn]
  · cases hi

theorem point_json_valid {env : Env} (hdp : env.decimal_point = '.') (p : JsonMeterDataPoint)
    (h : p.clean) : JsonObject (point_json env p) := by
  obtain ⟨h1, h2, h3, h4⟩ := h
  refine json_obj_valid _ (by simp) ?_
  intro m hm
  simp only [List.mem_cons, List.mem_singleton, List.not_mem_nil, or_false] at hm
  rcases hm with rfl | rfl | rfl | rfl
  · exact json_kv_member _ _ (by decide) (JsonValue.string _ (json_str_valid _ h1))
  · exact json_kv_member _ _ (by decide) (JsonValue.string _ (json_str_valid _ h2))
  · exact json_kv_member _ _ (by decide) (JsonValue.number _ (fmt_f3_number hdp _ h4))
  · exact json_kv_member _ _ (by decide) (JsonValue.string _ (json_str_valid _ h3))

theorem device_json_valid {env : Env} (hdp : env.decimal_point = '.') (d : JsonDeviceReading)
    (h : d.clean) : JsonObject (device_json env d) := by
  obtain ⟨h1, h2, h3, h4, h5⟩ := h
  have hpoints : ∀ e ∈ d.points.map (point_json env), JsonValue e := by
    intro e he
    obtain ⟨p, hp, rfl⟩ := List.mem_map.mp he
    obtain ⟨j, hj, rfl⟩ := mem_take_ofFn d.data d.data_count p hp
    exact JsonValue.object _ (point_json_valid hdp _ (h5 j hj))
  refine json_obj_valid _ (by simp) ?_
  intro m hm
  simp only [List.mem_cons, List.mem_singleton, List.not_mem_nil, or_false] at hm
  rcases hm with rfl | rfl | rfl | rfl | rfl
  · exact json_kv_member _ _ (by decide) (JsonValue.string _ (json_str_valid _ h1))
  · exact json_kv_member _ _ (by decide) (JsonValue.string _ (json_str_valid _ h2))
  · exact json_kv_member _ _ (by decide) (JsonValue.string _ (json_str_valid _ h3))
  · exact json_kv_member _ _ (by decide) (JsonValue.string _ (json_str_valid _ h4))
  · exact json_kv_member _ _ (by decide) (JsonValue.array _ (json_arr_valid _ hpoints))

theorem gateway_object_json_valid {env : Env} (hdp : env.decimal_point = '.')
    (g : JsonGateway) (h : g.clean) :
    JsonObject (gateway_object_json env g) := by
  obtain ⟨h1, h2, h3, h4⟩ := h
  have hdevs : ∀ e ∈ g.readings.map (device_json env), JsonValue e := by
    intro e he
    obtain ⟨d, hd, rfl⟩ := List.mem_map.mp he
    obtain ⟨i, hi, rfl⟩ := mem_take_ofFn g.values.devices g.values.device_count d hd
    exact JsonValue.object _ (device_json_valid hdp _ (h4 i hi))
  have hvalues : JsonObject (json_obj [json_kv "device_count" (fmt_lu g.values.device_count),
      json_kv "readings" (json_arr (g.readings.map (device_json env)))]) := by
    refine json_obj_valid _ (by simp) ?_
    intro m hm
    simp only [List.mem_cons, List.mem_singleton, List.not_mem_nil, or_false] at hm
    rcases hm with rfl | rfl
    · exact json_kv_member _ _ (by decide) (JsonValue.number _ (fmt_lu_number _))
    · exact json_kv_member _ _ (by decide) (JsonValue.array _ (json_arr_valid _ hdevs))
  refine json_obj_valid _ (by simp) ?_
  intro m hm
  simp only [List.mem_cons, List.mem_singleton, List.not_mem_nil, or_false] at hm
  rcases hm with rfl | rfl | rfl | rfl | rfl | rfl
  · exact json_kv_member _ _ (by decide) (JsonValue.string _ (json_str_valid _ h1))
  · exact json_kv_member _ _ (by decide) (JsonValue.string _ (json_str_valid _ h2))
  · exact json_kv_member _ _ (by decide) (JsonValue.string _ (json_str_valid _ h3))
  · exact json_kv_member _ _ (by decide) (JsonValue.number _ (fmt_lu_number _))
  · exact json_kv_member _ _ (by decide) (JsonValue.number _ (fmt_lu_number _))
  · exact json_kv_member _ _ (by decide) (JsonValue.object _ hvalues)

theorem gateway_json_valid {env : Env} (hdp : env.decimal_point = '.') (g : JsonGateway)
    (h : g.clean) :
    JsonOneObjectArray (gateway_json env g) := by
  have ho := gateway_object_json_valid hdp g h
  refine ⟨⟨[], gateway_json env g, [], by simp, JsonWs_nil, ?_, JsonWs_nil⟩,
    gateway_object_json env g, by simp [gateway_json, json_arr, List.intercalate], ho⟩
  refine JsonValue.array _ (json_arr_valid _ ?_)
  intro e he
  rw [List.mem_singleton] at he
  rw [he]
  exact JsonValue.object _ ho

/-- C10 (amended): where the decimal-point character of the numeric locale is `.` (as in
the "C" locale, in effect at program startup): for a record whose counts are within the
capacities, whose text fields (gateway level, devices below `device_count`, data points
below `data_count`) contain no double quote, no backslash and no control character, and
whose `total_m3` values are finite, whenever `json_serialize_gateway` returns 0 the text
left in the buffer (before the terminator) is derivable in the RFC 8259 grammar as a JSON
text, and it is an array with exactly one element, which is an object. -/
theorem output_is_valid_json (env : Env) (g : JsonGateway) (buf : List Char) (size : Nat)
    (out : Option (List Char)) (hdp : env.decimal_point = '.') (hcap : within_capacity g)
    (hclean : g.clean) (hlen : buf.length = size)
    (h : json_serialize_gateway env (some g) (some buf) size = .returned 0 out) :
    out = some (gateway_text env g ++ '\x00' :: buf.drop ((gateway_text env g).length + 1)) ∧
    JsonText (gateway_text env g) ∧ JsonOneObjectArray (gateway_text env g) := by
  have hv := gateway_json_valid hdp g hclean
  rw [← gateway_text_eq_json] at hv
  exact ⟨(serialize_zero g buf size out hcap hlen h).2, hv.1, hv⟩

set_option maxRecDepth 100000 in
/-- Witness for C10 (amended): the example record in a 400-byte buffer, in the "C"
locale. -/
theorem output_is_valid_json_witness :
    c_env.decimal_point = '.' ∧ within_capacity example_gateway ∧ example_gateway.clean ∧
    (List.replicate 400 'x').length = 400 ∧
    json_serialize_gateway c_env (some example_gateway) (some (List.replicate 400 'x')) 400
      = .returned 0 (some (example_text ++ '\x00' :: List.replicate 86 'x')) ∧
    JsonOneObjectArray (gateway_text c_env example_gateway) :=
  ⟨rfl, by decide, by decide, List.length_replicate _ _, example_run,
    (output_is_valid_json c_env example_gateway (List.replicate 400 'x') 400
      (some (example_text ++ '\x00' :: List.replicate 86 'x'))
      rfl (by decide) (by decide) (List.length_replicate _ _) example_run).2.2⟩

/-! ## The estimator is a constant -/

/-- C15: `json_get_max_output_size` has no parameter (it is a constant, the same for every
call and every record); its value is base overhead + max devices × (per-device overhead +
max data points × per-data-point size) = 256 + 8 × (128 + 16 × 128) = 17664; and computed
in a `size_t` of any width `w ≥ 16` (the least the C standard allows) no step wraps: the
wrapping computation gives the same 17664. -/
theorem max_output_size_constant (w : Nat) (hw : 16 ≤ w) :
    json_get_max_output_size
      = 256 + JSON_MAX_DEVICES * (128 + JSON_MAX_DATA_POINTS * 128) ∧
    JSON_MAX_DEVICES = 8 ∧ JSON_MAX_DATA_POINTS = 16 ∧
    json_get_max_output_size = 17664 ∧
    json_get_max_output_size < 2 ^ w ∧
    json_get_max_output_size_wrapping w = json_get_max_output_size := by
  have h16 : 2 ^ 16 ≤ 2 ^ w := Nat.pow_le_pow_right (by decide) hw
  have hlt : ∀ n : Nat, n < 65536 → n % 2 ^ w = n := fun n hn =>
    Nat.mod_eq_of_lt (by
      have : (65536 : Nat) = 2 ^ 16 := by decide
      omega)
  refine ⟨rfl, rfl, rfl, by decide, ?_, ?_⟩
  · have : json_get_max_output_size = 17664 := by decide
    have h2 : (65536 : Nat) = 2 ^ 16 := by decide
    omega
  · simp only [json_get_max_output_size_wrapping, JSON_MAX_DATA_POINTS, JSON_MAX_DEVICES]
    rw [hlt 256 (by decide), hlt 128 (by decide), hlt (16 * 128) (by decide),
      hlt (128 + 16 * 128) (by decide), hlt (8 * (128 + 16 * 128)) (by decide),
      hlt (256 + 8 * (128 + 16 * 128)) (by decide)]
    rfl

/-- Witness for C15: a 32-bit `size_t`. -/
theorem max_output_size_constant_witness :
    16 ≤ 32 ∧ json_get_max_output_size_wrapping 32 = json_get_max_output_size :=
  ⟨by decide, (max_output_size_constant 32 (by decide)).2.2.2.2.2⟩

/-! ## The size threshold -/

/-- C17: for a record whose counts are within the capacities and whose fragments
`snprintf` can format (formatting does not fail: none is longer than `INT_MAX`), with `L`
the length of its complete JSON text, and a buffer of `size ≥ 1` bytes:
`json_serialize_gateway` returns 0 exactly when `size ≥ L + 1` and returns -2 exactly when
`size ≤ L` (the per-fragment checks amount to one check of the total length); hence a call
that succeeds with `size` bytes succeeds with every larger buffer, `L + 1` bytes succeed and
`L` bytes do not. -/
theorem size_threshold (env : Env) (g : JsonGateway) (buf : List Char) (size : Nat)
    (hcap : within_capacity g) (hfmt : formats env g) (hlen : buf.length = size)
    (hpos : 1 ≤ size) :
    ((∃ out, json_serialize_gateway env (some g) (some buf) size = .returned 0 out)
      ↔ (gateway_text env g).length + 1 ≤ size) ∧
    ((∃ out, json_serialize_gateway env (some g) (some buf) size = .returned (-2) out)
      ↔ size ≤ (gateway_text env g).length) ∧
    (∀ (buf' : List Char) (size' : Nat), buf'.length = size' → size ≤ size' →
      (∃ out, json_serialize_gateway env (some g) (some buf) size = .returned 0 out) →
      ∃ out', json_serialize_gateway env (some g) (some buf') size' = .returned 0 out') := by
  have hzero : (∃ out, json_serialize_gateway env (some g) (some buf) size = .returned 0 out)
      ↔ (gateway_text env g).length + 1 ≤ size := by
    constructor
    · rintro ⟨out, h⟩
      have := (serialize_zero g buf size out hcap hlen h).1
      omega
    · intro h
      exact ⟨_, serialize_fits g buf size hcap hfmt hlen (by omega)⟩
  refine ⟨hzero, ?_, ?_⟩
  · constructor
    · rintro ⟨out, h⟩
      by_contra hnot
      rw [serialize_fits g buf size hcap hfmt hlen (by omega)] at h
      injection h with h1 _
      omega
    · intro h
      exact ⟨_, serialize_full g buf size hcap hfmt hlen (by omega) h⟩
  · intro buf' size' hlen' hle hex
    have := hzero.mp hex
    exact ⟨_, serialize_fits g buf' size' hcap hfmt hlen' (by omega)⟩

set_option maxRecDepth 100000 in
/-- Witness for C17: the example record (313 characters) in a 314-byte buffer, in the "C"
locale with a 32-bit `int`. -/
theorem size_threshold_witness :
    within_capacity example_gateway ∧ formats c_env example_gateway ∧
    (List.replicate 314 'x').length = 314 ∧ 1 ≤ 314 ∧
    ((∃ out,
        json_serialize_gateway c_env (some example_gateway) (some (List.replicate 314 'x')) 314
          = .returned 0 out)
      ↔ (gateway_text c_env example_gateway).length + 1 ≤ 314) :=
  ⟨by decide, by decide, by decide, by decide,
    (size_threshold c_env example_gateway (List.replicate 314 'x') 314 (by decide) (by decide)
      (by decide) (by decide)).1⟩

/-! ## Beyond the capacities the call cannot succeed -/

/-- Whatever the cursor, an append that returns does so with code -2 or -3. -/
theorem APPEND_FMT_returns {env : Env} (size : Nat) (t : List Char) (c : Cursor) :
    (APPEND_FMT env size t c).sat (fun _ => True) (fun code _ => code = -2 ∨ code = -3)
      True := by
  cases h : APPEND_FMT env size t c with
  | next c1 => trivial
  | ret code c1 => exact APPEND_FMT_ret_code size t c c1 code h
  | bad_read => trivial
  | bad_write => trivial

theorem data_loop_doomed {env : Env} (size : Nat) (dev : JsonDeviceReading) :
    ∀ (k j : Nat) (c : Cursor), j ≤ JSON_MAX_DATA_POINTS → JSON_MAX_DATA_POINTS < j + k →
      (data_loop env size dev k j c).sat (fun _ => False)
        (fun code _ => code = -2 ∨ code = -3) True := by
  have happ := fun t c => @APPEND_FMT_returns env size t c
  intro k
  induction k with
  | zero => intro j c h1 h2; omega
  | succ k ih =>
    intro j c h1 h2
    rw [data_loop]
    simp only [Flow.bind_eq, Flow.pure_eq]
    refine Flow.sat_bind _ _ (happ _ _) (fun c _ => ?_)
    by_cases hj : j < JSON_MAX_DATA_POINTS
    · simp only [slot, hj, dite_true, Flow.bind_next]
      refine Flow.sat_bind _ _ (happ _ _) (fun c _ => ?_)
      refine Flow.sat_bind _ _ (happ _ _) (fun c _ => ?_)
      refine Flow.sat_bind _ _ (happ _ _) (fun c _ => ?_)
      refine Flow.sat_bind _ _ (happ _ _) (fun c _ => ?_)
      refine Flow.sat_bind _ _ (happ _ _) (fun c _ => ?_)
      split
      · exact Flow.sat_bind _ _ (happ _ _) (fun c _ => ih _ c (by omega) (by omega))
      · exact ih _ c (by omega) (by omega)
    · simp only [slot, hj, dite_false, Flow.bind_bad_read]
      trivial

theorem device_loop_doomed {env : Env} (size : Nat) (values : JsonValues) (i0 : Nat)
    (hbad : JSON_MAX_DEVICES ≤ i0 ∨
      ∃ h : i0 < JSON_MAX_DEVICES, JSON_MAX_DATA_POINTS < (values.devices ⟨i0, h⟩).data_count) :
    ∀ (k i : Nat) (c : Cursor), i ≤ i0 → i0 < i + k →
      (device_loop env size values k i c).sat (fun _ => False)
        (fun code _ => code = -2 ∨ code = -3) True := by
  have happ := fun t c => @APPEND_FMT_returns env size t c
  have happ' : ∀ t c, True → (APPEND_FMT env size t c).sat (fun _ => True)
      (fun code _ => code = -2 ∨ code = -3) True := fun t c _ => happ t c
  intro k
  induction k with
  | zero => intro i c h1 h2; omega
  | succ k ih =>
    intro i c h1 h2
    rw [device_loop]
    simp only [Flow.bind_eq, Flow.pure_eq]
    refine Flow.sat_bind _ _ (happ _ _) (fun c _ => ?_)
    by_cases hi : i < JSON_MAX_DEVICES
    · simp only [slot, hi, dite_true, Flow.bind_next]
      refine Flow.sat_bind _ _ (happ _ _) (fun c _ => ?_)
      refine Flow.sat_bind _ _ (happ _ _) (fun c _ => ?_)
      refine Flow.sat_bind _ _ (happ _ _) (fun c _ => ?_)
      refine Flow.sat_bind _ _ (happ _ _) (fun c _ => ?_)
      refine Flow.sat_bind _ _ (happ _ _) (fun c _ => ?_)
      by_cases heq : i = i0
      · subst heq
        rcases hbad with hge | ⟨h, hdc⟩
        · omega
        · exact Flow.sat_bind (P := fun _ => False) _ _
            (data_loop_doomed size _ _ 0 c (by omega) (by omega)) (fun _ hf => hf.elim)
      · refine Flow.sat_bind _ _
          (data_loop_sat size _ (fun _ => True) _ True happ' _ _ c trivial) (fun c _ => ?_)
        refine Flow.sat_bind _ _ (happ _ _) (fun c _ => ?_)
        split
        · exact Flow.sat_bind _ _ (happ _ _) (fun c _ => ih _ c (by omega) (by omega))
        · exact ih _ c (by omega) (by omega)
    · simp only [slot, hi, dite_false, Flow.bind_bad_read]
      trivial

theorem serialize_body_doomed {env : Env} (g : JsonGateway) (buf : List Char) (size : Nat)
    (hcap : ¬ within_capacity g) :
    (serialize_body env g buf size).sat (fun _ => False)
      (fun code _ => code = -2 ∨ code = -3) True := by
  have happ := fun t c => @APPEND_FMT_returns env size t c
  have hex : ∃ i0, i0 < g.values.device_count ∧ (JSON_MAX_DEVICES ≤ i0 ∨
      ∃ h : i0 < JSON_MAX_DEVICES,
        JSON_MAX_DATA_POINTS < (g.values.devices ⟨i0, h⟩).data_count) := by
    by_cases h8 : g.values.device_count ≤ JSON_MAX_DEVICES
    · have : ¬ ∀ i : Fin JSON_MAX_DEVICES, i.val < g.values.device_count →
          (g.values.devices i).data_count ≤ JSON_MAX_DATA_POINTS := fun hall => hcap ⟨h8, hall⟩
      push_neg at this
      obtain ⟨i, hi, hd⟩ := this
      exact ⟨i.val, hi, Or.inr ⟨i.isLt, hd⟩⟩
    · exact ⟨JSON_MAX_DEVICES, by omega, Or.inl (le_refl _)⟩
  obtain ⟨i0, hi0, hbad⟩ := hex
  unfold serialize_body
  simp only [Flow.bind_eq]
  refine Flow.sat_bind _ _ (happ _ _) (fun c _ => ?_)
  refine Flow.sat_bind _ _ (happ _ _) (fun c _ => ?_)
  refine Flow.sat_bind _ _ (happ _ _) (fun c _ => ?_)
  refine Flow.sat_bind _ _ (happ _ _) (fun c _ => ?_)
  refine Flow.sat_bind _ _ (happ _ _) (fun c _ => ?_)
  refine Flow.sat_bind _ _ (happ _ _) (fun c _ => ?_)
  refine Flow.sat_bind _ _ (happ _ _) (fun c _ => ?_)
  refine Flow.sat_bind _ _ (happ _ _) (fun c _ => ?_)
  refine Flow.sat_bind _ _ (happ _ _) (fun c _ => ?_)
  exact Flow.sat_bind (P := fun _ => False) _ _
    (device_loop_doomed size g.values i0 hbad _ 0 c (by omega) (by omega))
    (fun _ hf => hf.elim)

/-- A call that returns 0 was given a record whose counts are within the capacities. -/
theorem returns_zero_within_capacity {env : Env} (g : JsonGateway) (buf : List Char) (size : Nat)
    (out : Option (List Char))
    (h : json_serialize_gateway env (some g) (some buf) size = .returned 0 out) :
    within_capacity g := by
  by_contra hcap
  have hd := @serialize_body_doomed env g buf size hcap
  by_cases h0 : size = 0
  · simp [json_serialize_gateway, h0] at h
  · simp only [json_serialize_gateway, h0, if_false] at h
    cases hb : serialize_body env g buf size with
    | next c => rw [hb] at hd; exact hd
    | ret code c =>
      rw [hb] at hd h
      injection h with h1 _
      have : code = -2 ∨ code = -3 := hd
      omega
    | bad_read => rw [hb] at h; exact Outcome.noConfusion h
    | bad_write => rw [hb] at h; exact Outcome.noConfusion h

/-! ## The terminator -/

theorem c_string_terminated (text rest : List Char) (h : nul_free text) :
    c_string (text ++ '\x00' :: rest) = text := by
  unfold c_string
  induction text with
  | nil => simp
  | cons a l ih =>
    have ha : a ≠ '\x00' := fun e => h (by rw [e]; exact List.mem_cons_self _ _)
    have hl : nul_free l := fun hm => h (List.mem_cons_of_mem a hm)
    simp [List.takeWhile_cons, ha]
    exact ih hl

theorem nul_free_intercalate (xs : List (List Char)) (h : ∀ x ∈ xs, nul_free x) :
    nul_free (List.intercalate [','] xs) := by
  induction xs with
  | nil => simp [nul_free, List.intercalate]
  | cons x r ih =>
    have hx := h x (List.mem_cons_self x r)
    cases r with
    | nil => rw [intercalate_single]; exact hx
    | cons y r =>
      rw [intercalate_cons_cons]
      have hr := ih (fun z hz => h z (List.mem_cons_of_mem x hz))
      unfold nul_free at hx hr ⊢
      simp [List.mem_append, hx, hr]

theorem nul_free_isDigit (s : List Char) (h : ∀ c ∈ s, c.isDigit = true) : nul_free s := by
  intro hm
  exact absurd (h _ hm) (by decide)

theorem nul_free_fmt_lu (n : Nat) : nul_free (fmt_lu n) :=
  nul_free_isDigit _ (toDigits_isDigit n)

theorem isDigit_ne_nul (c : Char) (h : c.isDigit = true) : c ≠ '\x00' := by
  intro e
  rw [e] at h
  exact absurd h (by decide)

theorem nul_free_fmt_f3 {env : Env} (x : CFloat) : nul_free (fmt_f3 env x) := by
  cases x with
  | finite neg m e =>
    have hd := nul_free_isDigit _ (toDigits_isDigit (milli m e / 1000))
    have d1 := isDigit_ne_nul _ (digitChar_isDigit (milli m e / 100 % 10)
      (Nat.mod_lt _ (by omega)))
    have d2 := isDigit_ne_nul _ (digitChar_isDigit (milli m e / 10 % 10)
      (Nat.mod_lt _ (by omega)))
    have d3 := isDigit_ne_nul _ (digitChar_isDigit (milli m e % 10)
      (Nat.mod_lt _ (by omega)))
    unfold nul_free at hd ⊢
    have d0 := env.decimal_point_ne_nul
    cases neg <;>
      simp [fmt_f3, List.mem_append, hd, Ne.symm d0, Ne.symm d1, Ne.symm d2, Ne.symm d3]
  | inf neg => cases neg <;> simp [fmt_f3, nul_free]
  | nan neg => cases neg <;> simp [fmt_f3, nul_free]

theorem nul_free_point_text {env : Env} (p : JsonMeterDataPoint) (h1 : nul_free p.timestamp)
    (h2 : nul_free p.meter_datetime) (h3 : nul_free p.status) : nul_free (point_text env p) := by
  have hf := @nul_free_fmt_f3 env p.total_m3
  unfold nul_free at *
  simp [point_text, List.mem_append, h1, h2, h3, hf]

theorem nul_free_device_text {env : Env} (d : JsonDeviceReading) (h1 : nul_free d.media)
    (h2 : nul_free d.meter) (h3 : nul_free d.device_id) (h4 : nul_free d.unit)
    (h5 : ∀ j : Fin JSON_MAX_DATA_POINTS, j.val < d.data_count →
      nul_free (d.data j).timestamp ∧ nul_free (d.data j).meter_datetime ∧
      nul_free (d.data j).status) : nul_free (device_text env d) := by
  have hp : nul_free (List.intercalate [','] (d.points.map (point_text env))) := by
    refine nul_free_intercalate _ (fun x hx => ?_)
    obtain ⟨p, hp, rfl⟩ := List.mem_map.mp hx
    obtain ⟨j, hj, rfl⟩ := mem_take_ofFn d.data d.data_count p hp
    exact nul_free_point_text _ (h5 j hj).1 (h5 j hj).2.1 (h5 j hj).2.2
  unfold nul_free at *
  simp [device_text, device_head, List.mem_append, h1, h2, h3, h4, hp]

theorem nul_free_gateway_text {env : Env} (g : JsonGateway) (h : g.c_strings) :
    nul_free (gateway_text env g) := by
  obtain ⟨h1, h2, h3, h4⟩ := h
  have hd : nul_free (List.intercalate [','] (g.readings.map (device_text env))) := by
    refine nul_free_intercalate _ (fun x hx => ?_)
    obtain ⟨d, hd, rfl⟩ := List.mem_map.mp hx
    obtain ⟨i, hi, rfl⟩ := mem_take_ofFn g.values.devices g.values.device_count d hd
    obtain ⟨a1, a2, a3, a4, a5⟩ := h4 i hi
    exact nul_free_device_text _ a1 a2 a3 a4 a5
  have n1 := nul_free_fmt_lu g.interval_minutes
  have n2 := nul_free_fmt_lu g.total_readings
  have n3 := nul_free_fmt_lu g.values.device_count
  unfold nul_free at *
  simp [gateway_text, gateway_head, List.mem_append, h1, h2, h3, hd, n1, n2, n3]

/-- C12: for every record, every buffer of `size` bytes and every call of
`json_serialize_gateway` that returns 0: the counts were within the capacities, the length
`L` of the JSON text written satisfies `L < size`, the first `L` bytes of the buffer are
the text, the byte at index `L` is the terminating zero, and the buffer still has `size`
bytes; so, the text fields being C strings (no zero byte inside), the buffer read as a C
string is exactly the complete JSON text. -/
theorem output_terminated (env : Env) (g : JsonGateway) (buf : List Char) (size : Nat)
    (out : Option (List Char)) (hlen : buf.length = size)
    (h : json_serialize_gateway env (some g) (some buf) size = .returned 0 out) :
    within_capacity g ∧
    ∃ o, out = some o ∧ (gateway_text env g).length < size ∧
      o.take (gateway_text env g).length = gateway_text env g ∧
      o[(gateway_text env g).length]? = some '\x00' ∧ o.length = size ∧
      (g.c_strings → c_string o = gateway_text env g) := by
  have hcap := @returns_zero_within_capacity env g buf size out h
  obtain ⟨hfit, hout⟩ := @serialize_zero env g buf size out hcap hlen h
  refine ⟨hcap, _, hout, hfit, ?_, ?_, ?_, ?_⟩
  · rw [List.take_append_of_le_length (le_refl _), List.take_length]
  · rw [List.getElem?_append_right (le_refl _)]
    simp
  · simp only [List.length_append, List.length_cons, List.length_drop]
    omega
  · intro hc
    exact c_string_terminated _ _ (nul_free_gateway_text g hc)

set_option maxRecDepth 100000 in
/-- Witness for C12: the example record in a 400-byte buffer. -/
theorem output_terminated_witness :
    (List.replicate 400 'x').length = 400 ∧
    json_serialize_gateway c_env (some example_gateway) (some (List.replicate 400 'x')) 400
      = .returned 0 (some (example_text ++ '\x00' :: List.replicate 86 'x')) ∧
    within_capacity example_gateway :=
  ⟨List.length_replicate _ _, example_run,
    (output_terminated c_env example_gateway (List.replicate 400 'x') 400
      (some (example_text ++ '\x00' :: List.replicate 86 'x')) (List.length_replicate _ _)
      example_run).1⟩

/-! ## Index safety -/

theorem emit_ne_bad_read {env : Env} (size : Nat) (ts : List (List Char)) (c : Cursor) :
    emit env size ts c ≠ .bad_read := by
  induction ts generalizing c with
  | nil => intro h; cases h
  | cons t ts ih =>
    rw [emit_cons]
    cases hb : APPEND_FMT env size t c with
    | next c' => exact ih c'
    | ret code c' => intro h; cases h
    | bad_read =>
      exfalso
      unfold APPEND_FMT at hb
      split at hb
      · cases hb
      · split at hb
        · cases hb
        · split at hb <;> cases hb
    | bad_write => intro h; cases h

theorem serialize_ne_bad_read {env : Env} (g : JsonGateway) (hcap : within_capacity g)
    (output : Option (List Char)) (size : Nat) :
    json_serialize_gateway env (some g) output size ≠ .bad_read := by
  cases output with
  | none => intro h; cases h
  | some buf =>
    by_cases h0 : size = 0
    · simp [json_serialize_gateway, h0]
    · simp only [json_serialize_gateway, h0, if_false, serialize_body_eq g buf size hcap]
      have hne := @emit_ne_bad_read env size (gateway_frags env g) ⟨buf, 0⟩
      cases hb : emit env size (gateway_frags env g) ⟨buf, 0⟩ with
      | next c => simp
      | ret code c => simp
      | bad_read => exact absurd hb hne
      | bad_write => simp

theorem over_gateway_bad_read :
    json_serialize_gateway c_env (some over_gateway) (some (List.replicate 700 'x')) 700
      = .bad_read := by
  decide!

/-- C19: for a record whose counts are within the capacities (`device_count ≤ 8` and
`data_count ≤ 16` for every device below `device_count`), every index the loops use is
below the capacity of its array (`slot` succeeds for every `i < device_count` and every
`j < data_count`), and no call of `json_serialize_gateway` reads past the end of an array,
whatever the buffer and its size.  The serializer does not check the counts itself: a
record with `device_count = 9` in a buffer large enough to reach slot 8 is a read past the
end of `devices`. -/
theorem index_safety (env : Env) (g : JsonGateway) (hcap : within_capacity g)
    (output : Option (List Char)) (size : Nat) :
    json_serialize_gateway env (some g) output size ≠ .bad_read ∧
    (∀ i : Nat, i < g.values.device_count →
      i < JSON_MAX_DEVICES ∧ ∃ d, slot g.values.devices i = .next d) ∧
    (∀ i : Fin JSON_MAX_DEVICES, i.val < g.values.device_count →
      ∀ j : Nat, j < (g.values.devices i).data_count →
        j < JSON_MAX_DATA_POINTS ∧ ∃ p, slot (g.values.devices i).data j = .next p) ∧
    ¬ within_capacity over_gateway ∧
    json_serialize_gateway c_env (some over_gateway) (some (List.replicate 700 'x')) 700
      = .bad_read := by
  refine ⟨serialize_ne_bad_read g hcap output size, ?_, ?_, by decide, over_gateway_bad_read⟩
  · intro i hi
    have h8 : i < JSON_MAX_DEVICES := Nat.lt_of_lt_of_le hi hcap.1
    exact ⟨h8, g.values.devices ⟨i, h8⟩, by simp [slot, h8]⟩
  · intro i hi j hj
    have h16 : j < JSON_MAX_DATA_POINTS := Nat.lt_of_lt_of_le hj (hcap.2 i hi)
    exact ⟨h16, (g.values.devices i).data ⟨j, h16⟩, by simp [slot, h16]⟩

set_option maxRecDepth 100000 in
/-- Witness for C19: the example record in a 400-byte buffer. -/
theorem index_safety_witness :
    within_capacity example_gateway ∧
    json_serialize_gateway c_env (some example_gateway) (some (List.replicate 400 'x')) 400
      ≠ .bad_read :=
  ⟨by decide, (index_safety c_env example_gateway (by decide) _ _).1⟩

/-! ## Determinism -/

theorem Flow.same_bind {α β : Type} {P : α → α → Prop} {P' : β → β → Prop}
    (x1 x2 : Flow α) (f1 f2 : α → Flow β) (hx : x1.same P x2)
    (hf : ∀ a b, P a b → (f1 a).same P' (f2 b)) : (x1.bind f1).same P' (x2.bind f2) := by
  cases x1 <;> cases x2 <;> first | exact hx.elim | exact hf _ _ hx | exact hx

theorem APPEND_FMT_alike {env : Env} (size : Nat) (t : List Char) (c1 c2 : Cursor)
    (h : Cursor.alike size c1 c2) :
    (APPEND_FMT env size t c1).same (Cursor.alike size) (APPEND_FMT env size t c2) := by
  obtain ⟨hpos, ⟨hl1, hp1⟩, ⟨hl2, hp2⟩⟩ := h
  by_cases hint : t.length ≤ env.int_max
  · by_cases hfit : c1.pos + t.length < size
    · rw [APPEND_FMT_fits size t c1 hint hl1 hfit,
        APPEND_FMT_fits size t c2 hint hl2 (by omega)]
      exact ⟨by simp only [hpos],
        ⟨(store_length c1.output c1.pos t (by omega)).trans hl1, hfit⟩,
        ⟨(store_length c2.output c2.pos t (by omega)).trans hl2, by simp only; omega⟩⟩
    · rw [APPEND_FMT_full size t c1 hint hl1 hp1 (by omega),
        APPEND_FMT_full size t c2 hint hl2 hp2 (by omega)]
      exact rfl
  · rw [APPEND_FMT_fail size t c1 (by omega) hl1 hp1,
      APPEND_FMT_fail size t c2 (by omega) hl2 hp2]
    exact rfl

theorem slot_same {α : Type} {n : Nat} (a : Fin n → α) (i : Nat) :
    (slot a i).same Eq (slot a i) := by
  unfold slot
  split
  · exact rfl
  · trivial

theorem data_loop_same {env : Env} (size : Nat) (dev : JsonDeviceReading) :
    ∀ (k j : Nat) (c1 c2 : Cursor), Cursor.alike size c1 c2 →
      (data_loop env size dev k j c1).same (Cursor.alike size) (data_loop env size dev k j c2) := by
  have happ := fun t c1 c2 h => @APPEND_FMT_alike env size t c1 c2 h
  intro k
  induction k with
  | zero => intro j c1 c2 h; exact h
  | succ k ih =>
    intro j c1 c2 h
    rw [data_loop, data_loop]
    simp only [Flow.bind_eq, Flow.pure_eq]
    refine Flow.same_bind _ _ _ _ (happ _ _ _ h) (fun c1 c2 h => ?_)
    refine Flow.same_bind _ _ _ _ (slot_same _ _) (fun dp dp' hdp => ?_)
    subst hdp
    refine Flow.same_bind _ _ _ _ (happ _ _ _ h) (fun c1 c2 h => ?_)
    refine Flow.same_bind _ _ _ _ (happ _ _ _ h) (fun c1 c2 h => ?_)
    refine Flow.same_bind _ _ _ _ (happ _ _ _ h) (fun c1 c2 h => ?_)
    refine Flow.same_bind _ _ _ _ (happ _ _ _ h) (fun c1 c2 h => ?_)
    refine Flow.same_bind _ _ _ _ (happ _ _ _ h) (fun c1 c2 h => ?_)
    split
    · exact Flow.same_bind _ _ _ _ (happ _ _ _ h) (fun c1 c2 h => ih _ c1 c2 h)
    · exact ih _ c1 c2 h

theorem device_loop_same {env : Env} (size : Nat) (values : JsonValues) :
    ∀ (k i : Nat) (c1 c2 : Cursor), Cursor.alike size c1 c2 →
      (device_loop env size values k i c1).same (Cursor.alike size)
        (device_loop env size values k i c2) := by
  have happ := fun t c1 c2 h => @APPEND_FMT_alike env size t c1 c2 h
  intro k
  induction k with
  | zero => intro i c1 c2 h; exact h
  | succ k ih =>
    intro i c1 c2 h
    rw [device_loop, device_loop]
    simp only [Flow.bind_eq, Flow.pure_eq]
    refine Flow.same_bind _ _ _ _ (happ _ _ _ h) (fun c1 c2 h => ?_)
    refine Flow.same_bind _ _ _ _ (slot_same _ _) (fun dev dev' hdev => ?_)
    subst hdev
    refine Flow.same_bind _ _ _ _ (happ _ _ _ h) (fun c1 c2 h => ?_)
    refine Flow.same_bind _ _ _ _ (happ _ _ _ h) (fun c1 c2 h => ?_)
    refine Flow.same_bind _ _ _ _ (happ _ _ _ h) (fun c1 c2 h => ?_)
    refine Flow.same_bind _ _ _ _ (happ _ _ _ h) (fun c1 c2 h => ?_)
    refine Flow.same_bind _ _ _ _ (happ _ _ _ h) (fun c1 c2 h => ?_)
    refine Flow.same_bind _ _ _ _ (data_loop_same size dev _ _ c1 c2 h) (fun c1 c2 h => ?_)
    refine Flow.same_bind _ _ _ _ (happ _ _ _ h) (fun c1 c2 h => ?_)
    split
    · exact Flow.same_bind _ _ _ _ (happ _ _ _ h) (fun c1 c2 h => ih _ c1 c2 h)
    · exact ih _ c1 c2 h

theorem serialize_body_same {env : Env} (g : JsonGateway) (buf1 buf2 : List Char) (size : Nat)
    (h0 : size ≠ 0) (h1 : buf1.length = size) (h2 : buf2.length = size) :
    (serialize_body env g buf1 size).same (fun _ _ => True) (serialize_body env g buf2 size) := by
  have happ := fun t c1 c2 h => @APPEND_FMT_alike env size t c1 c2 h
  have hstart : Cursor.alike size ⟨buf1, 0⟩ ⟨buf2, 0⟩ :=
    ⟨rfl, ⟨h1, Nat.pos_of_ne_zero h0⟩, ⟨h2, Nat.pos_of_ne_zero h0⟩⟩
  unfold serialize_body
  simp only [Flow.bind_eq]
  refine Flow.same_bind _ _ _ _ (happ _ _ _ hstart) (fun c1 c2 h => ?_)
  refine Flow.same_bind _ _ _ _ (happ _ _ _ h) (fun c1 c2 h => ?_)
  refine Flow.same_bind _ _ _ _ (happ _ _ _ h) (fun c1 c2 h => ?_)
  refine Flow.same_bind _ _ _ _ (happ _ _ _ h) (fun c1 c2 h => ?_)
  refine Flow.same_bind _ _ _ _ (happ _ _ _ h) (fun c1 c2 h => ?_)
  refine Flow.same_bind _ _ _ _ (happ _ _ _ h) (fun c1 c2 h => ?_)
  refine Flow.same_bind _ _ _ _ (happ _ _ _ h) (fun c1 c2 h => ?_)
  refine Flow.same_bind _ _ _ _ (happ _ _ _ h) (fun c1 c2 h => ?_)
  refine Flow.same_bind _ _ _ _ (happ _ _ _ h) (fun c1 c2 h => ?_)
  refine Flow.same_bind _ _ _ _ (device_loop_same size g.values _ _ c1 c2 h)
    (fun c1 c2 h => ?_)
  refine Flow.same_bind _ _ _ _ (happ _ _ _ h) (fun c1 c2 h => ?_)
  refine Flow.same_bind _ _ _ _ (happ _ _ _ h) (fun c1 c2 h => ?_)
  exact rfl

/-- C16: for every record (or none) and every two buffers of the same `size`, whatever
they held before, the two calls of `json_serialize_gateway` end the same way (same return
code, or the same undefined behaviour); and when one returns 0 the other returns 0 too and
both buffers begin with the same bytes: the JSON text and its terminator. -/
theorem serialize_deterministic (env : Env) (gateway : Option JsonGateway)
    (buf1 buf2 : List Char) (size : Nat) (h1 : buf1.length = size) (h2 : buf2.length = size) :
    (json_serialize_gateway env gateway (some buf1) size).same_code
      (json_serialize_gateway env gateway (some buf2) size) ∧
    (∀ out1, json_serialize_gateway env gateway (some buf1) size = .returned 0 (some out1) →
      ∃ g text out2, gateway = some g ∧ text = gateway_text env g ∧
        json_serialize_gateway env gateway (some buf2) size = .returned 0 (some out2) ∧
        out1.take (text.length + 1) = text ++ ['\x00'] ∧
        out2.take (text.length + 1) = text ++ ['\x00']) := by
  cases gateway with
  | none =>
    refine ⟨rfl, fun out1 h => ?_⟩
    simp [json_serialize_gateway] at h
  | some g =>
    constructor
    · by_cases h0 : size = 0
      · simp only [json_serialize_gateway, h0, if_true]
        exact rfl
      · have hs := @serialize_body_same env g buf1 buf2 size h0 h1 h2
        simp only [json_serialize_gateway, h0, if_false]
        cases hb1 : serialize_body env g buf1 size <;>
          cases hb2 : serialize_body env g buf2 size <;>
          rw [hb1, hb2] at hs <;> first | exact hs.elim | exact hs | exact rfl
    · intro out1 h
      have hcap := @returns_zero_within_capacity env g buf1 size _ h
      obtain ⟨hfit, hout⟩ := @serialize_zero env g buf1 size _ hcap h1 h
      have hfmt := (serialize_zero_inv g buf1 size _ hcap h1 h).1
      have htake : ∀ rest : List Char,
          (gateway_text env g ++ '\x00' :: rest).take ((gateway_text env g).length + 1)
            = gateway_text env g ++ ['\x00'] := by
        intro rest
        rw [List.take_append_eq_append_take, List.take_of_length_le (by omega)]
        simp
      refine ⟨g, gateway_text env g, _, rfl, rfl,
        serialize_fits g buf2 size hcap hfmt h2 hfit, ?_, htake _⟩
      injection hout with hout
      rw [hout]
      exact htake _

set_option maxRecDepth 100000 in
/-- Witness for C16: the example record in two 400-byte buffers with different contents. -/
theorem serialize_deterministic_witness :
    (List.replicate 400 'x').length = 400 ∧ (List.replicate 400 'y').length = 400 ∧
    (json_serialize_gateway c_env (some example_gateway) (some (List.replicate 400 'x'))
        400).same_code
      (json_serialize_gateway c_env (some example_gateway) (some (List.replicate 400 'y'))
        400) :=
  ⟨by decide, by decide,
    (serialize_deterministic c_env (some example_gateway) (List.replicate 400 'x')
      (List.replicate 400 'y') 400 (by decide) (by decide)).1⟩

/-! ## Sufficiency of the estimator for short texts -/

theorem sum_map_le {α : Type} (l : List α) (f : α → Nat) (B : Nat)
    (h : ∀ x ∈ l, f x ≤ B) : (l.map f).sum ≤ l.length * B := by
  induction l with
  | nil => simp
  | cons a r ih =>
    have ha := h a (List.mem_cons_self a r)
    have hr := ih (fun x hx => h x (List.mem_cons_of_mem a hx))
    simp only [List.map_cons, List.sum_cons, List.length_cons, Nat.add_mul, Nat.one_mul]
    omega

theorem fmt_lu_length_uint32 (n : Nat) (h : n < 2 ^ 32) : (fmt_lu n).length ≤ 10 :=
  Nat.toDigitsCore_length 10 (by decide) (n + 1) n 10
    (Nat.lt_of_lt_of_le h (by decide)) (by decide)

theorem fmt_lu_length_small (n : Nat) (h : n < 10) : (fmt_lu n).length = 1 := by
  rw [fmt_lu, toDigits_small n h]
  rfl

theorem point_text_length {env : Env} (p : JsonMeterDataPoint) :
    (point_text env p).length = 60 + p.timestamp.length + p.meter_datetime.length
      + (fmt_f3 env p.total_m3).length + p.status.length := by
  simp [point_text]
  omega

theorem device_text_length {env : Env} (d : JsonDeviceReading) :
    (device_text env d).length = 57 + d.media.length + d.meter.length + d.device_id.length
      + d.unit.length + (List.intercalate [','] (d.points.map (point_text env))).length := by
  simp [device_text, device_head]
  omega

theorem gateway_text_length {env : Env} (g : JsonGateway) :
    (gateway_text env g).length = 123 + g.gateway_id.length + g.date.length
      + g.device_type.length + (fmt_lu g.interval_minutes).length
      + (fmt_lu g.total_readings).length + (fmt_lu g.values.device_count).length
      + (List.intercalate [','] (g.readings.map (device_text env))).length := by
  simp [gateway_text, gateway_head]
  omega

theorem gateway_text_length_short {env : Env} (g : JsonGateway) (hcap : within_capacity g)
    (hshort : g.short_texts env) :
    (gateway_text env g).length ≤ 123 + 21 + 100 + 8 * (58 + 64 + 16 * (61 + 64)) := by
  obtain ⟨hu1, hu2, hg, hdev⟩ := hshort
  have hdevs : ∀ x ∈ g.readings.map (device_text env), x.length ≤ 2121 := by
    intro x hx
    obtain ⟨d, hd, rfl⟩ := List.mem_map.mp hx
    obtain ⟨i, hi, rfl⟩ := mem_take_ofFn g.values.devices g.values.device_count d hd
    obtain ⟨hfields, hpts⟩ := hdev i hi
    have hpoints : ∀ y ∈ (g.values.devices i).points.map (point_text env),
        y.length ≤ 124 := by
      intro y hy
      obtain ⟨p, hp, rfl⟩ := List.mem_map.mp hy
      obtain ⟨j, hj, rfl⟩ := mem_take_ofFn _ _ p hp
      have := hpts j hj
      rw [point_text_length]
      omega
    have hsum := sum_map_le _ List.length 124 hpoints
    have hn : ((g.values.devices i).points.map (point_text env)).length ≤ 16 := by
      rw [List.length_map, points_length _ (hcap.2 i hi)]
      exact hcap.2 i hi
    rw [device_text_length, intercalate_length]
    simp only [List.map_id'] at hsum
    have : (List.map List.length ((g.values.devices i).points.map (point_text env))).sum
        ≤ ((g.values.devices i).points.map (point_text env)).length * 124 := by
      simpa using hsum
    omega
  have hsum := sum_map_le _ List.length 2121 hdevs
  have hn : (g.readings.map (device_text env)).length ≤ 8 := by
    rw [List.length_map, readings_length g hcap.1]
    exact hcap.1
  have hd1 := fmt_lu_length_uint32 _ hu1
  have hd2 := fmt_lu_length_uint32 _ hu2
  have hd3 := fmt_lu_length_small g.values.device_count
    (Nat.lt_of_le_of_lt hcap.1 (by decide))
  rw [gateway_text_length, intercalate_length]
  omega

/-- C18: for a record whose counts are within the capacities and whose texts are short
(`short_texts`: at most 100 characters of gateway texts, at most 64 of texts per device,
at most 64 of texts and rendered `total_m3` per data point, `uint32_t` members in range),
the JSON text has at most 123 + 21 + 100 + 8 × (58 + 64 + 16 × (61 + 64)) = 17220
characters, fewer than `json_get_max_output_size() = 17664`, and `json_serialize_gateway`
with a buffer of that size returns 0. -/
theorem estimator_sufficient_for_short_texts (env : Env) (g : JsonGateway) (buf : List Char)
    (hcap : within_capacity g) (hshort : g.short_texts env)
    (hlen : buf.length = json_get_max_output_size) :
    json_get_max_output_size = 17664 ∧
    (gateway_text env g).length ≤ 123 + 21 + 100 + 8 * (58 + 64 + 16 * (61 + 64)) ∧
    (gateway_text env g).length < 17664 ∧
    json_serialize_gateway env (some g) (some buf) json_get_max_output_size
      = .returned 0
          (some (gateway_text env g
            ++ '\x00' :: buf.drop ((gateway_text env g).length + 1))) := by
  have hl := @gateway_text_length_short env g hcap hshort
  have hsize : json_get_max_output_size = 17664 := by decide
  refine ⟨hsize, hl, by omega, ?_⟩
  exact serialize_fits g buf _ hcap (formats_of_short g (by omega)) hlen (by rw [hsize]; omega)

set_option maxRecDepth 100000 in
/-- Witness for C18: the example record in a buffer of `json_get_max_output_size()`
bytes. -/
theorem estimator_sufficient_for_short_texts_witness :
    within_capacity example_gateway ∧ example_gateway.short_texts c_env ∧
    (List.replicate 17664 'x').length = json_get_max_output_size ∧
    (gateway_text c_env example_gateway).length < 17664 :=
  ⟨by decide, by decide, List.length_replicate _ _,
    (estimator_sufficient_for_short_texts c_env example_gateway (List.replicate 17664 'x')
      (by decide) (by decide) (List.length_replicate _ _)).2.2.1⟩

/-! ## The rendering of `total_m3` -/

theorem round_half_even_nearest (num den : Nat) (hden : 0 < den) :
    2 * (round_half_even num den * den) ≤ 2 * num + den ∧
    2 * num ≤ 2 * (round_half_even num den * den) + den := by
  have hdm := Nat.div_add_mod num den
  have hr := Nat.mod_lt num hden
  have hmul : den * (num / den) = num / den * den := Nat.mul_comm _ _
  unfold round_half_even
  simp only
  split
  · rename_i hup
    rw [Nat.add_mul, Nat.one_mul]
    rcases hup with h | ⟨h, _⟩ <;> omega
  · rename_i hdown
    have : 2 * (num % den) ≤ den := by
      by_contra hc
      exact hdown (Or.inl (by omega))
    omega

theorem decimal_value_three (a b c : Nat) (ha : a < 10) (hb : b < 10) (hc : c < 10) :
    decimal_value [Nat.digitChar a, Nat.digitChar b, Nat.digitChar c]
      = 100 * a + 10 * b + c := by
  have h1 := digitChar_toNat a ha
  have h2 := digitChar_toNat b hb
  have h3 := digitChar_toNat c hc
  simp only [decimal_value, List.foldl_cons, List.foldl_nil, h1, h2, h3]
  omega

set_option maxRecDepth 100000 in
theorem reading_one_text :
    gateway_text c_env (reading_gateway float_one) = reading_text "1.000" := by
  decide

set_option maxRecDepth 100000 in
theorem reading_two_and_a_half_text :
    gateway_text c_env (reading_gateway float_two_and_a_half) = reading_text "2.500" := by
  decide

set_option maxRecDepth 100000 in
theorem reading_ten_thousandth_text :
    gateway_text c_env (reading_gateway float_ten_thousandth) = reading_text "0.000" := by
  decide

set_option maxRecDepth 100000 in
theorem reading_text_length :
    (reading_text "1.000").length = 312 ∧ (reading_text "2.500").length = 312 ∧
    (reading_text "0.000").length = 312 := by
  decide

/-- The call for `reading_gateway x` with a 400-byte buffer, where the decimal-point
character is `.` and the text has 312 characters. -/
theorem reading_within_capacity (x : CFloat) : within_capacity (reading_gateway x) := by
  refine ⟨(by decide : (1 : Nat) ≤ JSON_MAX_DEVICES), fun i _ => ?_⟩
  exact (by decide : (1 : Nat) ≤ JSON_MAX_DATA_POINTS)

theorem reading_run {env : Env} (hdp : env.decimal_point = '.') (x : CFloat) (r : String)
    (ht : gateway_text c_env (reading_gateway x) = reading_text r)
    (hl : (reading_text r).length = 312) :
    json_serialize_gateway env (some (reading_gateway x)) (some (List.replicate 400 'x')) 400
      = .returned 0 (some (reading_text r ++ '\x00' :: List.replicate 87 'x')) := by
  have htext : gateway_text env (reading_gateway x) = reading_text r := by
    rw [gateway_text_congr (show env.decimal_point = c_env.decimal_point from hdp), ht]
  have h := serialize_fits (reading_gateway x) (List.replicate 400 'x') 400
    (reading_within_capacity x) (formats_of_short _ (by rw [htext, hl]; omega))
    (List.length_replicate _ _)
    (by rw [htext, hl]; omega)
  rw [htext, hl] at h
  rw [h]
  rfl

set_option maxRecDepth 100000 in
/-- C13 (counterexample): where the decimal-point character of the numeric locale is the
comma, `%.3f` renders 1.0 as `1,000`, not as `1.000`, also inside the output of
`json_serialize_gateway`. -/
theorem total_m3_decimal_comma :
    comma_env.decimal_point = ',' ∧ fmt_f3 comma_env float_one = "1,000".toList ∧
    fmt_f3 comma_env float_one ≠ "1.000".toList ∧
    json_serialize_gateway comma_env (some (reading_gateway float_one))
        (some (List.replicate 400 'x')) 400
      = .returned 0 (some (reading_text_comma ++ '\x00' :: List.replicate 87 'x')) ∧
    reading_text_comma ≠ reading_text "1.000" := by
  refine ⟨rfl, by decide, by decide, by decide, by decide⟩

/-- C13 (amended): where the decimal-point character of the numeric locale is `.` (as in
the "C" locale, in effect at program startup), the conversion `%.3f` the serializer applies
to `total_m3` renders every finite value `(-1)^neg * m * 2^e` in plain decimal notation: an
optional minus sign, the integer digits (canonical, no exponent), a point and exactly three
fraction digits, which together denote `q / 1000` where `q` is `m * 2^e * 1000` rounded to
the nearest integer (exact for `e ≥ 0`; within one half for `e < 0`).  In particular 1.0
renders as `1.000`, 2.5 as `2.500` and the `float` nearest to 0.0001 as `0.000`, also
inside the output of `json_serialize_gateway`. -/
theorem total_m3_rendering (env : Env) (hdp : env.decimal_point = '.') (neg : Bool) (m : Nat)
    (e : Int) :
    (∃ int frac : List Char,
      fmt_f3 env (.finite neg m e) = (if neg then ['-'] else []) ++ int ++ '.' :: frac ∧
      JsonInt int ∧ decimal_value int = milli m e / 1000 ∧
      frac.length = 3 ∧ (∀ c ∈ frac, c.isDigit = true) ∧
      decimal_value frac = milli m e % 1000) ∧
    (∀ k : Nat, e = Int.ofNat k → milli m e = m * 2 ^ k * 1000) ∧
    (∀ k : Nat, e = Int.negSucc k →
      2 * (milli m e * 2 ^ (k + 1)) ≤ 2 * (m * 1000) + 2 ^ (k + 1) ∧
      2 * (m * 1000) ≤ 2 * (milli m e * 2 ^ (k + 1)) + 2 ^ (k + 1)) ∧
    fmt_f3 env float_one = "1.000".toList ∧
    fmt_f3 env float_two_and_a_half = "2.500".toList ∧
    fmt_f3 env float_ten_thousandth = "0.000".toList ∧
    json_serialize_gateway env (some (reading_gateway float_one)) (some (List.replicate 400 'x'))
        400
      = .returned 0 (some (reading_text "1.000" ++ '\x00' :: List.replicate 87 'x')) ∧
    json_serialize_gateway env (some (reading_gateway float_two_and_a_half))
        (some (List.replicate 400 'x')) 400
      = .returned 0 (some (reading_text "2.500" ++ '\x00' :: List.replicate 87 'x')) ∧
    json_serialize_gateway env (some (reading_gateway float_ten_thousandth))
        (some (List.replicate 400 'x')) 400
      = .returned 0 (some (reading_text "0.000" ++ '\x00' :: List.replicate 87 'x')) := by
  have hc : ∀ x, fmt_f3 env x = fmt_f3 c_env x :=
    fmt_f3_congr (show env.decimal_point = c_env.decimal_point from hdp)
  refine ⟨⟨Nat.toDigits 10 (milli m e / 1000),
    [Nat.digitChar (milli m e / 100 % 10), Nat.digitChar (milli m e / 10 % 10),
      Nat.digitChar (milli m e % 10)], ?_, toDigits_int _, decimal_value_toDigits _, rfl,
    ?_, ?_⟩, ?_, ?_, by rw [hc]; decide, by rw [hc]; decide, by rw [hc]; decide,
    reading_run hdp _ _ reading_one_text reading_text_length.1,
    reading_run hdp _ _ reading_two_and_a_half_text reading_text_length.2.1,
    reading_run hdp _ _ reading_ten_thousandth_text reading_text_length.2.2⟩
  · simp [fmt_f3, hdp]
  · intro c hc
    simp only [List.mem_cons, List.mem_singleton, List.not_mem_nil, or_false] at hc
    rcases hc with rfl | rfl | rfl <;>
      exact digitChar_isDigit _ (Nat.mod_lt _ (by omega))
  · rw [decimal_value_three _ _ _ (Nat.mod_lt _ (by omega)) (Nat.mod_lt _ (by omega))
      (Nat.mod_lt _ (by omega))]
    omega
  · intro k hk
    rw [hk]
    rfl
  · intro k hk
    rw [hk]
    exact round_half_even_nearest (m * 1000) (2 ^ (k + 1)) (Nat.pos_pow_of_pos _ (by decide))

/-- Witness for C13 (amended): the "C" locale and the `float` 1.0. -/
theorem total_m3_rendering_witness :
    c_env.decimal_point = '.' ∧ fmt_f3 c_env float_one = "1.000".toList :=
  ⟨rfl, (total_m3_rendering c_env rfl false 8388608 (-23)).2.2.2.1⟩

/-! ## Error propagation -/

/-- Either no fragment of a run fails, or there is a first fragment that fails: the ones
before it have lengths an `int` can hold and fit, and it has not or does not. -/
theorem first_failure_exists (int_max size : Nat) (ts : List (List Char)) (pos : Nat)
    (hpos : pos < size) :
    ((∀ x ∈ ts, x.length ≤ int_max) ∧ pos + ts.flatten.length < size) ∨
    ∃ pre t post, ts = pre ++ t :: post ∧ (∀ p ∈ pre, p.length ≤ int_max) ∧
      pos + pre.flatten.length < size ∧
      (int_max < t.length ∨ size ≤ pos + pre.flatten.length + t.length) := by
  induction ts generalizing pos with
  | nil => exact Or.inl ⟨by simp, by simpa using hpos⟩
  | cons t ts ih =>
    by_cases hok : t.length ≤ int_max ∧ pos + t.length < size
    · rcases ih (pos + t.length) hok.2 with
        ⟨hall, hfit⟩ | ⟨pre, t', post, hts, hpre, hfit, hf⟩
      · left
        refine ⟨?_, by rw [List.flatten_cons, List.length_append]; omega⟩
        intro x hx
        rcases List.mem_cons.mp hx with rfl | hx
        · exact hok.1
        · exact hall x hx
      · right
        refine ⟨t :: pre, t', post, by rw [hts]; rfl, ?_, ?_, ?_⟩
        · intro x hx
          rcases List.mem_cons.mp hx with rfl | hx
          · exact hok.1
          · exact hpre x hx
        · rw [List.flatten_cons, List.length_append]; omega
        · rw [List.flatten_cons, List.length_append]; omega
    · right
      refine ⟨[], t, ts, rfl, by simp, by simpa using hpos, ?_⟩
      simp only [List.flatten_nil, List.length_nil, Nat.add_zero]
      by_cases h1 : t.length ≤ int_max
      · right
        by_contra h2
        exact hok ⟨h1, by omega⟩
      · left; omega

/-- The statements of the call when the fragment `t` is the first that fails: they return
at `t`, -3 when `snprintf` fails and -2 otherwise, with `pos` the total length of the
fragments before `t`. -/
theorem serialize_abort {env : Env} (g : JsonGateway) (buf : List Char) (size : Nat)
    (pre : List (List Char)) (t : List Char) (post : List (List Char))
    (hcap : within_capacity g) (hlen : buf.length = size)
    (hsplit : gateway_frags env g = pre ++ t :: post)
    (hpre : ∀ p ∈ pre, p.length ≤ env.int_max) (hfit : pre.flatten.length < size)
    (hfail : env.int_max < t.length ∨ size ≤ pre.flatten.length + t.length) :
    serialize_body env g buf size
      = .ret (if env.int_max < t.length then -3 else -2)
          ⟨aborted buf size pre t, pre.flatten.length⟩ := by
  obtain ⟨out, hrun, hol, htake, hdrop, -⟩ := emit_all_fit size pre ⟨buf, 0⟩ hpre hlen
    (by simpa using hfit)
  simp only [Nat.zero_add, List.take_zero, List.nil_append] at hrun htake hdrop
  rw [serialize_body_eq g buf size hcap, hsplit, emit_append, hrun, Flow.bind_next, emit_cons]
  have hd : ∀ k, out.drop (pre.flatten.length + k + 1)
      = buf.drop (pre.flatten.length + k + 1) := by
    intro k
    have e : pre.flatten.length + k + 1 = pre.flatten.length + 1 + k := by omega
    have h := congrArg (List.drop k) hdrop
    rw [List.drop_drop, List.drop_drop] at h
    rw [e]
    exact h
  by_cases hint : env.int_max < t.length
  · rw [APPEND_FMT_fail size t ⟨out, pre.flatten.length⟩ hint hol hfit]
    simp only [Flow.bind_ret, hint, if_true, aborted, htake, hd, List.append_assoc]
  · have hfull : size ≤ pre.flatten.length + t.length := hfail.resolve_left hint
    rw [APPEND_FMT_full size t ⟨out, pre.flatten.length⟩ (by omega) hol hfit hfull]
    have hk : (t.take (size - 1 - pre.flatten.length)).length
        = size - 1 - pre.flatten.length := by
      rw [List.length_take]; omega
    have hnil : buf.drop (pre.flatten.length + (size - 1 - pre.flatten.length) + 1) = [] :=
      List.drop_of_length_le (by omega)
    simp only [Flow.bind_ret, hint, if_false, aborted, htake, hk, hnil, List.append_assoc]

theorem serialize_abort_call {env : Env} (g : JsonGateway) (buf : List Char) (size : Nat)
    (pre : List (List Char)) (t : List Char) (post : List (List Char))
    (hcap : within_capacity g) (hlen : buf.length = size)
    (hsplit : gateway_frags env g = pre ++ t :: post)
    (hpre : ∀ p ∈ pre, p.length ≤ env.int_max) (hfit : pre.flatten.length < size)
    (hfail : env.int_max < t.length ∨ size ≤ pre.flatten.length + t.length) :
    json_serialize_gateway env (some g) (some buf) size
      = .returned (if env.int_max < t.length then -3 else -2)
          (some (aborted buf size pre t)) := by
  have h0 : size ≠ 0 := by omega
  simp only [json_serialize_gateway, h0, if_false,
    serialize_abort g buf size pre t post hcap hlen hsplit hpre hfit hfail]

theorem serialize_returned_code {env : Env} (gateway : Option JsonGateway)
    (output : Option (List Char)) (size : Nat) (code : Int) (out : Option (List Char))
    (h : json_serialize_gateway env gateway output size = .returned code out) :
    code = 0 ∨ code = -1 ∨ code = -2 ∨ code = -3 := by
  cases gateway with
  | none => simp [json_serialize_gateway] at h; omega
  | some g =>
    cases output with
    | none => simp [json_serialize_gateway] at h; omega
    | some buf =>
      by_cases h0 : size = 0
      · simp [json_serialize_gateway, h0] at h; omega
      · have hcode := @serialize_body_code env g buf size
        simp only [json_serialize_gateway, h0, if_false] at h
        cases hb : serialize_body env g buf size with
        | next c => rw [hb] at hcode; exact hcode.elim
        | ret code' c =>
          rw [hb] at hcode h
          injection h with h1 _
          rcases hcode with hc | hc | hc <;> omega
        | bad_read => rw [hb] at h; exact Outcome.noConfusion h
        | bad_write => rw [hb] at h; exact Outcome.noConfusion h

/-! ## A fragment too long for `snprintf` -/

theorem huge_gateway_within_capacity : within_capacity huge_gateway := by
  decide

/-- The call for `huge_gateway` in the "C" locale with a 32-bit `int`: `"[{"` is appended,
then `snprintf` fails on the `gatewayId` fragment, whose length is above `INT_MAX`, and the
call returns -3, whatever the size of the buffer from 3 bytes on. -/
theorem huge_gateway_format_error (buf : List Char) (size : Nat) (hlen : buf.length = size)
    (h3 : 3 ≤ size) :
    json_serialize_gateway c_env (some huge_gateway) (some buf) size
      = .returned (-3) (some (aborted buf size ["[\x7b".toList]
          ("\"gatewayId\":\"".toList ++ huge_gateway.gateway_id ++ "\",".toList))) := by
  have hlong : c_env.int_max
      < ("\"gatewayId\":\"".toList ++ huge_gateway.gateway_id ++ "\",".toList).length := by
    have : huge_gateway.gateway_id.length = 2147483648 := List.length_replicate _ _
    have hi : c_env.int_max = 2147483647 := rfl
    rw [List.length_append, List.length_append, this, hi]
    omega
  have h := serialize_abort_call huge_gateway buf size ["[\x7b".toList]
    ("\"gatewayId\":\"".toList ++ huge_gateway.gateway_id ++ "\",".toList)
    ((gateway_frags c_env huge_gateway).drop 2) huge_gateway_within_capacity hlen rfl
    (by
      intro p hp
      rw [List.mem_singleton] at hp
      rw [hp]
      exact (by decide : ("[\x7b".toList).length ≤ 32767).trans c_env.int_max_ge)
    (by
      have : (["[\x7b".toList] : List (List Char)).flatten.length = 2 := rfl
      omega)
    (Or.inl hlong)
  rw [h, if_pos hlong]

theorem huge_gateway_length :
    (gateway_text c_env huge_gateway).length = 2147483958 := by
  have h1 := @gateway_text_length c_env huge_gateway
  have h2 := @gateway_text_length c_env example_gateway
  have hid : huge_gateway.gateway_id.length = 2147483648 := List.length_replicate _ _
  have hid2 : example_gateway.gateway_id.length = 3 := rfl
  have e1 : huge_gateway.date = example_gateway.date := rfl
  have e2 : huge_gateway.device_type = example_gateway.device_type := rfl
  have e3 : huge_gateway.interval_minutes = example_gateway.interval_minutes := rfl
  have e4 : huge_gateway.total_readings = example_gateway.total_readings := rfl
  have e5 : huge_gateway.values = example_gateway.values := rfl
  have e6 : huge_gateway.readings = example_gateway.readings := rfl
  rw [e1, e2, e3, e4, e5, e6, hid] at h1
  rw [hid2, example_gateway_text_c, example_text_length] at h2
  omega

/-- C4 (counterexample): the record `huge_gateway` is within the capacities and its
complete JSON text has `L = 2147483958` characters; called with a buffer of `L` bytes, one
byte less than required, `json_serialize_gateway` returns -3 (`snprintf` fails on the
`gatewayId` fragment, longer than `INT_MAX`), not -2. -/
theorem one_byte_short_format_error :
    within_capacity huge_gateway ∧ (gateway_text c_env huge_gateway).length = 2147483958 ∧
    (List.replicate 2147483958 'x').length = 2147483958 ∧
    (∃ out, json_serialize_gateway c_env (some huge_gateway)
        (some (List.replicate 2147483958 'x')) 2147483958 = .returned (-3) out) ∧
    ¬ ∃ out, json_serialize_gateway c_env (some huge_gateway)
        (some (List.replicate 2147483958 'x')) 2147483958 = .returned (-2) out := by
  have h := huge_gateway_format_error (List.replicate 2147483958 'x') 2147483958
    (List.length_replicate _ _) (by omega)
  refine ⟨huge_gateway_within_capacity, huge_gateway_length, List.length_replicate _ _,
    ⟨_, h⟩, ?_⟩
  rintro ⟨out, hout⟩
  rw [h] at hout
  injection hout with hcode _
  omega

/-- C14: (1) every call of `json_serialize_gateway` that returns, returns one of 0, -1, -2,
-3.  For a record within the capacities and a buffer of `size ≥ 1` bytes: (2) the call
does return; (3) it returns 0 exactly when no append fails, that is when `snprintf` can
format every fragment (none is longer than `INT_MAX`) and the whole text fits;
(4) otherwise the fragments split as `pre ++ t :: post` where no append of `pre` fails and
the append of `t` does: `snprintf` fails on it, or its length reaches the remaining
capacity; (5) for every such split the call returns at `t`: -3 when `snprintf` fails on `t`
(checked first: also when `t` does not fit), -2 otherwise, with `pos` equal to the total
length of `pre`, and with a buffer that holds the text of `pre`, the stored part of `t` and
the terminator, nothing of `post`.  (6) The record `huge_gateway` in a 64-byte buffer: the
`gatewayId` fragment is longer than `INT_MAX` and does not fit, and the call returns -3. -/
theorem first_failure_aborts (env : Env) (g : JsonGateway) (buf : List Char) (size : Nat)
    (hcap : within_capacity g) (hlen : buf.length = size) (hpos : 1 ≤ size) :
    (∀ (gateway : Option JsonGateway) (output : Option (List Char)) (n : Nat) (code : Int)
      (out : Option (List Char)),
      json_serialize_gateway env gateway output n = .returned code out →
      code = 0 ∨ code = -1 ∨ code = -2 ∨ code = -3) ∧
    (∃ code out, json_serialize_gateway env (some g) (some buf) size = .returned code out) ∧
    ((∃ out, json_serialize_gateway env (some g) (some buf) size = .returned 0 out)
      ↔ ((∀ t ∈ gateway_frags env g, t.length ≤ env.int_max) ∧
          (gateway_frags env g).flatten.length < size)) ∧
    (¬ ((∀ t ∈ gateway_frags env g, t.length ≤ env.int_max) ∧
          (gateway_frags env g).flatten.length < size) →
      ∃ pre t post, gateway_frags env g = pre ++ t :: post ∧
        (∀ p ∈ pre, p.length ≤ env.int_max) ∧ pre.flatten.length < size ∧
        (env.int_max < t.length ∨ size ≤ pre.flatten.length + t.length)) ∧
    (∀ (pre : List (List Char)) (t : List Char) (post : List (List Char)),
      gateway_frags env g = pre ++ t :: post →
      (∀ p ∈ pre, p.length ≤ env.int_max) → pre.flatten.length < size →
      (env.int_max < t.length ∨ size ≤ pre.flatten.length + t.length) →
      serialize_body env g buf size
        = .ret (if env.int_max < t.length then -3 else -2)
            ⟨aborted buf size pre t, pre.flatten.length⟩ ∧
      json_serialize_gateway env (some g) (some buf) size
        = .returned (if env.int_max < t.length then -3 else -2)
            (some (aborted buf size pre t))) ∧
    (c_env.int_max
        < ("\"gatewayId\":\"".toList ++ huge_gateway.gateway_id ++ "\",".toList).length ∧
      json_serialize_gateway c_env (some huge_gateway) (some (List.replicate 64 'x')) 64
        = .returned (-3) (some (aborted (List.replicate 64 'x') 64 ["[\x7b".toList]
            ("\"gatewayId\":\"".toList ++ huge_gateway.gateway_id ++ "\",".toList)))) := by
  refine ⟨serialize_returned_code, ?_, ⟨?_, ?_⟩, ?_, ?_, ?_,
    huge_gateway_format_error _ 64 (List.length_replicate _ _) (by omega)⟩
  · rcases first_failure_exists env.int_max size (gateway_frags env g) 0 (by omega) with
      h | ⟨pre, t, post, h1, h2, h3, h4⟩
    · refine ⟨0, _, serialize_fits g buf size hcap h.1 hlen ?_⟩
      have := h.2
      rw [gateway_frags_flatten] at this
      simpa using this
    · exact ⟨_, _, serialize_abort_call g buf size pre t post hcap hlen h1 h2
        (by simpa using h3) (by simpa using h4)⟩
  · rintro ⟨out, h⟩
    have := serialize_zero_inv g buf size out hcap hlen h
    rw [gateway_frags_flatten]
    exact this
  · rintro ⟨hfmt, hfit⟩
    rw [gateway_frags_flatten] at hfit
    exact ⟨_, serialize_fits g buf size hcap hfmt hlen hfit⟩
  · intro hnot
    rcases first_failure_exists env.int_max size (gateway_frags env g) 0 (by omega) with
      h | ⟨pre, t, post, h1, h2, h3, h4⟩
    · exact absurd (by simpa using h) hnot
    · exact ⟨pre, t, post, h1, h2, by simpa using h3, by simpa using h4⟩
  · intro pre t post hsplit hpre hfit hfail
    exact ⟨serialize_abort g buf size pre t post hcap hlen hsplit hpre hfit hfail,
      serialize_abort_call g buf size pre t post hcap hlen hsplit hpre hfit hfail⟩
  · have : huge_gateway.gateway_id.length = 2147483648 := List.length_replicate _ _
    have hi : c_env.int_max = 2147483647 := rfl
    rw [List.length_append, List.length_append, this, hi]
    omega

set_option maxRecDepth 100000 in
/-- Witness for C14: the example record (313 characters) in a 64-byte buffer, in the "C"
locale with a 32-bit `int`: the first four fragments (61 characters) are appended, the
fifth does not fit, and the call returns -2 with the buffer full. -/
theorem first_failure_aborts_witness :
    within_capacity example_gateway ∧ (List.replicate 64 'x').length = 64 ∧ 1 ≤ 64 ∧
    json_serialize_gateway c_env (some example_gateway) (some (List.replicate 64 'x')) 64
      = .returned (-2) (some (aborted (List.replicate 64 'x') 64
          ["[\x7b".toList, "\"gatewayId\":\"GW1\",".toList, "\"date\":\"2024-01-01\",".toList,
            "\"deviceType\":\"meter\",".toList]
          "\"interval_minutes\":15,".toList)) ∧
    aborted (List.replicate 64 'x') 64
        ["[\x7b".toList, "\"gatewayId\":\"GW1\",".toList, "\"date\":\"2024-01-01\",".toList,
          "\"deviceType\":\"meter\",".toList]
        "\"interval_minutes\":15,".toList
      = ("[\x7b\"gatewayId\":\"GW1\",\"date\":\"2024-01-01\",\"deviceType\":\"meter\"," ++
          "\"i\x00").toList :=
  ⟨by decide, List.length_replicate _ _, by decide,
    ((first_failure_aborts c_env example_gateway (List.replicate 64 'x') 64 (by decide)
      (List.length_replicate _ _) (by decide)).2.2.2.2.1
      ["[\x7b".toList, "\"gatewayId\":\"GW1\",".toList, "\"date\":\"2024-01-01\",".toList,
        "\"deviceType\":\"meter\",".toList]
      "\"interval_minutes\":15,".toList
      ((gateway_frags c_env example_gateway).drop 5) (by decide) (by decide) (by decide)
      (by decide)).2,
    by decide⟩

/-! ## A double quote in a text field need not break the syntax -/

set_option maxRecDepth 100000 in
theorem quoted_gateway_text : gateway_text c_env quoted_gateway = quoted_json := by
  decide

theorem quoted_json_valid : JsonText quoted_json := by
  have hdevs : ∀ e ∈ example_gateway.readings.map (device_json c_env), JsonValue e := by
    intro e he
    obtain ⟨d, hd, rfl⟩ := List.mem_map.mp he
    obtain ⟨i, hi, rfl⟩ := mem_take_ofFn _ _ d hd
    exact JsonValue.object _
      (device_json_valid (rfl : c_env.decimal_point = '.') _
        (by show example_device.clean; decide))
  have hvalues : JsonObject (json_obj [json_kv "device_count"
      (fmt_lu example_gateway.values.device_count),
      json_kv "readings" (json_arr (example_gateway.readings.map (device_json c_env)))]) := by
    refine json_obj_valid _ (by simp) ?_
    intro m hm
    simp only [List.mem_cons, List.mem_singleton, List.not_mem_nil, or_false] at hm
    rcases hm with rfl | rfl
    · exact json_kv_member _ _ (by decide) (JsonValue.number _ (fmt_lu_number _))
    · exact json_kv_member _ _ (by decide) (JsonValue.array _ (json_arr_valid _ hdevs))
  have hobj : JsonObject (json_obj [json_kv "gatewayId" (json_str "GW1".toList),
      json_kv "x" (json_str "y".toList),
      json_kv "date" (json_str example_gateway.date),
      json_kv "deviceType" (json_str example_gateway.device_type),
      json_kv "interval_minutes" (fmt_lu example_gateway.interval_minutes),
      json_kv "total_readings" (fmt_lu example_gateway.total_readings),
      json_kv "values" (json_obj [json_kv "device_count"
          (fmt_lu example_gateway.values.device_count),
        json_kv "readings" (json_arr (example_gateway.readings.map (device_json c_env)))])]) := by
    refine json_obj_valid _ (by simp) ?_
    intro m hm
    simp only [List.mem_cons, List.mem_singleton, List.not_mem_nil, or_false] at hm
    rcases hm with rfl | rfl | rfl | rfl | rfl | rfl | rfl
    · exact json_kv_member _ _ (by decide) (JsonValue.string _ (json_str_valid _ (by decide)))
    · exact json_kv_member _ _ (by decide) (JsonValue.string _ (json_str_valid _ (by decide)))
    · exact json_kv_member _ _ (by decide) (JsonValue.string _ (json_str_valid _ (by decide)))
    · exact json_kv_member _ _ (by decide) (JsonValue.string _ (json_str_valid _ (by decide)))
    · exact json_kv_member _ _ (by decide) (JsonValue.number _ (fmt_lu_number _))
    · exact json_kv_member _ _ (by decide) (JsonValue.number _ (fmt_lu_number _))
    · exact json_kv_member _ _ (by decide) (JsonValue.object _ hvalues)
  refine ⟨[], quoted_json, [], by simp, JsonWs_nil, ?_, JsonWs_nil⟩
  refine JsonValue.array _ (json_arr_valid _ ?_)
  intro e he
  rw [List.mem_singleton] at he
  rw [he]
  exact JsonValue.object _ hobj

set_option maxRecDepth 100000 in
/-- C11 (counterexample): the gateway identifier of `quoted_gateway` contains double
quotes, its counts are within the capacities, the call with a 400-byte buffer returns 0,
and the text it leaves is a valid JSON text. -/
theorem quote_can_give_valid_json :
    '"' ∈ quoted_gateway.gateway_id ∧ within_capacity quoted_gateway ∧
    json_serialize_gateway c_env (some quoted_gateway) (some (List.replicate 400 'x')) 400
      = .returned 0
          (some (gateway_text c_env quoted_gateway ++ '\x00' :: List.replicate 78 'x')) ∧
    JsonText (gateway_text c_env quoted_gateway) :=
  ⟨by decide, by decide, by decide, by rw [quoted_gateway_text]; exact quoted_json_valid⟩

/-! ## The lexical scan accepts every JSON text -/

theorem isDigit_toNat (c : Char) (h : c.isDigit = true) : 48 ≤ c.toNat ∧ c.toNat ≤ 57 := by
  simp only [Char.isDigit, Bool.and_eq_true, decide_eq_true_eq] at h
  exact h

theorem isDigit_plain (c : Char) (h : c.isDigit = true) : c ≠ '"' ∧ 0x20 ≤ c.toNat := by
  have := isDigit_toNat c h
  refine ⟨?_, by omega⟩
  intro e
  rw [e] at h
  exact absurd h (by decide)

theorem lex_append (st : LexState) (a b : List Char) : lex st (a ++ b) = lex (lex st a) b := by
  simp [lex, List.foldl_append]

theorem lex_cons (st : LexState) (c : Char) (s : List Char) :
    lex st (c :: s) = lex (lex_step st c) s := rfl

theorem lex_nil (st : LexState) : lex st [] = st := rfl

theorem lex_bad (s : List Char) : lex .bad s = .bad := by
  induction s with
  | nil => rfl
  | cons c s ih => rw [lex_cons]; exact ih

theorem lex_step_out_plain (c : Char) (h1 : c ≠ '"') (h2 : 0x20 ≤ c.toNat) :
    lex_step .out c = .out := by
  have h3 : ¬ (c.toNat < 0x20 ∧ c ≠ '\t' ∧ c ≠ '\n' ∧ c ≠ '\r') := fun h => by omega
  simp only [lex_step, h1, h3, if_false]

theorem lex_step_str_plain (c : Char) (h1 : c ≠ '"') (h2 : c ≠ '\\') (h3 : 0x20 ≤ c.toNat) :
    lex_step .str c = .str := by
  have h4 : ¬ (c.toNat < 0x20) := by omega
  simp only [lex_step, h1, h2, h4, if_false]

theorem lex_plain (s : List Char) (h : ∀ c ∈ s, c ≠ '"' ∧ 0x20 ≤ c.toNat) :
    lex .out s = .out := by
  induction s with
  | nil => rfl
  | cons c s ih =>
    have hc := h c (List.mem_cons_self c s)
    rw [lex_cons, lex_step_out_plain c hc.1 hc.2]
    exact ih (fun x hx => h x (List.mem_cons_of_mem c hx))

theorem lex_ws (w : List Char) (h : JsonWs w) : lex .out w = .out := by
  induction w with
  | nil => rfl
  | cons c w ih =>
    have hc := h c (List.mem_cons_self c w)
    have hstep : lex_step .out c = .out := by
      rcases hc with rfl | rfl | rfl | rfl <;> decide
    rw [lex_cons, hstep]
    exact ih (fun x hx => h x (List.mem_cons_of_mem c hx))

theorem isHexDigit_plain (c : Char) (h : isHexDigit c = true) :
    c ≠ '"' ∧ c ≠ '\\' ∧ 0x20 ≤ c.toNat := by
  have hn : (48 ≤ c.toNat ∧ c.toNat ≤ 57) ∨ (97 ≤ c.toNat ∧ c.toNat ≤ 102) ∨
      (65 ≤ c.toNat ∧ c.toNat ≤ 70) := by
    simp only [isHexDigit, Bool.or_eq_true, Bool.and_eq_true, decide_eq_true_eq] at h
    rcases h with (h | h) | h
    · exact Or.inl (isDigit_toNat c h)
    · exact Or.inr (Or.inl h)
    · exact Or.inr (Or.inr h)
  have q : ('"').toNat = 34 := rfl
  have b : ('\\').toNat = 92 := rfl
  refine ⟨fun e => ?_, fun e => ?_, by omega⟩
  · rw [e] at hn; omega
  · rw [e] at hn; omega

theorem lex_chars (body : List Char) (h : JsonChars body) : lex .str body = .str := by
  induction h with
  | nil => rfl
  | unescaped c rest h1 h2 h3 _ ih =>
    rw [lex_cons, lex_step_str_plain c h2 h3 h1]
    exact ih
  | escape e rest he _ ih =>
    have hstep : lex_step .esc e = .str := by
      simp only [List.mem_cons, List.mem_singleton, List.not_mem_nil, or_false] at he
      rcases he with rfl | rfl | rfl | rfl | rfl | rfl | rfl | rfl <;> decide
    rw [lex_cons, lex_cons, show lex_step .str '\\' = .esc by decide, hstep]
    exact ih
  | unicode a b c d rest ha hb hc hd _ ih =>
    have pa := isHexDigit_plain a ha
    have pb := isHexDigit_plain b hb
    have pc := isHexDigit_plain c hc
    have pd := isHexDigit_plain d hd
    rw [lex_cons, lex_cons, lex_cons, lex_cons, lex_cons, lex_cons,
      show lex_step .str '\\' = .esc by decide, show lex_step .esc 'u' = .str by decide,
      lex_step_str_plain a pa.1 pa.2.1 pa.2.2, lex_step_str_plain b pb.1 pb.2.1 pb.2.2,
      lex_step_str_plain c pc.1 pc.2.1 pc.2.2, lex_step_str_plain d pd.1 pd.2.1 pd.2.2]
    exact ih

theorem lex_string (s : List Char) (h : JsonString s) : lex .out s = .out := by
  obtain ⟨body, rfl, hb⟩ := h
  rw [lex_cons, show lex_step .out '"' = .str by decide, lex_append, lex_chars body hb]
  rfl

theorem lex_digits (s : List Char) (h : ∀ c ∈ s, c.isDigit = true) : lex .out s = .out :=
  lex_plain s (fun c hc => isDigit_plain c (h c hc))

theorem lex_number (s : List Char) (h : JsonNumber s) : lex .out s = .out := by
  obtain ⟨minus, int, frac, exp, rfl, hm, hi, hf, he⟩ := h
  have h1 : lex .out minus = .out := by
    rcases hm with rfl | rfl <;> decide
  have h2 : lex .out int = .out := by
    rcases hi with rfl | ⟨d, rest, rfl, hd, -, hr⟩
    · decide
    · refine lex_digits _ (fun c hc => ?_)
      rcases List.mem_cons.mp hc with rfl | hc
      · exact hd
      · exact hr c hc
  have h3 : lex .out frac = .out := by
    rcases hf with rfl | ⟨ds, rfl, -, hds⟩
    · rfl
    · rw [lex_cons, show lex_step .out '.' = .out by decide]
      exact lex_digits _ hds
  have h4 : lex .out exp = .out := by
    rcases he with rfl | ⟨e, sign, ds, rfl, hee, hs, -, hds⟩
    · rfl
    · have hse : lex_step .out e = .out := by
        rcases hee with rfl | rfl <;> decide
      have hsign : lex .out sign = .out := by
        rcases hs with rfl | rfl | rfl <;> decide
      rw [lex_cons, hse, lex_append, hsign]
      exact lex_digits _ hds
  rw [lex_append, lex_append, lex_append, h1, h2, h3, h4]

theorem lex_value (s : List Char) (h : JsonValue s) : lex .out s = .out := by
  have ob : lex .out ['\x7b'] = .out := by decide
  have cb : lex .out ['\x7d'] = .out := by decide
  have os : lex .out ['['] = .out := by decide
  have cs : lex .out [']'] = .out := by decide
  have co : lex .out [':'] = .out := by decide
  have cm : lex .out [','] = .out := by decide
  refine JsonValue.rec (motive_1 := fun s _ => lex .out s = .out)
    (motive_2 := fun s _ => lex .out s = .out) (motive_3 := fun s _ => lex .out s = .out)
    (motive_4 := fun s _ => lex .out s = .out) (motive_5 := fun s _ => lex .out s = .out)
    ?_ ?_ ?_ ?_ ?_ ?_ ?_ ?_ ?_ ?_ ?_ ?_ ?_ ?_ ?_ h
  · intro s e; rw [e]; decide
  · intro s e; rw [e]; decide
  · intro s e; rw [e]; decide
  · intro s _ ih; exact ih
  · intro s _ ih; exact ih
  · intro s hn; exact lex_number s hn
  · intro s hs; exact lex_string s hs
  · intro s w1 w2 w3 w4 h1 h2 h3 h4 e
    rw [e]
    simp only [lex_append, lex_ws _ h1, lex_ws _ h2, lex_ws _ h3, lex_ws _ h4, ob, cb]
  · intro s w1 w2 ms w3 w4 h1 h2 _ h3 h4 e ih
    rw [e]
    simp only [lex_append, lex_ws _ h1, lex_ws _ h2, lex_ws _ h3, lex_ws _ h4, ob, cb, ih]
  · intro s k w1 w2 v hk h1 h2 _ e ih
    rw [e]
    simp only [lex_append, lex_string _ hk, lex_ws _ h1, lex_ws _ h2, co, ih]
  · intro s k w1 w2 v w3 w4 rest hk h1 h2 _ h3 h4 _ e ih1 ih2
    rw [e]
    simp only [lex_append, lex_string _ hk, lex_ws _ h1, lex_ws _ h2, lex_ws _ h3,
      lex_ws _ h4, co, cm, ih1, ih2]
  · intro s w1 w2 w3 w4 h1 h2 h3 h4 e
    rw [e]
    simp only [lex_append, lex_ws _ h1, lex_ws _ h2, lex_ws _ h3, lex_ws _ h4, os, cs]
  · intro s w1 w2 es w3 w4 h1 h2 _ h3 h4 e ih
    rw [e]
    simp only [lex_append, lex_ws _ h1, lex_ws _ h2, lex_ws _ h3, lex_ws _ h4, os, cs, ih]
  · intro s _ ih; exact ih
  · intro s v w1 w2 rest _ h1 h2 _ e ih1 ih2
    rw [e]
    simp only [lex_append, lex_ws _ h1, lex_ws _ h2, cm, ih1, ih2]

/-- Every JSON text scans from outside a string to outside a string. -/
theorem lex_text (s : List Char) (h : JsonText s) : lex .out s = .out := by
  obtain ⟨w1, v, w2, rfl, h1, hv, h2⟩ := h
  simp only [lex_append, lex_ws _ h1, lex_value _ hv, lex_ws _ h2]

/-! ## Control characters make the scan fail -/

theorem lex_hard_control (s : List Char) (h : has_hard_control s) :
    ∀ st : LexState, lex st s = .bad := by
  induction s with
  | nil => obtain ⟨c, hc, _⟩ := h; cases hc
  | cons a s ih =>
    intro st
    obtain ⟨c, hc, h1, h2, h3, h4⟩ := h
    rw [lex_cons]
    rcases List.mem_cons.mp hc with rfl | hc
    · have q : ('"').toNat = 34 := rfl
      have b : ('\\').toNat = 92 := rfl
      have hq : c ≠ '"' := fun e => by rw [e] at h1; omega
      have hb : c ≠ '\\' := fun e => by rw [e] at h1; omega
      have hstep : lex_step st c = .bad := by
        cases st <;> simp [lex_step, hq, hb, h1, h2, h3, h4]
      rw [hstep]
      exact lex_bad s
    · exact ih ⟨c, hc, h1, h2, h3, h4⟩ _

theorem lex_str_field (f : List Char) (hq : quote_free f) :
    (lex .str f = .str ∨ lex .str f = .bad) ∧ (has_control f → lex .str f = .bad) := by
  induction f with
  | nil => exact ⟨Or.inl rfl, fun ⟨c, hc, _⟩ => by cases hc⟩
  | cons a f ih =>
    have ha := hq a (List.mem_cons_self a f)
    have ih' := ih (fun x hx => hq x (List.mem_cons_of_mem a hx))
    rw [lex_cons]
    by_cases hctl : a.toNat < 0x20
    · have hstep : lex_step .str a = .bad := by simp [lex_step, ha.1, ha.2, hctl]
      rw [hstep, lex_bad]
      exact ⟨Or.inr rfl, fun _ => rfl⟩
    · rw [lex_step_str_plain a ha.1 ha.2 (by omega)]
      refine ⟨ih'.1, fun ⟨c, hc, hlt⟩ => ih'.2 ?_⟩
      rcases List.mem_cons.mp hc with rfl | hc
      · exact absurd hlt hctl
      · exact ⟨c, hc, hlt⟩

theorem LexTo_append (a b : List Char) (A B : Prop) (ha : LexTo a A) (hb : LexTo b B) :
    LexTo (a ++ b) (A ∨ B) := by
  obtain ⟨ha1, ha2⟩ := ha
  obtain ⟨hb1, hb2⟩ := hb
  rw [LexTo, lex_append]
  rcases ha1 with h | h
  · rw [h]
    refine ⟨hb1, fun hab => ?_⟩
    rcases hab with hA | hB
    · rw [ha2 hA] at h; cases h
    · exact hb2 hB
  · rw [h, lex_bad]
    exact ⟨Or.inr rfl, fun _ => rfl⟩

theorem LexTo_mono (s : List Char) (A B : Prop) (h : LexTo s A) (hBA : B → A) : LexTo s B :=
  ⟨h.1, fun hB => h.2 (hBA hB)⟩

theorem LexTo_plain (s : List Char) (h : ∀ c ∈ s, c ≠ '"' ∧ 0x20 ≤ c.toNat) :
    LexTo s False :=
  ⟨Or.inl (lex_plain s h), fun hf => hf.elim⟩

theorem LexTo_str (f : List Char) (hq : quote_free f) : LexTo (json_str f) (has_control f) := by
  obtain ⟨h1, h2⟩ := lex_str_field f hq
  have hopen : lex .out (['"'] ++ f ++ ['"']) = lex (lex .str f) ['"'] := by
    rw [lex_append, lex_append]
    rfl
  rw [LexTo, json_str, hopen]
  rcases h1 with h | h
  · rw [h]
    refine ⟨Or.inl rfl, fun hc => ?_⟩
    rw [h2 hc] at h
    cases h
  · rw [h]
    exact ⟨Or.inr rfl, fun _ => rfl⟩

theorem clean_text_quote_free (s : List Char) (h : clean_text s) : quote_free s :=
  fun c hc => ⟨(h c hc).1, (h c hc).2.1⟩

theorem clean_text_no_control (s : List Char) (h : clean_text s) : ¬ has_control s := by
  rintro ⟨c, hc, hlt⟩
  have := (h c hc).2.2
  omega

theorem LexTo_kv (name : String) (v : List Char) (C : Prop) (hname : clean_text name.toList)
    (hv : LexTo v C) : LexTo (json_kv name v) C := by
  have h1 := LexTo_mono _ _ False (LexTo_str _ (clean_text_quote_free _ hname))
    (fun hf => hf.elim)
  have h2 : LexTo [':'] False := LexTo_plain _ (by decide)
  have := LexTo_append _ _ _ _ (LexTo_append _ _ _ _ h1 h2) hv
  rw [json_kv]
  exact LexTo_mono _ _ _ this (fun hc => Or.inr hc)

theorem LexTo_intercalate {α : Type} (l : List α) (f : α → List Char) (C : α → Prop)
    (h : ∀ a ∈ l, LexTo (f a) (C a)) :
    LexTo (List.intercalate [','] (l.map f)) (∃ a ∈ l, C a) := by
  induction l with
  | nil => exact ⟨Or.inl rfl, fun ⟨a, ha, _⟩ => by cases ha⟩
  | cons x r ih =>
    have hx := h x (List.mem_cons_self x r)
    have hr := ih (fun a ha => h a (List.mem_cons_of_mem x ha))
    cases r with
    | nil =>
      rw [List.map_cons, List.map_nil, intercalate_single]
      refine LexTo_mono _ _ _ hx ?_
      rintro ⟨a, ha, hC⟩
      rw [List.mem_singleton] at ha
      rw [← ha]
      exact hC
    | cons y r =>
      rw [List.map_cons, List.map_cons, intercalate_cons_cons, ← List.map_cons]
      have hcomma : LexTo [','] False := LexTo_plain _ (by decide)
      have := LexTo_append _ _ _ _ hx (LexTo_append _ _ _ _ hcomma hr)
      refine LexTo_mono _ _ _ this ?_
      rintro ⟨a, ha, hC⟩
      rcases List.mem_cons.mp ha with rfl | ha
      · exact Or.inl hC
      · exact Or.inr (Or.inr ⟨a, ha, hC⟩)

theorem LexTo_obj (l : List (List Char × Prop)) (h : ∀ a ∈ l, LexTo a.1 a.2) :
    LexTo (json_obj (l.map Prod.fst)) (∃ a ∈ l, a.2) := by
  have h1 : LexTo ['\x7b'] False := LexTo_plain _ (by decide)
  have h2 : LexTo ['\x7d'] False := LexTo_plain _ (by decide)
  have := LexTo_append _ _ _ _ (LexTo_append _ _ _ _ h1 (LexTo_intercalate l Prod.fst _ h)) h2
  rw [json_obj]
  exact LexTo_mono _ _ _ this (fun hc => Or.inl (Or.inr hc))

theorem LexTo_arr {α : Type} (l : List α) (f : α → List Char) (C : α → Prop)
    (h : ∀ a ∈ l, LexTo (f a) (C a)) : LexTo (json_arr (l.map f)) (∃ a ∈ l, C a) := by
  have h1 : LexTo ['['] False := LexTo_plain _ (by decide)
  have h2 : LexTo [']'] False := LexTo_plain _ (by decide)
  have := LexTo_append _ _ _ _ (LexTo_append _ _ _ _ h1 (LexTo_intercalate l f C h)) h2
  rw [json_arr]
  exact LexTo_mono _ _ _ this (fun hc => Or.inl (Or.inr hc))

/-- Outside a string, a text without double quote leaves the scan outside a string or
fails it. -/
theorem LexTo_quoteless (s : List Char) (h : ∀ c ∈ s, c ≠ '"') : LexTo s False := by
  refine ⟨?_, fun hf => hf.elim⟩
  induction s with
  | nil => exact Or.inl rfl
  | cons c s ih =>
    have hc := h c (List.mem_cons_self c s)
    rw [lex_cons]
    by_cases hctl : c.toNat < 0x20 ∧ c ≠ '\t' ∧ c ≠ '\n' ∧ c ≠ '\r'
    · have : lex_step .out c = .bad := by
        simp only [lex_step, hc, if_false]
        exact if_pos hctl
      rw [this, lex_bad]
      exact Or.inr rfl
    · have : lex_step .out c = .out := by simp only [lex_step, hc, hctl, if_false]
      rw [this]
      exact ih (fun x hx => h x (List.mem_cons_of_mem c hx))

theorem fmt_f3_quoteless {env : Env} (hdp : env.decimal_point ≠ '"') (x : CFloat) :
    ∀ c ∈ fmt_f3 env x, c ≠ '"' := by
  cases x with
  | finite neg m e =>
    intro c hc
    simp only [fmt_f3, List.mem_append, List.mem_cons, List.mem_singleton,
      List.not_mem_nil, or_false] at hc
    have hdig : ∀ k, k < 10 → Nat.digitChar k ≠ '"' :=
      fun k hk => (isDigit_plain _ (digitChar_isDigit k hk)).1
    rcases hc with (hs | hd) | rfl | rfl | rfl | rfl
    · cases neg
      · simp at hs
      · simp only [if_true, List.mem_singleton] at hs
        rw [hs]; decide
    · exact (isDigit_plain c (toDigits_isDigit _ c hd)).1
    · exact hdp
    · exact hdig _ (Nat.mod_lt _ (by omega))
    · exact hdig _ (Nat.mod_lt _ (by omega))
    · exact hdig _ (Nat.mod_lt _ (by omega))
  | inf neg =>
    cases neg <;> (intro c hc; simp only [fmt_f3] at hc; revert c hc; decide)
  | nan neg =>
    cases neg <;> (intro c hc; simp only [fmt_f3] at hc; revert c hc; decide)

/-! ## The scan of the serializer's text -/

theorem mem_device_texts (d : JsonDeviceReading) (p : JsonMeterDataPoint) (hp : p ∈ d.points)
    (f : List Char) (hf : f ∈ p.texts) : f ∈ d.texts := by
  rw [JsonDeviceReading.texts, List.mem_append]
  exact Or.inr (List.mem_flatten.mpr ⟨p.texts, List.mem_map.mpr ⟨p, hp, rfl⟩, hf⟩)

theorem mem_gateway_texts (g : JsonGateway) (d : JsonDeviceReading) (hd : d ∈ g.readings)
    (f : List Char) (hf : f ∈ d.texts) : f ∈ g.texts := by
  rw [JsonGateway.texts, List.mem_append]
  exact Or.inr (List.mem_flatten.mpr ⟨d.texts, List.mem_map.mpr ⟨d, hd, rfl⟩, hf⟩)

theorem LexTo_point {env : Env} (hdp : env.decimal_point ≠ '"') (p : JsonMeterDataPoint)
    (hq : ∀ f ∈ p.texts, quote_free f) :
    LexTo (point_json env p) (∃ f ∈ p.texts, has_control f) := by
  have q1 := hq p.timestamp (by simp [JsonMeterDataPoint.texts])
  have q2 := hq p.meter_datetime (by simp [JsonMeterDataPoint.texts])
  have q3 := hq p.status (by simp [JsonMeterDataPoint.texts])
  have h := LexTo_obj
    [(json_kv "timestamp" (json_str p.timestamp), has_control p.timestamp),
     (json_kv "meter_datetime" (json_str p.meter_datetime), has_control p.meter_datetime),
     (json_kv "total_m3" (fmt_f3 env p.total_m3), False),
     (json_kv "status" (json_str p.status), has_control p.status)]
    (by
      intro a ha
      simp only [List.mem_cons, List.mem_singleton, List.not_mem_nil, or_false] at ha
      rcases ha with rfl | rfl | rfl | rfl
      · exact LexTo_kv _ _ _ (by decide) (LexTo_str _ q1)
      · exact LexTo_kv _ _ _ (by decide) (LexTo_str _ q2)
      · exact LexTo_kv _ _ _ (by decide) (LexTo_quoteless _ (fmt_f3_quoteless hdp _))
      · exact LexTo_kv _ _ _ (by decide) (LexTo_str _ q3))
  refine LexTo_mono _ _ _ h ?_
  rintro ⟨f, hf, hc⟩
  simp only [JsonMeterDataPoint.texts, List.mem_cons, List.mem_singleton, List.not_mem_nil,
    or_false] at hf
  rcases hf with rfl | rfl | rfl
  · exact ⟨_, List.mem_cons_self _ _, hc⟩
  · exact ⟨_, List.mem_cons_of_mem _ (List.mem_cons_self _ _), hc⟩
  · exact ⟨_, List.mem_cons_of_mem _ (List.mem_cons_of_mem _ (List.mem_cons_of_mem _ (List.mem_cons_self _ _))), hc⟩

theorem LexTo_device {env : Env} (hdp : env.decimal_point ≠ '"') (d : JsonDeviceReading)
    (hq : ∀ f ∈ d.texts, quote_free f) :
    LexTo (device_json env d) (∃ f ∈ d.texts, has_control f) := by
  have q1 := hq d.media (by simp [JsonDeviceReading.texts])
  have q2 := hq d.meter (by simp [JsonDeviceReading.texts])
  have q3 := hq d.device_id (by simp [JsonDeviceReading.texts])
  have q4 := hq d.unit (by simp [JsonDeviceReading.texts])
  have hdata := LexTo_arr d.points (point_json env) (fun p => ∃ f ∈ p.texts, has_control f)
    (fun p hp => LexTo_point hdp p (fun f hf => hq f (mem_device_texts d p hp f hf)))
  have h := LexTo_obj
    [(json_kv "media" (json_str d.media), has_control d.media),
     (json_kv "meter" (json_str d.meter), has_control d.meter),
     (json_kv "deviceId" (json_str d.device_id), has_control d.device_id),
     (json_kv "unit" (json_str d.unit), has_control d.unit),
     (json_kv "data" (json_arr (d.points.map (point_json env))),
       ∃ p ∈ d.points, ∃ f ∈ p.texts, has_control f)]
    (by
      intro a ha
      simp only [List.mem_cons, List.mem_singleton, List.not_mem_nil, or_false] at ha
      rcases ha with rfl | rfl | rfl | rfl | rfl
      · exact LexTo_kv _ _ _ (by decide) (LexTo_str _ q1)
      · exact LexTo_kv _ _ _ (by decide) (LexTo_str _ q2)
      · exact LexTo_kv _ _ _ (by decide) (LexTo_str _ q3)
      · exact LexTo_kv _ _ _ (by decide) (LexTo_str _ q4)
      · exact LexTo_kv _ _ _ (by decide) hdata)
  refine LexTo_mono _ _ _ h ?_
  rintro ⟨f, hf, hc⟩
  rw [JsonDeviceReading.texts, List.mem_append] at hf
  rcases hf with hf | hf
  · simp only [List.mem_cons, List.mem_singleton, List.not_mem_nil, or_false] at hf
    rcases hf with rfl | rfl | rfl | rfl
    · exact ⟨_, List.mem_cons_self _ _, hc⟩
    · exact ⟨_, List.mem_cons_of_mem _ (List.mem_cons_self _ _), hc⟩
    · exact ⟨_, List.mem_cons_of_mem _ (List.mem_cons_of_mem _ (List.mem_cons_self _ _)), hc⟩
    · exact ⟨_, List.mem_cons_of_mem _ (List.mem_cons_of_mem _ (List.mem_cons_of_mem _ (List.mem_cons_self _ _))), hc⟩
  · obtain ⟨t, ht, hft⟩ := List.mem_flatten.mp hf
    obtain ⟨p, hp, rfl⟩ := List.mem_map.mp ht
    exact ⟨_, List.mem_cons_of_mem _ (List.mem_cons_of_mem _ (List.mem_cons_of_mem _ (List.mem_cons_of_mem _ (List.mem_cons_self _ _)))), ⟨p, hp, f, hft, hc⟩⟩

theorem LexTo_gateway {env : Env} (hdp : env.decimal_point ≠ '"') (g : JsonGateway)
    (hq : ∀ f ∈ g.texts, quote_free f) :
    LexTo (gateway_json env g) (∃ f ∈ g.texts, has_control f) := by
  have q1 := hq g.gateway_id (by simp [JsonGateway.texts])
  have q2 := hq g.date (by simp [JsonGateway.texts])
  have q3 := hq g.device_type (by simp [JsonGateway.texts])
  have hdigits : ∀ n, LexTo (fmt_lu n) False :=
    fun n => LexTo_plain _ (fun c hc => isDigit_plain c (toDigits_isDigit n c hc))
  have hreadings := LexTo_arr g.readings (device_json env)
    (fun d => ∃ f ∈ d.texts, has_control f)
    (fun d hd => LexTo_device hdp d (fun f hf => hq f (mem_gateway_texts g d hd f hf)))
  have hvalues := LexTo_obj
    [(json_kv "device_count" (fmt_lu g.values.device_count), False),
     (json_kv "readings" (json_arr (g.readings.map (device_json env))),
       ∃ d ∈ g.readings, ∃ f ∈ d.texts, has_control f)]
    (by
      intro a ha
      simp only [List.mem_cons, List.mem_singleton, List.not_mem_nil, or_false] at ha
      rcases ha with rfl | rfl
      · exact LexTo_kv _ _ _ (by decide) (hdigits _)
      · exact LexTo_kv _ _ _ (by decide) hreadings)
  have hobj := LexTo_obj
    [(json_kv "gatewayId" (json_str g.gateway_id), has_control g.gateway_id),
     (json_kv "date" (json_str g.date), has_control g.date),
     (json_kv "deviceType" (json_str g.device_type), has_control g.device_type),
     (json_kv "interval_minutes" (fmt_lu g.interval_minutes), False),
     (json_kv "total_readings" (fmt_lu g.total_readings), False),
     (json_kv "values" (json_obj [json_kv "device_count" (fmt_lu g.values.device_count),
        json_kv "readings" (json_arr (g.readings.map (device_json env)))]),
       ∃ d ∈ g.readings, ∃ f ∈ d.texts, has_control f)]
    (by
      intro a ha
      simp only [List.mem_cons, List.mem_singleton, List.not_mem_nil, or_false] at ha
      rcases ha with rfl | rfl | rfl | rfl | rfl | rfl
      · exact LexTo_kv _ _ _ (by decide) (LexTo_str _ q1)
      · exact LexTo_kv _ _ _ (by decide) (LexTo_str _ q2)
      · exact LexTo_kv _ _ _ (by decide) (LexTo_str _ q3)
      · exact LexTo_kv _ _ _ (by decide) (hdigits _)
      · exact LexTo_kv _ _ _ (by decide) (hdigits _)
      · refine LexTo_kv _ _ _ (by decide) (LexTo_mono _ _ _ hvalues ?_)
        intro h
        exact ⟨_, List.mem_cons_of_mem _ (List.mem_cons_self _ _), h⟩)
  have h1 : LexTo ['['] False := LexTo_plain _ (by decide)
  have h2 : LexTo [']'] False := LexTo_plain _ (by decide)
  have hall := LexTo_append _ _ _ _ (LexTo_append _ _ _ _ h1 hobj) h2
  have hshape : gateway_json env g = ['['] ++ gateway_object_json env g ++ [']'] := by
    simp [gateway_json, json_arr, List.intercalate]
  rw [hshape]
  refine LexTo_mono _ _ _ hall ?_
  rintro ⟨f, hf, hc⟩
  refine Or.inl (Or.inr ?_)
  rw [JsonGateway.texts, List.mem_append] at hf
  rcases hf with hf | hf
  · simp only [List.mem_cons, List.mem_singleton, List.not_mem_nil, or_false] at hf
    rcases hf with rfl | rfl | rfl
    · exact ⟨_, List.mem_cons_self _ _, hc⟩
    · exact ⟨_, List.mem_cons_of_mem _ (List.mem_cons_self _ _), hc⟩
    · exact ⟨_, List.mem_cons_of_mem _ (List.mem_cons_of_mem _ (List.mem_cons_self _ _)), hc⟩
  · obtain ⟨t, ht, hft⟩ := List.mem_flatten.mp hf
    obtain ⟨d, hd, rfl⟩ := List.mem_map.mp ht
    exact ⟨_, List.mem_cons_of_mem _ (List.mem_cons_of_mem _ (List.mem_cons_of_mem _ (List.mem_cons_of_mem _ (List.mem_cons_of_mem _ (List.mem_cons_self _ _))))), ⟨d, hd, f, hft, hc⟩⟩

/-- Without double quote and backslash in the text fields, a control character in one of
them leaves the text outside the JSON grammar. -/
theorem control_breaks_json {env : Env} (hdp : env.decimal_point ≠ '"') (g : JsonGateway)
    (hq : ∀ f ∈ g.texts, quote_free f) (hc : ∃ f ∈ g.texts, has_control f) :
    ¬ JsonText (gateway_text env g) := by
  intro hj
  have hout := lex_text _ hj
  have hbad := (LexTo_gateway hdp g hq).2 hc
  rw [gateway_text_eq_json] at hout
  rw [hout] at hbad
  cases hbad

theorem mem_intercalate (xs : List (List Char)) (x : List Char) (hx : x ∈ xs) (c : Char)
    (hc : c ∈ x) : c ∈ List.intercalate [','] xs := by
  obtain ⟨i, hi⟩ := List.mem_iff_getElem?.mp hx
  obtain ⟨pre, post, hpp⟩ := intercalate_infix xs i x hi
  rw [hpp]
  exact List.mem_append_left _ (List.mem_append_right _ hc)

theorem mem_point_text {env : Env} (p : JsonMeterDataPoint) (f : List Char)
    (hf : f ∈ p.texts) (c : Char) (hc : c ∈ f) : c ∈ point_text env p := by
  simp only [JsonMeterDataPoint.texts, List.mem_cons, List.mem_singleton, List.not_mem_nil,
    or_false] at hf
  rcases hf with rfl | rfl | rfl <;> simp [point_text, List.mem_append, hc]

theorem mem_device_text {env : Env} (d : JsonDeviceReading) (f : List Char)
    (hf : f ∈ d.texts) (c : Char) (hc : c ∈ f) : c ∈ device_text env d := by
  rw [JsonDeviceReading.texts, List.mem_append] at hf
  rcases hf with hf | hf
  · simp only [List.mem_cons, List.mem_singleton, List.not_mem_nil, or_false] at hf
    rcases hf with rfl | rfl | rfl | rfl <;>
      simp [device_text, device_head, List.mem_append, hc]
  · obtain ⟨t, ht, hft⟩ := List.mem_flatten.mp hf
    obtain ⟨p, hp, rfl⟩ := List.mem_map.mp ht
    have := mem_intercalate (d.points.map (point_text env)) (point_text env p)
      (List.mem_map.mpr ⟨p, hp, rfl⟩) c (mem_point_text p f hft c hc)
    simp [device_text, List.mem_append, this]

theorem mem_gateway_text {env : Env} (g : JsonGateway) (f : List Char)
    (hf : f ∈ g.texts) (c : Char) (hc : c ∈ f) : c ∈ gateway_text env g := by
  rw [JsonGateway.texts, List.mem_append] at hf
  rcases hf with hf | hf
  · simp only [List.mem_cons, List.mem_singleton, List.not_mem_nil, or_false] at hf
    rcases hf with rfl | rfl | rfl <;>
      simp [gateway_text, gateway_head, List.mem_append, hc]
  · obtain ⟨t, ht, hft⟩ := List.mem_flatten.mp hf
    obtain ⟨d, hd, rfl⟩ := List.mem_map.mp ht
    have := mem_intercalate (g.readings.map (device_text env)) (device_text env d)
      (List.mem_map.mpr ⟨d, hd, rfl⟩) c (mem_device_text d f hft c hc)
    simp [gateway_text, List.mem_append, this]

/-- A control character other than tab, line feed and carriage return in a text field
leaves the text outside the JSON grammar, whatever else the fields hold. -/
theorem hard_control_breaks_json {env : Env} (g : JsonGateway)
    (hc : ∃ f ∈ g.texts, has_hard_control f) : ¬ JsonText (gateway_text env g) := by
  obtain ⟨f, hf, c, hcf, hctl⟩ := hc
  intro hj
  have hout := lex_text _ hj
  rw [lex_hard_control _ ⟨c, mem_gateway_text g f hf c hcf, hctl⟩ .out] at hout
  cases hout

set_option maxRecDepth 100000 in
theorem lone_quote_breaks_json : ¬ JsonText (gateway_text c_env lone_quote_gateway) := by
  intro hj
  have hout := lex_text _ hj
  revert hout
  decide

/-- C11 (amended): text fields are copied verbatim, without validation or escaping: on
success the buffer holds `gateway_text g`.  That text is not valid JSON (a) whenever some
text field the call reads contains a control character other than tab, line feed and
carriage return, and (b) whenever some such field contains any control character and no
such field contains a double quote or a backslash (the decimal-point character of the
locale not being a double quote itself).  A double quote in a text field can break the
syntax too (a gateway identifier that is one double quote does), but it does not
always. -/
theorem unescaped_text_breaks_json (env : Env) (g : JsonGateway) (buf : List Char)
    (size : Nat) (out : Option (List Char)) (hcap : within_capacity g)
    (hlen : buf.length = size)
    (h : json_serialize_gateway env (some g) (some buf) size = .returned 0 out) :
    out = some (gateway_text env g ++ '\x00' :: buf.drop ((gateway_text env g).length + 1)) ∧
    ((∃ f ∈ g.texts, has_hard_control f) → ¬ JsonText (gateway_text env g)) ∧
    (env.decimal_point ≠ '"' → (∀ f ∈ g.texts, quote_free f) →
      (∃ f ∈ g.texts, has_control f) → ¬ JsonText (gateway_text env g)) ∧
    ('"' ∈ lone_quote_gateway.gateway_id ∧
      ¬ JsonText (gateway_text c_env lone_quote_gateway)) :=
  ⟨(serialize_zero g buf size out hcap hlen h).2, hard_control_breaks_json g,
    fun hdp => control_breaks_json hdp g, by decide, lone_quote_breaks_json⟩

set_option maxRecDepth 100000 in
theorem newline_run :
    json_serialize_gateway c_env (some newline_gateway) (some (List.replicate 400 'x')) 400
      = .returned 0
          (some (gateway_text c_env newline_gateway ++ '\x00' :: List.replicate 85 'x')) := by
  decide

set_option maxRecDepth 100000 in
/-- Witness for C11 (amended): the example record with a line feed in the gateway
identifier, in a 400-byte buffer, in the "C" locale. -/
theorem unescaped_text_breaks_json_witness :
    within_capacity newline_gateway ∧ (List.replicate 400 'x').length = 400 ∧
    json_serialize_gateway c_env (some newline_gateway) (some (List.replicate 400 'x')) 400
      = .returned 0
          (some (gateway_text c_env newline_gateway ++ '\x00' :: List.replicate 85 'x')) ∧
    c_env.decimal_point ≠ '"' ∧
    (∀ f ∈ newline_gateway.texts, quote_free f) ∧
    (∃ f ∈ newline_gateway.texts, has_control f) ∧
    ¬ JsonText (gateway_text c_env newline_gateway) :=
  ⟨by decide, List.length_replicate _ _, newline_run, by decide, by decide, by decide,
    (unescaped_text_breaks_json c_env newline_gateway (List.replicate 400 'x') 400
      (some (gateway_text c_env newline_gateway ++ '\x00' :: List.replicate 85 'x')) (by decide)
      (List.length_replicate _ _) newline_run).2.2.1 (by decide) (by decide) (by decide)⟩

/-! ## The structural scan accepts every JSON text -/

theorem scan_append (st : ScanState) (a b : List Char) :
    scan st (a ++ b) = scan (scan st a) b := by
  simp [scan, List.foldl_append]

theorem scan_cons (st : ScanState) (c : Char) (s : List Char) :
    scan st (c :: s) = scan (scan_step st c) s := rfl

theorem scan_step_inert (nest : List Bool) (c : Char) (h : inert c) :
    scan_step ⟨.out, nest, false⟩ c = ⟨.out, nest, false⟩ := by
  obtain ⟨h1, h2, h3, h4, h5, h6⟩ := h
  simp only [scan_step, h1, h2, h3, h4, h5, h6, if_false, or_self]
  split <;> rfl

theorem scan_inert (s : List Char) (h : ∀ c ∈ s, inert c) (nest : List Bool) :
    scan ⟨.out, nest, false⟩ s = ⟨.out, nest, false⟩ := by
  induction s with
  | nil => rfl
  | cons c s ih =>
    rw [scan_cons, scan_step_inert nest c (h c (List.mem_cons_self c s))]
    exact ih (fun x hx => h x (List.mem_cons_of_mem c hx))

theorem scan_ws (w : List Char) (h : JsonWs w) (nest : List Bool) (b : Bool) :
    scan ⟨.out, nest, b⟩ w = ⟨.out, nest, b⟩ := by
  induction w with
  | nil => rfl
  | cons c w ih =>
    have hc := h c (List.mem_cons_self c w)
    have hstep : scan_step ⟨.out, nest, b⟩ c = ⟨.out, nest, b⟩ := by
      rcases hc with rfl | rfl | rfl | rfl <;> rfl
    rw [scan_cons, hstep]
    exact ih (fun x hx => h x (List.mem_cons_of_mem c hx))

theorem scan_step_str (nest : List Bool) (b : Bool) (c : Char) :
    scan_step ⟨.str, nest, b⟩ c = ⟨lex_step .str c, nest, b⟩ := rfl

theorem scan_step_esc (nest : List Bool) (b : Bool) (c : Char) :
    scan_step ⟨.esc, nest, b⟩ c = ⟨lex_step .esc c, nest, b⟩ := rfl

theorem scan_chars (body : List Char) (h : JsonChars body) (nest : List Bool) (b : Bool) :
    scan ⟨.str, nest, b⟩ body = ⟨.str, nest, b⟩ := by
  induction h with
  | nil => rfl
  | unescaped c rest h1 h2 h3 _ ih =>
    rw [scan_cons, scan_step_str, lex_step_str_plain c h2 h3 h1]
    exact ih
  | escape e rest he _ ih =>
    have hstep : lex_step .esc e = .str := by
      simp only [List.mem_cons, List.mem_singleton, List.not_mem_nil, or_false] at he
      rcases he with rfl | rfl | rfl | rfl | rfl | rfl | rfl | rfl <;> decide
    rw [scan_cons, scan_cons, scan_step_str, show lex_step .str '\\' = .esc by decide,
      scan_step_esc, hstep]
    exact ih
  | unicode a b' c d rest ha hb hc hd _ ih =>
    have pa := isHexDigit_plain a ha
    have pb := isHexDigit_plain b' hb
    have pc := isHexDigit_plain c hc
    have pd := isHexDigit_plain d hd
    rw [scan_cons, scan_cons, scan_cons, scan_cons, scan_cons, scan_cons,
      scan_step_str, show lex_step .str '\\' = .esc by decide,
      scan_step_esc, show lex_step .esc 'u' = .str by decide,
      scan_step_str, lex_step_str_plain a pa.1 pa.2.1 pa.2.2,
      scan_step_str, lex_step_str_plain b' pb.1 pb.2.1 pb.2.2,
      scan_step_str, lex_step_str_plain c pc.1 pc.2.1 pc.2.2,
      scan_step_str, lex_step_str_plain d pd.1 pd.2.1 pd.2.2]
    exact ih

/-- A string token is read whether or not a member name is due, and none is due after
it. -/
theorem scan_string (s : List Char) (h : JsonString s) (nest : List Bool) (b : Bool) :
    scan ⟨.out, nest, b⟩ s = ⟨.out, nest, false⟩ := by
  obtain ⟨body, rfl, hb⟩ := h
  have hopen : scan_step ⟨.out, nest, b⟩ '"' = ⟨.str, nest, false⟩ := rfl
  rw [scan_cons, hopen, scan_append, scan_chars body hb]
  rfl

theorem isDigit_inert (c : Char) (h : c.isDigit = true) : inert c := by
  have hn := isDigit_toNat c h
  refine ⟨?_, ?_, ?_, ?_, ?_, ?_⟩ <;> (intro e; rw [e] at h; exact absurd h (by decide))

theorem number_inert (s : List Char) (h : JsonNumber s) : ∀ c ∈ s, inert c := by
  obtain ⟨minus, int, frac, exp, rfl, hm, hi, hf, he⟩ := h
  intro c hc
  simp only [List.mem_append] at hc
  rcases hc with ((hc | hc) | hc) | hc
  · rcases hm with rfl | rfl
    · cases hc
    · rw [List.mem_singleton] at hc; rw [hc]; decide
  · rcases hi with rfl | ⟨d, rest, rfl, hd, -, hr⟩
    · rw [List.mem_singleton] at hc; rw [hc]; decide
    · rcases List.mem_cons.mp hc with rfl | hc
      · exact isDigit_inert _ hd
      · exact isDigit_inert _ (hr c hc)
  · rcases hf with rfl | ⟨ds, rfl, -, hds⟩
    · cases hc
    · rcases List.mem_cons.mp hc with rfl | hc
      · decide
      · exact isDigit_inert _ (hds c hc)
  · rcases he with rfl | ⟨e, sign, ds, rfl, hee, hs, -, hds⟩
    · cases hc
    · rcases List.mem_cons.mp hc with rfl | hc
      · rcases hee with rfl | rfl <;> decide
      · rcases List.mem_append.mp hc with hc | hc
        · rcases hs with rfl | rfl | rfl
          · cases hc
          · rw [List.mem_singleton] at hc; rw [hc]; decide
          · rw [List.mem_singleton] at hc; rw [hc]; decide
        · exact isDigit_inert _ (hds c hc)

/-- The structural scan of a JSON value ends where it started: outside a string, with the
same open containers, and with no member name due. -/
theorem scan_value (s : List Char) (h : JsonValue s) :
    ∀ nest : List Bool, scan ⟨.out, nest, false⟩ s = ⟨.out, nest, false⟩ := by
  have ob : ∀ nest, scan ⟨.out, nest, false⟩ ['\x7b'] = ⟨.out, true :: nest, false⟩ :=
    fun _ => rfl
  have cb : ∀ nest, scan ⟨.out, true :: nest, false⟩ ['\x7d'] = ⟨.out, nest, false⟩ :=
    fun _ => rfl
  have os : ∀ nest, scan ⟨.out, nest, false⟩ ['['] = ⟨.out, false :: nest, false⟩ :=
    fun _ => rfl
  have cs : ∀ nest, scan ⟨.out, false :: nest, false⟩ [']'] = ⟨.out, nest, false⟩ :=
    fun _ => rfl
  have co : ∀ nest, scan ⟨.out, nest, false⟩ [':'] = ⟨.out, nest, false⟩ := fun _ => rfl
  have cmo : ∀ nest,
      scan ⟨.out, true :: nest, false⟩ [','] = ⟨.out, true :: nest, true⟩ := fun _ => rfl
  have cma : ∀ nest,
      scan ⟨.out, false :: nest, false⟩ [','] = ⟨.out, false :: nest, false⟩ := fun _ => rfl
  refine JsonValue.rec
    (motive_1 := fun s _ => ∀ nest, scan ⟨.out, nest, false⟩ s = ⟨.out, nest, false⟩)
    (motive_2 := fun s _ => ∀ nest, scan ⟨.out, nest, false⟩ s = ⟨.out, nest, false⟩)
    (motive_3 := fun s _ => ∀ nest b,
      scan ⟨.out, true :: nest, b⟩ s = ⟨.out, true :: nest, false⟩)
    (motive_4 := fun s _ => ∀ nest, scan ⟨.out, nest, false⟩ s = ⟨.out, nest, false⟩)
    (motive_5 := fun s _ => ∀ nest,
      scan ⟨.out, false :: nest, false⟩ s = ⟨.out, false :: nest, false⟩)
    ?_ ?_ ?_ ?_ ?_ ?_ ?_ ?_ ?_ ?_ ?_ ?_ ?_ ?_ ?_ h
  · intro s e nest; rw [e]; exact scan_inert _ (by decide) nest
  · intro s e nest; rw [e]; exact scan_inert _ (by decide) nest
  · intro s e nest; rw [e]; exact scan_inert _ (by decide) nest
  · intro s _ ih; exact ih
  · intro s _ ih; exact ih
  · intro s hn nest; exact scan_inert s (number_inert s hn) nest
  · intro s hs nest; exact scan_string s hs nest false
  · intro s w1 w2 w3 w4 h1 h2 h3 h4 e nest
    rw [e]
    simp only [scan_append, scan_ws _ h1, scan_ws _ h2, scan_ws _ h3, scan_ws _ h4, ob, cb]
  · intro s w1 w2 ms w3 w4 h1 h2 _ h3 h4 e ih nest
    rw [e]
    simp only [scan_append, scan_ws _ h1, scan_ws _ h2, scan_ws _ h3, scan_ws _ h4, ob, cb,
      ih]
  · intro s k w1 w2 v hk h1 h2 _ e ih nest b
    rw [e]
    simp only [scan_append, scan_string _ hk, scan_ws _ h1, scan_ws _ h2, co, ih]
  · intro s k w1 w2 v w3 w4 rest hk h1 h2 _ h3 h4 _ e ih1 ih2 nest b
    rw [e]
    simp only [scan_append, scan_string _ hk, scan_ws _ h1, scan_ws _ h2, scan_ws _ h3,
      scan_ws _ h4, co, cmo, ih1, ih2]
  · intro s w1 w2 w3 w4 h1 h2 h3 h4 e nest
    rw [e]
    simp only [scan_append, scan_ws _ h1, scan_ws _ h2, scan_ws _ h3, scan_ws _ h4, os, cs]
  · intro s w1 w2 es w3 w4 h1 h2 _ h3 h4 e ih nest
    rw [e]
    simp only [scan_append, scan_ws _ h1, scan_ws _ h2, scan_ws _ h3, scan_ws _ h4, os, cs,
      ih]
  · intro s _ ih nest; exact ih (false :: nest)
  · intro s v w1 w2 rest _ h1 h2 _ e ih1 ih2 nest
    rw [e]
    simp only [scan_append, scan_ws _ h1, scan_ws _ h2, cma, ih1, ih2]

/-- Every JSON text passes the structural scan. -/
theorem scan_text (s : List Char) (h : JsonText s) :
    scan ⟨.out, [], false⟩ s = ⟨.out, [], false⟩ := by
  obtain ⟨w1, v, w2, rfl, h1, hv, h2⟩ := h
  simp only [scan_append, scan_ws _ h1, scan_value _ hv, scan_ws _ h2]

/-! ## A decimal comma breaks the syntax -/

set_option maxRecDepth 100000 in
theorem example_text_comma_scan :
    (scan ⟨.out, [], false⟩ example_text_comma).mode = .bad := by
  decide

theorem example_text_comma_invalid : ¬ JsonText example_text_comma := by
  intro hj
  have h := example_text_comma_scan
  rw [scan_text _ hj] at h
  cases h

set_option maxRecDepth 100000 in
/-- C10 (counterexample): where the decimal-point character of the numeric locale is the
comma, the example record (counts within the capacities, text fields without double quote,
backslash and control character, `total_m3` finite) is serialized with return code 0 to a
text that reads `"total_m3":12,345` and is not a JSON text: behind the `,` inside the
object a member name has to follow, not `345`. -/
theorem decimal_comma_breaks_json :
    comma_env.decimal_point = ',' ∧ within_capacity example_gateway ∧
    example_gateway.clean ∧
    json_serialize_gateway comma_env (some example_gateway) (some (List.replicate 400 'x')) 400
      = .returned 0 (some (gateway_text comma_env example_gateway
          ++ '\x00' :: List.replicate 86 'x')) ∧
    gateway_text comma_env example_gateway = example_text_comma ∧
    ¬ JsonText (gateway_text comma_env example_gateway) := by
  have ht : gateway_text comma_env example_gateway = example_text_comma := by decide
  refine ⟨rfl, by decide, by decide, by decide, ht, ?_⟩
  rw [ht]
  exact example_text_comma_invalid

end JsonSerializer
